import Mathlib

/-!
# templates3: typed transformation pipelines and standalone utilities

A shallow embedding of the two pipeline programs of the repository,
`n313_1.cpp` (`ProductionLine`) and `n315.cpp` (`DataProcessingPipeline`),
of the commission calculator of `n302.cpp`, the ledger of `n313.cpp`, the
cumulative reducer of `n301.cpp` and the tuples of `n313_2.cpp`,
`n313_3.cpp` and `n313_4.cpp`, together with the arithmetic of the C++
`double` they compute with.

Conventions of the embedding.

* A class template whose parameter pack is a list of stage types becomes a
  structure holding the list of the stages' static member functions; the
  record types a pipeline passes through become one sum type of records.
* A call that the compiler rejects (a deleted member, a failing
  `static_assert`, a member that does not exist, arguments of the wrong type)
  yields `Fault.ill_formed`; an exception leaving a call yields `Fault.thrown`.
* Whatever a call can write to outside its arguments (the console) is an
  explicit `World` value, and a non-const member function returns the state
  of the object it was called on next to its result.
* `std::string` and `const char*` become `String`, `int` becomes `Int`,
  `double` becomes `Double` below.
-/

/-! ## The C++ `double` -/

/-- IEEE 754 binary64 values. `fin neg mant exp` is the finite number
`(-1)^neg * mant * 2^exp`; the arithmetic below only produces the canonical
encodings, `-1074 ≤ exp ≤ 971` and `mant < 2^53`, with `2^52 ≤ mant` unless
`exp = -1074` (zeros and subnormals). One NaN stands for all NaNs. -/
inductive Double where
  | nan : Double
  | inf (neg : Bool) : Double
  | fin (neg : Bool) (mant : Nat) (exp : Int) : Double
  deriving DecidableEq, Repr

namespace Double

/-- Number of binary digits of `n` (`fuel` bounds the recursion; `n` suffices). -/
def bitLength : Nat → Nat → Nat
  | 0, _ => 0
  | fuel + 1, n => if n = 0 then 0 else bitLength fuel (n / 2) + 1

/-- For positive `p`, `q`: the integer `k` with `2^k ≤ p / q < 2^(k+1)`. -/
def floorLog2 (p q : Nat) : Int :=
  let k : Int := (bitLength p p : Int) - (bitLength q q : Int)
  if (if 0 ≤ k then q * 2 ^ k.toNat ≤ p else q ≤ p * 2 ^ (-k).toNat) then k else k - 1

/-- The binary64 value nearest to the rational `(-1)^neg * p / q` (`q > 0`),
ties to the even significand, with gradual underflow and overflow to
infinity: the rounding every binary64 operation and literal applies. -/
def roundRat (neg : Bool) (p q : Nat) : Double :=
  if p = 0 then fin neg 0 (-1074)
  else
    let e : Int := max (floorLog2 p q - 52) (-1074)
    let num : Nat := if e ≤ 0 then p * 2 ^ (-e).toNat else p
    let den : Nat := if e ≤ 0 then q else q * 2 ^ e.toNat
    let quo := num / den
    let rem := num % den
    let m := if den < 2 * rem ∨ (2 * rem = den ∧ quo % 2 = 1) then quo + 1 else quo
    let m' := if m = 2 ^ 53 then 2 ^ 52 else m
    let e' := if m = 2 ^ 53 then e + 1 else e
    if 971 < e' then inf neg else fin neg m' e'

/-- Rounding of the dyadic number `(-1)^neg * m * 2^e`. -/
def roundDyadic (neg : Bool) (m : Nat) (e : Int) : Double :=
  if 0 ≤ e then roundRat neg (m * 2 ^ e.toNat) 1 else roundRat neg m (2 ^ (-e).toNat)

/-- The decimal floating literal `digits * 10^(-scale)`: `lit 10 2` is the
literal `0.10`, `lit 40000 1` is `4000.0`. -/
def lit (digits : Nat) (scale : Nat) : Double := roundRat false digits (10 ^ scale)

/-- Conversion of an `int` to `double`. -/
def ofInt (n : Int) : Double := roundRat (decide (n < 0)) n.natAbs 1

/-- Binary64 multiplication. -/
def mul : Double → Double → Double
  | nan, _ => nan
  | _, nan => nan
  | inf s, inf t => inf (xor s t)
  | inf s, fin t m _ => if m = 0 then nan else inf (xor s t)
  | fin s m _, inf t => if m = 0 then nan else inf (xor s t)
  | fin s m e, fin t n f => roundDyadic (xor s t) (m * n) (e + f)

/-- Binary64 addition. -/
def add : Double → Double → Double
  | nan, _ => nan
  | _, nan => nan
  | inf s, inf t => if s = t then inf s else nan
  | inf s, fin _ _ _ => inf s
  | fin _ _ _, inf t => inf t
  | fin s m e, fin t n f =>
    let g := min e f
    let a : Int := (if s then -1 else 1) * ((m * 2 ^ (e - g).toNat : Nat) : Int)
    let b : Int := (if t then -1 else 1) * ((n * 2 ^ (f - g).toNat : Nat) : Int)
    let c := a + b
    if c = 0 then fin (s && t) 0 (-1074)
    else roundDyadic (decide (c < 0)) c.natAbs g

instance : Mul Double := ⟨mul⟩

instance : Add Double := ⟨add⟩

end Double

/-! ## Calls, faults and the world -/

/-- Why a call yields no value: the program containing it is rejected when it
is built, or an exception of type `ε` leaves the call. -/
inductive Fault (ε : Type) where
  | ill_formed : Fault ε
  | thrown (e : ε) : Fault ε
  deriving DecidableEq, Repr

deriving instance DecidableEq for Except

/-- What a call to a static function leaves behind when run in a world:
the value returned or the fault, and the world after the call. -/
abbrev Outcome (World ε α : Type) : Type := Except (Fault ε) α × World

/-- What a call to a non-const member function leaves behind: the value
returned or the fault, the object it was called on, and the world. -/
structure Call (Self World ε α : Type) where
  result : Except (Fault ε) α
  self : Self
  world : World

/-- A stage without call arguments that is a function of the record: on
every record `r`, in every world, it returns `transform r`; what else it
does (writing a log) is the effect `effect r` on the world. -/
structure FunctionStage (World R : Type) where
  transform : R → R
  effect : R → World → World

/-- The call of a stage that is a function of the record. -/
def FunctionStage.run {World ε R : Type} (S : FunctionStage World R) :
    R → World → Outcome World ε R :=
  fun r w => (Except.ok (S.transform r), S.effect r w)

/-- A stage that is a pure function of the record: it returns normally and
leaves the world alone. -/
def pureStage {World ε R : Type} (f : R → R) : R → World → Outcome World ε R :=
  fun r w => (Except.ok (f r), w)

/-- A stage with call arguments that is a function of the record and the
arguments: it returns `transform r args`; what else it does is the effect
`effect r args` on the world. -/
structure FunctionAction (World R A : Type) where
  transform : R → A → R
  effect : R → A → World → World

/-- The call of a stage that is a function of the record and the arguments. -/
def FunctionAction.run {World ε R A : Type} (S : FunctionAction World R A) :
    R → A → World → Outcome World ε R :=
  fun r args w => (Except.ok (S.transform r args), S.effect r args w)

/-! ## n313_1.cpp: the production line -/

namespace n313_manufacturing

/-- A department type, given by its static member `Department::process`
instantiated at the product states of the line. -/
abbrev Department (ProductState World ε : Type) : Type :=
  ProductState → World → Outcome World ε ProductState

/-- The class template `ProductionLine<ProductState, Department,
RemainingDepartments...>`: the state held and the departments still to run.
The specialisation `ProductionLine<ProductState>` is the empty list. -/
structure ProductionLine (ProductState World ε : Type) where
  current_state : ProductState
  departments : List (Department ProductState World ε)

/-- The member `process()`. The specialisation without departments declares
no such member, so a call on it is ill-formed. -/
def ProductionLine.process {ProductState World ε : Type}
    (self : ProductionLine ProductState World ε) (w : World) :
    Call (ProductionLine ProductState World ε) World ε (ProductionLine ProductState World ε) :=
  match self.departments with
  | [] => ⟨Except.error Fault.ill_formed, self, w⟩
  | CurrentDepartment :: RemainingDepartments =>
    match CurrentDepartment self.current_state w with
    | (Except.ok next_state, w') => ⟨Except.ok ⟨next_state, RemainingDepartments⟩, self, w'⟩
    | (Except.error e, w') => ⟨Except.error e, self, w'⟩

/-- The const member `get_final_state()`: defined in the specialisation
without departments, deleted in the primary template. -/
def ProductionLine.get_final_state {ProductState World ε : Type}
    (self : ProductionLine ProductState World ε) : Except (Fault ε) ProductState :=
  match self.departments with
  | [] => Except.ok self.current_state
  | _ :: _ => Except.error Fault.ill_formed

/-- The function template `create_production_line<ProductState, Departments...>`. -/
def create_production_line {ProductState World ε : Type} (initial_state : ProductState)
    (Departments : List (Department ProductState World ε)) :
    ProductionLine ProductState World ε :=
  ⟨initial_state, Departments⟩

/-- The caller pattern of the tests: `process()` called `n` times, each
call on the line the previous call returned. -/
def ProductionLine.process_times {ProductState World ε : Type} :
    Nat → ProductionLine ProductState World ε → World →
      Outcome World ε (ProductionLine ProductState World ε)
  | 0, line, w => (Except.ok line, w)
  | n + 1, line, w =>
    match line.process w with
    | ⟨Except.ok next, _, w'⟩ => process_times n next w'
    | ⟨Except.error e, _, w'⟩ => (Except.error e, w')

/-- The product types `RawMaterial`, `SemiFinishedProduct`, `FinishedProduct`,
each a struct with the one member `value`. -/
inductive Product where
  | RawMaterial (value : String) : Product
  | SemiFinishedProduct (value : String) : Product
  | FinishedProduct (value : String) : Product
  deriving DecidableEq, Repr

/-- The member `value` of a product. -/
def Product.value : Product → String
  | Product.RawMaterial v => v
  | Product.SemiFinishedProduct v => v
  | Product.FinishedProduct v => v

/-- Whether `pat` occurs in `s` starting at its first character. -/
def startsWith : List Char → List Char → Bool
  | _, [] => true
  | [], _ :: _ => false
  | c :: s, d :: pat => c == d && startsWith s pat

/-- The call `s.find(pat)` of `std::string`: the first position at which
`pat` occurs in `s`, `none` for `npos`. -/
def find : List Char → List Char → Option Nat
  | [], pat => if startsWith [] pat then some 0 else none
  | c :: s, pat =>
    if startsWith (c :: s) pat then some 0 else (find s pat).map (· + 1)

/-- The static member `AssemblyDepartment::process`. -/
def AssemblyDepartment.process (current_product : Product) : Product :=
  Product.SemiFinishedProduct (current_product.value ++ " - Assembled")

/-- The static member `QualityControlDepartment::process`. -/
def QualityControlDepartment.process (current_product : Product) : Product :=
  if find current_product.value.data "Defect".data ≠ none then
    Product.SemiFinishedProduct (current_product.value ++ " - Rejected")
  else
    Product.SemiFinishedProduct (current_product.value ++ " - Passed QC")

/-- The static member `PolishingDepartment<PolishMaterial>::process`;
`PolishMaterial_name` is the constant `PolishMaterial::name`. -/
def PolishingDepartment.process (PolishMaterial_name : String) (current_product : Product) :
    Product :=
  Product.FinishedProduct (current_product.value ++ " - Polished with " ++ PolishMaterial_name)

/-- The constant `TypeAPolish::name`. -/
def TypeAPolish.name : String := "Type A Polish"

/-- The constant `TypeBPolish::name`. -/
def TypeBPolish.name : String := "Type B Polish"

/-- The static member `PackagingDepartment<DepartmentID>::process`. -/
def PackagingDepartment.process (DepartmentID : Int) (current_product : Product) : Product :=
  Product.FinishedProduct
    (current_product.value ++ " - Packed in Box #" ++ toString DepartmentID)

/-- The static member `LoggingDepartment<Logger>::process`; `Logger_log` is
the static member `Logger::log`, whose effect is on the world. -/
def LoggingDepartment.process {World ε : Type} (Logger_log : String → World → World)
    (current_product : Product) (w : World) : Outcome World ε Product :=
  (Except.ok current_product, Logger_log ("Processed: " ++ current_product.value) w)

/-- The static member `ConsoleLogger::log`; the world is the text written to
standard output so far. -/
def ConsoleLogger.log (message : String) (console : String) : String :=
  console ++ "[LOG]: " ++ message ++ "\n"

end n313_manufacturing

/-! ## n315.cpp: the data processing pipeline -/

namespace n315

/-- The class template `EmployeeRecord<NameType, DepartmentType, SalaryType,
HireDateType>`. -/
structure EmployeeRecord (NameType DepartmentType SalaryType HireDateType : Type) where
  name : NameType
  department : DepartmentType
  salary : SalaryType
  hire_date : HireDateType
  deriving DecidableEq, Repr

/-- The salary types `StandardRaise` multiplies by a `double`: the operand is
first converted to `double`. -/
class Arithmetic (T : Type) where
  toDouble : T → Double

instance : Arithmetic Double := ⟨fun d => d⟩

instance : Arithmetic Int := ⟨Double.ofInt⟩

/-- The static member template `DepartmentUpdater::apply<Record>`. -/
def DepartmentUpdater.apply {N D S H : Type} (record : EmployeeRecord N D S H)
    (new_department : String) : EmployeeRecord N String S H :=
  { name := record.name, department := new_department, salary := record.salary,
    hire_date := record.hire_date }

/-- The static member template `StandardRaise::apply<Record>`. -/
def StandardRaise.apply {N D S H : Type} [Arithmetic S] (record : EmployeeRecord N D S H)
    (raise_percentage : Double) : EmployeeRecord N D Double H :=
  { name := record.name, department := record.department,
    salary := Arithmetic.toDouble record.salary * (Double.lit 10 1 + raise_percentage),
    hire_date := record.hire_date }

/-- The static member template `DepartmentChanger<NewDepartmentCode>::apply<Record>`. -/
def DepartmentChanger.apply {N D S H : Type} (NewDepartmentCode : Int)
    (record : EmployeeRecord N D S H) : EmployeeRecord N Int S H :=
  { name := record.name, department := NewDepartmentCode, salary := record.salary,
    hire_date := record.hire_date }

/-- An action type, given by its static member template `apply` instantiated
at the records of the pipeline and the arguments of `process`. -/
abbrev Action (Record Args World ε : Type) : Type :=
  Record → Args → World → Outcome World ε Record

/-- The class template `DataProcessingPipeline<Record, Action,
RemainingActions...>`: the record held and the actions still to run. The
specialisation `DataProcessingPipeline<Record>` is the empty list. The
member is named `initial_record` where actions remain (its private copy
`current_record` is never read) and `current_record` where none does. -/
structure DataProcessingPipeline (Record Args World ε : Type) where
  current_record : Record
  actions : List (Action Record Args World ε)

/-- The members `process(Args&&... args)` and `process()`. The specialisation
without actions declares neither, so a call on it is ill-formed. -/
def DataProcessingPipeline.process {Record Args World ε : Type}
    (self : DataProcessingPipeline Record Args World ε) (args : Args) (w : World) :
    Call (DataProcessingPipeline Record Args World ε) World ε
      (DataProcessingPipeline Record Args World ε) :=
  match self.actions with
  | [] => ⟨Except.error Fault.ill_formed, self, w⟩
  | CurrentAction :: RemainingActions =>
    match CurrentAction self.current_record args w with
    | (Except.ok next_record, w') => ⟨Except.ok ⟨next_record, RemainingActions⟩, self, w'⟩
    | (Except.error e, w') => ⟨Except.error e, self, w'⟩

/-- The const member `get_final_record()`: defined in the specialisation
without actions; where actions remain its `static_assert` fails. -/
def DataProcessingPipeline.get_final_record {Record Args World ε : Type}
    (self : DataProcessingPipeline Record Args World ε) : Except (Fault ε) Record :=
  match self.actions with
  | [] => Except.ok self.current_record
  | _ :: _ => Except.error Fault.ill_formed

/-- The function template `start_processing<Record, Action, RemainingActions...>`. -/
def start_processing {Record Args World ε : Type} (initial_record : Record)
    (Action : Action Record Args World ε) (RemainingActions : List (n315.Action Record Args World ε)) :
    DataProcessingPipeline Record Args World ε :=
  ⟨initial_record, Action :: RemainingActions⟩

/-- The caller pattern of the tests: one `process` call per argument list,
each call on the pipeline the previous call returned. -/
def DataProcessingPipeline.process_each {Record Args World ε : Type} :
    List Args → DataProcessingPipeline Record Args World ε → World →
      Outcome World ε (DataProcessingPipeline Record Args World ε)
  | [], pipeline, w => (Except.ok pipeline, w)
  | args :: rest, pipeline, w =>
    match pipeline.process args w with
    | ⟨Except.ok next, _, w'⟩ => process_each rest next w'
    | ⟨Except.error e, _, w'⟩ => (Except.error e, w')

/-- A value of one of the types the program uses for the members of a record
and for the arguments of `process`: `const char*`, `std::string`, `int`,
`double`. -/
inductive Field where
  | c_str (s : String) : Field
  | string (s : String) : Field
  | int (n : Int) : Field
  | double (d : Double) : Field
  deriving DecidableEq, Repr

/-- The records of all the instantiations of `EmployeeRecord` over those types. -/
abbrev Record : Type := EmployeeRecord Field Field Field Field

/-- The action `DepartmentUpdater` on the records of the pipeline: `apply`
takes one argument convertible to `std::string`. -/
def DepartmentUpdater.action {World ε : Type} : Action Record (List Field) World ε :=
  fun record args w =>
    match args with
    | [Field.string new_department] =>
      let next := DepartmentUpdater.apply record new_department
      (Except.ok { next with department := Field.string next.department }, w)
    | [Field.c_str new_department] =>
      let next := DepartmentUpdater.apply record new_department
      (Except.ok { next with department := Field.string next.department }, w)
    | _ => (Except.error Fault.ill_formed, w)

/-- The instantiation of `StandardRaise::apply` at the salary type of the record;
a salary that is not a number cannot be multiplied. -/
def StandardRaise.instantiate {ε : Type} (record : Record) (raise_percentage : Double) :
    Except (Fault ε) Record :=
  match record.salary with
  | Field.double s =>
    let next := StandardRaise.apply { record with salary := s } raise_percentage
    Except.ok { next with salary := Field.double next.salary }
  | Field.int s =>
    let next := StandardRaise.apply { record with salary := s } raise_percentage
    Except.ok { next with salary := Field.double next.salary }
  | _ => Except.error Fault.ill_formed

/-- The action `StandardRaise` on the records of the pipeline: `apply` takes
one argument convertible to `double`. -/
def StandardRaise.action {World ε : Type} : Action Record (List Field) World ε :=
  fun record args w =>
    match args with
    | [Field.double raise_percentage] => (StandardRaise.instantiate record raise_percentage, w)
    | [Field.int raise_percentage] =>
      (StandardRaise.instantiate record (Double.ofInt raise_percentage), w)
    | _ => (Except.error Fault.ill_formed, w)

/-- The action `DepartmentChanger<NewDepartmentCode>` on the records of the
pipeline: `apply` takes no argument. -/
def DepartmentChanger.action {World ε : Type} (NewDepartmentCode : Int) :
    Action Record (List Field) World ε :=
  fun record args w =>
    match args with
    | [] =>
      let next := DepartmentChanger.apply NewDepartmentCode record
      (Except.ok { next with department := Field.int next.department }, w)
    | _ => (Except.error Fault.ill_formed, w)

end n315

/-! ## Comparison of `double` values -/

namespace Double

/-- The finite number `(-1)^neg * m * 2^e` as an integer multiple of `2^g`,
for `g ≤ e`. -/
def scaled (neg : Bool) (m : Nat) (e g : Int) : Int :=
  (if neg then -1 else 1) * ((m * 2 ^ (e - g).toNat : Nat) : Int)

/-- The comparison `a < b` of binary64: false when an operand is a NaN, and
the two zeros are equal. -/
def lt : Double → Double → Bool
  | nan, _ => false
  | _, nan => false
  | inf s, inf t => s && !t
  | inf s, fin _ _ _ => s
  | fin _ _ _, inf t => !t
  | fin s m e, fin t n f => decide (scaled s m e (min e f) < scaled t n f (min e f))

/-- The comparison `a <= b` of binary64. -/
def le : Double → Double → Bool
  | nan, _ => false
  | _, nan => false
  | inf s, inf t => s || !t
  | inf s, fin _ _ _ => s
  | fin _ _ _, inf t => !t
  | fin s m e, fin t n f => decide (scaled s m e (min e f) ≤ scaled t n f (min e f))

/-- The unary minus of binary64: the sign is flipped. -/
def neg : Double → Double
  | nan => nan
  | inf s => inf (!s)
  | fin s m e => fin (!s) m e

/-- Whether the value is one of the two zeros, `0.0` and `-0.0`. -/
def isZero : Double → Bool
  | fin _ m _ => decide (m = 0)
  | _ => false

/-- Whether the value is a finite number, neither an infinity nor a NaN. -/
def isFinite : Double → Bool
  | fin _ _ _ => true
  | _ => false

end Double

/-! ## n302.cpp: the commission calculator -/

namespace n302

/-- The exceptions of the program: `std::invalid_argument` with the message
it was constructed with, and `other` for an exception of any other type
that a component supplied by the caller throws. -/
inductive Exception where
  | invalid_argument (what : String) : Exception
  | other (what : String) : Exception
  deriving DecidableEq, Repr

/-- The call of a function that has no effect on the world: it returns or
throws, and the world stays as it is. -/
def pureCall {World α β : Type} (f : α → Except Exception β) :
    α → World → Outcome World Exception β :=
  fun a w =>
    match f a with
    | Except.ok b => (Except.ok b, w)
    | Except.error e => (Except.error (Fault.thrown e), w)

/-- A value of one of the arithmetic types the program instantiates
`SalesDataType` with: `double` and `int`. -/
inductive SalesData where
  | of_double (sales : Double) : SalesData
  | of_int (sales : Int) : SalesData
  deriving DecidableEq, Repr

/-- The comparison `sales < 0`, made in the type of `sales`. -/
def SalesData.lt_zero : SalesData → Bool
  | SalesData.of_double sales => Double.lt sales (Double.ofInt 0)
  | SalesData.of_int sales => decide (sales < 0)

/-- The comparison `sales >= 0`, made in the type of `sales`. -/
def SalesData.ge_zero : SalesData → Bool
  | SalesData.of_double sales => Double.le (Double.ofInt 0) sales
  | SalesData.of_int sales => decide (0 ≤ sales)

/-- The conversion `static_cast<double>(sales)`. -/
def SalesData.to_double : SalesData → Double
  | SalesData.of_double sales => sales
  | SalesData.of_int sales => Double.ofInt sales

/-- The struct `SimpleCommissionTiers`: an array of three pairs
(threshold, rate). -/
structure SimpleCommissionTiers where
  tiers : List (Double × Double)
  size : tiers.length = 3

/-- The member `tiers.back()`. -/
def SimpleCommissionTiers.back (self : SimpleCommissionTiers) : Double × Double :=
  self.tiers.getLast (fun h => by have hs := self.size; rw [h] at hs; exact absurd hs (by decide))

/-- The member `SimpleCommissionTiers::getCommissionRate`. -/
def SimpleCommissionTiers.getCommissionRate (self : SimpleCommissionTiers) (sales : Double) :
    Except Exception Double :=
  if Double.lt sales (Double.ofInt 0) then
    Except.error (Exception.invalid_argument "Sales amount cannot be negative")
  else
    match self.tiers.find? (fun tier => Double.le sales tier.1) with
    | some tier => Except.ok tier.2
    | none => Except.ok self.back.2

/-- The member `TenureBonusPolicy::getBonusPercentage`. -/
def TenureBonusPolicy.getBonusPercentage (tenureYears : Int) : Except Exception Double :=
  if tenureYears < 0 then
    Except.error (Exception.invalid_argument "Tenure years cannot be negative")
  else if tenureYears ≥ 10 then Except.ok (Double.lit 5 2)
  else if tenureYears ≥ 5 then Except.ok (Double.lit 2 2)
  else Except.ok (Double.lit 0 2)

/-- The function template `calculateCommission<SalesDataType,
BaseCommissionCalculator, CommissionTiers, BonusPolicy>`. The three
components are what the caller supplies: `BaseCommissionCalculator` is the
call `BaseCommissionCalculator()(x)`, `tiers` the member
`tiers.getCommissionRate`, `bonusPolicy` the member
`bonusPolicy.getBonusPercentage`; each may throw and may act on the world. -/
def calculateCommission {World : Type}
    (BaseCommissionCalculator : Double → World → Outcome World Exception Double)
    (sales : SalesData)
    (tiers : Double → World → Outcome World Exception Double)
    (bonusPolicy : Int → World → Outcome World Exception Double)
    (employeeTenureYears : Int) (w : World) : Outcome World Exception Double :=
  if sales.lt_zero then
    (Except.error (Fault.thrown (Exception.invalid_argument "Sales amount cannot be negative")), w)
  else
    match BaseCommissionCalculator sales.to_double w with
    | (Except.error e, w1) => (Except.error e, w1)
    | (Except.ok baseCommission, w1) =>
      match tiers sales.to_double w1 with
      | (Except.error e, w2) => (Except.error e, w2)
      | (Except.ok commissionRate, w2) =>
        let commissionBeforeBonus := baseCommission * commissionRate
        match bonusPolicy employeeTenureYears w2 with
        | (Except.error e, w3) => (Except.error e, w3)
        | (Except.ok bonusPercentage, w3) =>
          (Except.ok (commissionBeforeBonus * (Double.lit 10 1 + bonusPercentage)), w3)

/-- The call `calculateCommission(sales, tiers, bonusPolicy)` without a
tenure: the default argument is `7`. -/
def calculateCommission_default {World : Type}
    (BaseCommissionCalculator : Double → World → Outcome World Exception Double)
    (sales : SalesData)
    (tiers : Double → World → Outcome World Exception Double)
    (bonusPolicy : Int → World → Outcome World Exception Double) (w : World) :
    Outcome World Exception Double :=
  calculateCommission BaseCommissionCalculator sales tiers bonusPolicy 7 w

/-- The table of test cases 1 and 4 of `run_tests` and of its error case:
`{1000.0, 0.02}, {5000.0, 0.03}, {10000.0, 0.04}`. -/
def test_tiers : SimpleCommissionTiers :=
  ⟨[(Double.lit 10000 1, Double.lit 2 2), (Double.lit 50000 1, Double.lit 3 2),
    (Double.lit 100000 1, Double.lit 4 2)], rfl⟩

/-- The local struct `SimpleBaseCommission` of test case 1: `sales * 0.05`. -/
def SimpleBaseCommission (sales : Double) : Except Exception Double :=
  Except.ok (sales * Double.lit 5 2)

/-- The local struct `PerformanceLinkedBaseCommission` of test case 4. -/
def PerformanceLinkedBaseCommission (sales : Double) : Except Exception Double :=
  let baseRate := Double.lit 4 2
  let baseRate := if Double.lt (Double.ofInt 8000) sales then baseRate + Double.lit 1 2
    else baseRate
  Except.ok (sales * baseRate)

/-- The local struct `AggressiveBonusPolicy` of test case 4. -/
def AggressiveBonusPolicy.getBonusPercentage (tenureYears : Int) : Except Exception Double :=
  if tenureYears ≥ 5 then Except.ok (Double.lit 10 2) else Except.ok (Double.lit 0 2)

end n302

/-! ## n313.cpp: the ledger -/

namespace business_operations

/-- The class template `LedgerEntry<IdType, DataType, TimestampPolicy>`;
`TimePoint` is the type `TimestampPolicy::time_point`. -/
structure LedgerEntry (IdType DataType TimePoint : Type) where
  id : IdType
  data : DataType
  timestamp : TimePoint
  deriving DecidableEq, Repr

/-- The constructor `LedgerEntry(const IdType&, const DataType&)`. The clock
is part of the world: `TimestampPolicy_now` is the static member
`TimestampPolicy::now`, which returns a time point and leaves the world
in which the clock has been read. -/
def LedgerEntry.construct {IdType DataType TimePoint World : Type}
    (TimestampPolicy_now : World → TimePoint × World) (i : IdType) (d : DataType) (w : World) :
    LedgerEntry IdType DataType TimePoint × World :=
  (⟨i, d, (TimestampPolicy_now w).1⟩, (TimestampPolicy_now w).2)

/-- The class template `Ledger<EntryType, ContainerPolicy>`: its one member,
the container `entries`, as the sequence of its elements. -/
structure Ledger (EntryType : Type) where
  entries : List EntryType

/-- A default-constructed ledger: the container is empty. -/
def Ledger.empty {EntryType : Type} : Ledger EntryType := ⟨[]⟩

/-- The member template `add_entry(Args&&... args)`: `emplace_back`
constructs an entry from the arguments at the end of the container.
`construct` is the constructor of `EntryType` the arguments select. The
result is the ledger after the call and the world after it. -/
def Ledger.add_entry {EntryType Args World : Type}
    (construct : Args → World → EntryType × World) (self : Ledger EntryType) (args : Args)
    (w : World) : Ledger EntryType × World :=
  (⟨self.entries ++ [(construct args w).1]⟩, (construct args w).2)

/-- The member `get_entries()`: it returns a reference to the container, of
which the embedding gives the elements. -/
def Ledger.get_entries {EntryType : Type} (self : Ledger EntryType) : List EntryType :=
  self.entries

/-- The const member template `find_entries(SearchPredicate predicate)`, the
predicate being a function of the entry: the loop over `entries` pushes
each entry the predicate holds for to the back of `results`. The result
is the container returned and the ledger after the call. -/
def Ledger.find_entries {EntryType : Type} (self : Ledger EntryType)
    (predicate : EntryType → Bool) : List EntryType × Ledger EntryType :=
  (self.entries.foldl
      (fun results entry => if predicate entry then results ++ [entry] else results) [],
    self)

/-- The caller pattern of the tests: `add_entry(id, data)` called once for
each pair of a list, in order, on a ledger of `LedgerEntry`. -/
def Ledger.add_entries {IdType DataType TimePoint World : Type}
    (TimestampPolicy_now : World → TimePoint × World) :
    List (IdType × DataType) → Ledger (LedgerEntry IdType DataType TimePoint) → World →
      Ledger (LedgerEntry IdType DataType TimePoint) × World
  | [], ledger, w => (ledger, w)
  | args :: rest, ledger, w =>
    add_entries TimestampPolicy_now rest
      (ledger.add_entry (fun a => LedgerEntry.construct TimestampPolicy_now a.1 a.2) args w).1
      (ledger.add_entry (fun a => LedgerEntry.construct TimestampPolicy_now a.1 a.2) args w).2

/-- A clock for the examples: the world is the number of ticks so far, and
each reading returns it and advances it by one. -/
def tick_clock (w : Nat) : Nat × Nat := (w, w + 1)

end business_operations

/-! ## n301.cpp: the cumulative reducer -/

namespace n304

/-- The struct `ProductOrder`. -/
structure ProductOrder where
  pricePerUnit : Double
  quantity : Int
  deriving DecidableEq, Repr

/-- Why a call of this program yields no value: it does not build, or the
arithmetic of `int` overflows, which has undefined behaviour (and is no
constant expression where a `static_assert` evaluates the call). -/
inductive Failure where
  | ill_formed : Failure
  | undefined_behaviour : Failure
  deriving DecidableEq, Repr

/-- The smallest value of `int`. -/
def INT_MIN : Int := -2147483648

/-- The largest value of `int`. -/
def INT_MAX : Int := 2147483647

/-- The sum `a + b` of two `int`: defined when it is a value of `int`. -/
def int_add (a b : Int) : Except Failure Int :=
  if INT_MIN ≤ a + b ∧ a + b ≤ INT_MAX then Except.ok (a + b)
  else Except.error Failure.undefined_behaviour

/-- An accumulator type, given by its call operator at the two operand types
`calculateCumulative` calls it with: `on_order` is `acc(current, order)` for
an order, `on_result` is `acc(current, value)` for a value of the result
type, `none` when that call does not build. -/
structure Accumulator (ResultType OrderType : Type) where
  on_order : ResultType → OrderType → Except Failure ResultType
  on_result : Option (ResultType → ResultType → Except Failure ResultType)

/-- The struct `Adder` with `T1 = int`: `current + order.quantity`. An `int`
operand has no member `quantity`, so the call with a second operand of the
result type does not build. -/
def Adder : Accumulator Int ProductOrder where
  on_order := fun current order => int_add current order.quantity
  on_result := none

/-- The overload of `calculateCumulative` with one argument; `zero` is
`ResultType{0}`. -/
def calculateCumulative_1 {ResultType OrderType : Type} (acc : Accumulator ResultType OrderType)
    (zero : ResultType) (order : OrderType) : Except Failure ResultType :=
  acc.on_order zero order

/-- The overload of `calculateCumulative` with two arguments. -/
def calculateCumulative_2 {ResultType OrderType : Type} (acc : Accumulator ResultType OrderType)
    (zero : ResultType) (order1 order2 : OrderType) : Except Failure ResultType := do
  let r1 ← acc.on_order zero order1
  acc.on_order r1 order2

/-- The overload of `calculateCumulative` with three arguments. -/
def calculateCumulative_3 {ResultType OrderType : Type} (acc : Accumulator ResultType OrderType)
    (zero : ResultType) (order1 order2 order3 : OrderType) : Except Failure ResultType := do
  let r1 ← acc.on_order zero order1
  let r2 ← acc.on_order r1 order2
  acc.on_order r2 order3

/-- The overload of `calculateCumulative` with four arguments. -/
def calculateCumulative_4 {ResultType OrderType : Type} (acc : Accumulator ResultType OrderType)
    (zero : ResultType) (order1 order2 order3 order4 : OrderType) :
    Except Failure ResultType := do
  let r1 ← acc.on_order zero order1
  let r2 ← acc.on_order r1 order2
  let r3 ← acc.on_order r2 order3
  acc.on_order r3 order4

/-- The call `calculateCumulative<ResultType, Accumulator, OrderType>(orders...)`
with arguments all of type `OrderType`. With one to four arguments the
overload of that arity is the more specialised candidate and is selected;
with five or more only the variadic template matches, which evaluates
`acc(acc(ResultType{0}, first), calculateCumulative<...>(rest...))`. Without
argument no overload matches. -/
def calculateCumulative {ResultType OrderType : Type} (acc : Accumulator ResultType OrderType)
    (zero : ResultType) : List OrderType → Except Failure ResultType
  | [] => Except.error Failure.ill_formed
  | [order] => calculateCumulative_1 acc zero order
  | [order1, order2] => calculateCumulative_2 acc zero order1 order2
  | [order1, order2, order3] => calculateCumulative_3 acc zero order1 order2 order3
  | [order1, order2, order3, order4] => calculateCumulative_4 acc zero order1 order2 order3 order4
  | first :: order2 :: order3 :: order4 :: order5 :: rest =>
    match acc.on_result with
    | none => Except.error Failure.ill_formed
    | some on_result => do
      let head ← acc.on_order zero first
      let tail ← calculateCumulative acc zero (order2 :: order3 :: order4 :: order5 :: rest)
      on_result head tail

/-- The rule of the overloads with one to four arguments, for any number of
orders: the accumulator folded over the orders from the left, starting from
`ResultType{0}`. -/
def left_fold {ResultType OrderType : Type} (acc : Accumulator ResultType OrderType)
    (zero : ResultType) (orders : List OrderType) : Except Failure ResultType :=
  orders.foldlM acc.on_order zero

/-- An accumulator that also accepts a value of the result type as its second
operand: `2 * current + quantity` for an order, `2 * current + value` for an
`int`, in unbounded arithmetic. -/
def DoublingAdder : Accumulator Int ProductOrder where
  on_order := fun current order => Except.ok (2 * current + order.quantity)
  on_result := some (fun current value => Except.ok (2 * current + value))

end n304

/-! ## n313_2.cpp: the tuple with a size -/

namespace n313_2

/-- The class template `tuple<Types...>` as the nest of its members: `empty`
is `tuple<>`, `node T value rest` is `tuple<T, Rest...>` with the members
`value`, of type `T`, and `rest`. -/
inductive tuple (Ty Val : Type) where
  | empty : tuple Ty Val
  | node (T : Ty) (value : Val) (rest : tuple Ty Val) : tuple Ty Val
  deriving DecidableEq, Repr

/-- The constructor `tuple(T const& t, Rest const&... rest)`: the members
`value` and `rest` are initialised in this order, then the body writes the
value to standard output; `print` is how `operator<<` writes a value. The
world is the text written so far. -/
def tuple.construct {Ty Val : Type} (print : Val → String) :
    List (Ty × Val) → String → tuple Ty Val × String
  | [], console => (tuple.empty, console)
  | (T, t) :: rest, console =>
    (tuple.node T t (construct print rest console).1,
      (construct print rest console).2 ++ "Tuple value: " ++ print t ++ "\n")

/-- The member `size()`: `tuple<>` returns `0`; `tuple<T, Rest...>` writes a
line, for which it evaluates `1 + rest.size()`, and returns
`1 + rest.size()`, evaluated again. -/
def tuple.size {Ty Val : Type} : tuple Ty Val → String → Int × String
  | tuple.empty, console => (0, console)
  | tuple.node _ _ rest, console =>
    let shown := rest.size (console ++ "Calculating size at current level. Current size: ")
    let returned := rest.size (shown.2 ++ toString (1 + shown.1) ++ "\n")
    (1 + returned.1, returned.2)

/-- The function template `get_size`. -/
def get_size {Ty Val : Type} (t : tuple Ty Val) (console : String) : Int × String :=
  t.size (console ++ "Calling get_size() on tuple.\n")

end n313_2

/-! ## n313_3.cpp and n313_4.cpp: the nth type and the tuple getter -/

namespace n313_3

/-- The member `nth_type<N, Ts...>::value_type` (the template is the same
in `n313_3.cpp` and `n313_4.cpp`). Without a type the template cannot be
named; `nth_type<0, T, Ts...>` defines `value_type` as `T`; otherwise the
class inherits from `nth_type<N - 1, Ts...>` and asserts
`N < sizeof...(Ts) + 1`. -/
def nth_type {Ty ε : Type} : Nat → List Ty → Except (Fault ε) Ty
  | _, [] => Except.error Fault.ill_formed
  | 0, T :: _ => Except.ok T
  | N + 1, _ :: Ts =>
    match nth_type N Ts with
    | Except.error e => Except.error e
    | Except.ok value_type =>
      if N + 1 < Ts.length + 1 then Except.ok value_type else Except.error Fault.ill_formed

/-- The conditions of the `static_assert`s met by the instantiation of
`nth_type<N, Ts...>`, outermost first: one for each use of the primary
template, until the specialisation for `0` or the empty list is reached. -/
def nth_type_assertions {Ty : Type} : Nat → List Ty → List Bool
  | _, [] => []
  | 0, _ :: _ => []
  | N + 1, _ :: Ts => decide (N + 1 < Ts.length + 1) :: nth_type_assertions N Ts

end n313_3

namespace n313_4

/-- The class template `tuple<Types...>` as the nest of its members: `empty`
is `tuple<>`, `node T value rest` is `tuple<T, Rest...>` with the members
`value`, of type `T`, and `rest`. -/
inductive tuple (Ty Val : Type) where
  | empty : tuple Ty Val
  | node (T : Ty) (value : Val) (rest : tuple Ty Val) : tuple Ty Val
  deriving DecidableEq, Repr

/-- The template arguments `Types...` of a tuple. -/
def tuple.Types {Ty Val : Type} : tuple Ty Val → List Ty
  | tuple.empty => []
  | tuple.node T _ rest => T :: rest.Types

/-- The constructor `tuple(T const& t, Rest const&... rest)`: one typed
value for each element. -/
def tuple.construct {Ty Val : Type} : List (Ty × Val) → tuple Ty Val
  | [] => tuple.empty
  | (T, t) :: rest => tuple.node T t (construct rest)

/-- The static member `getter<N>::get(t)`: the type of the element referred
to and its value. `getter<0>` needs a tuple with a first type and returns
its `value`; `getter<N>` for `N > 0` has the return type
`nth_type<N, Ts...>::value_type&`, which must exist, and returns
`getter<N - 1>::get(t.rest)`, which must be a reference of that type. -/
def getter.get {Ty Val ε : Type} [DecidableEq Ty] :
    Nat → tuple Ty Val → Except (Fault ε) (Ty × Val)
  | 0, tuple.node T value _ => Except.ok (T, value)
  | 0, tuple.empty => Except.error Fault.ill_formed
  | _ + 1, tuple.empty => Except.error Fault.ill_formed
  | N + 1, tuple.node T value rest =>
    match (n313_3.nth_type (N + 1) (tuple.node T value rest).Types : Except (Fault ε) Ty) with
    | Except.error e => Except.error e
    | Except.ok value_type =>
      match get N rest with
      | Except.error e => Except.error e
      | Except.ok (T', element) =>
        if T' = value_type then Except.ok (value_type, element)
        else Except.error Fault.ill_formed

/-- The types of the elements of the tuples of `main`. -/
inductive TypeName where
  | int : TypeName
  | double : TypeName
  | char : TypeName
  | string : TypeName
  | float : TypeName
  deriving DecidableEq, Repr

/-- The values of the elements of the tuples of `main`. -/
inductive Value where
  | int (n : Int) : Value
  | double (d : Double) : Value
  | char (c : Char) : Value
  | string (s : String) : Value
  deriving DecidableEq, Repr

end n313_4

/-! ## Further test data of n302.cpp and the departments of n313_1.cpp as a list -/

namespace n302

/-- The table of test case 2 of `run_tests`: `{500, 0.05}, {2000, 0.07},
{5000, 0.10}`, the thresholds being `int` literals converted to `double`. -/
def test_tiers_2 : SimpleCommissionTiers :=
  ⟨[(Double.ofInt 500, Double.lit 5 2), (Double.ofInt 2000, Double.lit 7 2),
    (Double.ofInt 5000, Double.lit 10 2)], rfl⟩

/-- The local struct `CategoryAdjustedBaseCommission` of test case 2:
`sales * 0.08`. -/
def CategoryAdjustedBaseCommission (sales : Double) : Except Exception Double :=
  Except.ok (sales * Double.lit 8 2)

end n302

namespace n313_manufacturing

/-- The department types the program provides, with their template
arguments: `PolishingDepartment<PolishMaterial>` with the constant
`PolishMaterial::name`, `PackagingDepartment<DepartmentID>`,
`LoggingDepartment<Logger>` with the static member `Logger::log`. -/
inductive ProvidedDepartment (World : Type) where
  | Assembly : ProvidedDepartment World
  | QualityControl : ProvidedDepartment World
  | Polishing (PolishMaterial_name : String) : ProvidedDepartment World
  | Packaging (DepartmentID : Int) : ProvidedDepartment World
  | Logging (Logger_log : String → World → World) : ProvidedDepartment World

/-- The static member `process` of a provided department, as a department of
a production line. -/
def ProvidedDepartment.process {World ε : Type} :
    ProvidedDepartment World → Department Product World ε
  | ProvidedDepartment.Assembly => pureStage AssemblyDepartment.process
  | ProvidedDepartment.QualityControl => pureStage QualityControlDepartment.process
  | ProvidedDepartment.Polishing PolishMaterial_name =>
    pureStage (PolishingDepartment.process PolishMaterial_name)
  | ProvidedDepartment.Packaging DepartmentID =>
    pureStage (PackagingDepartment.process DepartmentID)
  | ProvidedDepartment.Logging Logger_log => LoggingDepartment.process Logger_log

end n313_manufacturing

/-! ## Shared lemmas on the two pipelines -/

namespace n313_manufacturing

lemma line_process_nil {ProductState World ε : Type} (r : ProductState) (w : World) :
    (ProductionLine.mk r ([] : List (Department ProductState World ε))).process w
      = ⟨Except.error Fault.ill_formed, ⟨r, []⟩, w⟩ := rfl

lemma line_process_cons_ok {ProductState World ε : Type} (r r' : ProductState)
    (d : Department ProductState World ε) (ds : List (Department ProductState World ε))
    (w w' : World) (h : d r w = (Except.ok r', w')) :
    (ProductionLine.mk r (d :: ds)).process w = ⟨Except.ok ⟨r', ds⟩, ⟨r, d :: ds⟩, w'⟩ := by
  simp [ProductionLine.process, h]

lemma line_process_cons_error {ProductState World ε : Type} (r : ProductState)
    (e : Fault ε) (d : Department ProductState World ε)
    (ds : List (Department ProductState World ε)) (w w' : World)
    (h : d r w = (Except.error e, w')) :
    (ProductionLine.mk r (d :: ds)).process w = ⟨Except.error e, ⟨r, d :: ds⟩, w'⟩ := by
  simp [ProductionLine.process, h]

lemma line_process_self {ProductState World ε : Type}
    (line : ProductionLine ProductState World ε) (w : World) : (line.process w).self = line := by
  obtain ⟨r, ds⟩ := line
  cases ds with
  | nil => rfl
  | cons d ds =>
    rcases hd : d r w with ⟨res, w'⟩
    cases res with
    | ok r' => rw [line_process_cons_ok r r' d ds w w' hd]
    | error e => rw [line_process_cons_error r e d ds w w' hd]

lemma line_process_times_function {ProductState World ε : Type}
    (done : List (FunctionStage World ProductState))
    (rest' : List (Department ProductState World ε)) (R0 : ProductState) (w : World) :
    ∃ w', ProductionLine.process_times done.length
        (ProductionLine.mk R0 (done.map FunctionStage.run ++ rest')) w
      = (Except.ok ⟨done.foldl (fun r S => S.transform r) R0, rest'⟩, w') := by
  induction done generalizing R0 w with
  | nil => exact ⟨w, rfl⟩
  | cons S done ih =>
    simp only [List.length_cons, List.map_cons, List.cons_append, List.foldl_cons,
      ProductionLine.process_times]
    rw [line_process_cons_ok R0 (S.transform R0) S.run _ w (S.effect R0 w) rfl]
    exact ih (S.transform R0) (S.effect R0 w)

end n313_manufacturing

namespace n315

lemma pipeline_process_nil {Record Args World ε : Type} (r : Record) (a : Args)
    (w : World) :
    (DataProcessingPipeline.mk r ([] : List (Action Record Args World ε))).process a w
      = ⟨Except.error Fault.ill_formed, ⟨r, []⟩, w⟩ := rfl

lemma pipeline_process_cons_ok {Record Args World ε : Type} (r r' : Record)
    (a : Args) (d : Action Record Args World ε) (ds : List (Action Record Args World ε))
    (w w' : World) (h : d r a w = (Except.ok r', w')) :
    (DataProcessingPipeline.mk r (d :: ds)).process a w
      = ⟨Except.ok ⟨r', ds⟩, ⟨r, d :: ds⟩, w'⟩ := by
  simp [DataProcessingPipeline.process, h]

lemma pipeline_process_cons_error {Record Args World ε : Type} (r : Record)
    (a : Args) (e : Fault ε) (d : Action Record Args World ε)
    (ds : List (Action Record Args World ε)) (w w' : World)
    (h : d r a w = (Except.error e, w')) :
    (DataProcessingPipeline.mk r (d :: ds)).process a w
      = ⟨Except.error e, ⟨r, d :: ds⟩, w'⟩ := by
  simp [DataProcessingPipeline.process, h]

lemma pipeline_process_self {Record Args World ε : Type}
    (p : DataProcessingPipeline Record Args World ε) (a : Args) (w : World) :
    (p.process a w).self = p := by
  obtain ⟨r, ds⟩ := p
  cases ds with
  | nil => rfl
  | cons d ds =>
    rcases hd : d r a w with ⟨res, w'⟩
    cases res with
    | ok r' => rw [pipeline_process_cons_ok r r' a d ds w w' hd]
    | error e => rw [pipeline_process_cons_error r a e d ds w w' hd]

lemma pipeline_process_each_function {Record Args World ε : Type}
    (done : List (FunctionAction World Record Args × Args))
    (rest' : List (Action Record Args World ε)) (R0 : Record) (w : World) :
    ∃ w', DataProcessingPipeline.process_each (done.map Prod.snd)
        (DataProcessingPipeline.mk R0 (done.map (fun S => S.1.run) ++ rest')) w
      = (Except.ok ⟨done.foldl (fun r S => S.1.transform r S.2) R0, rest'⟩, w') := by
  induction done generalizing R0 w with
  | nil => exact ⟨w, rfl⟩
  | cons S done ih =>
    simp only [List.map_cons, List.cons_append, List.foldl_cons,
      DataProcessingPipeline.process_each]
    rw [pipeline_process_cons_ok R0 (S.1.transform R0 S.2) S.2 S.1.run _ w
      (S.1.effect R0 S.2 w) rfl]
    exact ih (S.1.transform R0 S.2) (S.1.effect R0 S.2 w)

end n315

/-- The first `j` elements of a list are all of it exactly when none is left
after them. -/
lemma take_length_eq_iff_drop_nil {α : Type} (l : List α) (j : Nat) :
    (l.take j).length = l.length ↔ l.drop j = [] := by
  rw [List.length_take, List.drop_eq_nil_iff]
  omega

/-- What `process` returns on a line with a department remaining. -/
lemma process_removes_head_line {ProductState World ε : Type} (r : ProductState)
    (A1 : n313_manufacturing.Department ProductState World ε)
    (rest : List (n313_manufacturing.Department ProductState World ε)) (w : World) :
    ((n313_manufacturing.ProductionLine.mk r (A1 :: rest)).process w).result
      = (A1 r w).1.map (fun r' => n313_manufacturing.ProductionLine.mk r' rest) := by
  rcases hd : A1 r w with ⟨res, w'⟩
  cases res with
  | ok r' =>
    rw [n313_manufacturing.line_process_cons_ok r r' A1 rest w w' hd]
    rfl
  | error e =>
    rw [n313_manufacturing.line_process_cons_error r e A1 rest w w' hd]
    rfl

/-- What `process` returns on a pipeline with an action remaining. -/
lemma process_removes_head_pipeline {Record Args World ε : Type} (r : Record)
    (A1 : n315.Action Record Args World ε) (rest : List (n315.Action Record Args World ε))
    (args : Args) (w : World) :
    ((n315.DataProcessingPipeline.mk r (A1 :: rest)).process args w).result
      = (A1 r args w).1.map (fun r' => n315.DataProcessingPipeline.mk r' rest) := by
  rcases hd : A1 r args w with ⟨res, w'⟩
  cases res with
  | ok r' =>
    rw [n315.pipeline_process_cons_ok r r' args A1 rest w w' hd]
    rfl
  | error e =>
    rw [n315.pipeline_process_cons_error r args e A1 rest w w' hd]
    rfl

/-- The logging department is a stage that is a function of the record, the
identity, with the log line as its effect on the world. -/
lemma logging_department_is_function_stage {World ε : Type}
    (Logger_log : String → World → World) :
    (n313_manufacturing.LoggingDepartment.process Logger_log :
        n313_manufacturing.Department n313_manufacturing.Product World ε)
      = FunctionStage.run
          ⟨fun p => p, fun p w => Logger_log ("Processed: " ++ p.value) w⟩ := rfl

/-- A pure stage is a stage that is a function of the record, without effect. -/
lemma pure_stage_is_function_stage {World ε R : Type} (f : R → R) :
    (pureStage f : R → World → Outcome World ε R) = FunctionStage.run ⟨f, fun _ w => w⟩ := rfl

/-! ## The pipeline state machine -/

/-- C1. For every initial record `R0` and every non-empty list of stages
`S1, ..., Sn`, each a function of the record (and, in `n315`, of the
arguments its `process` call is given) that may also write to a log: the
pipeline built by `create_production_line` / `start_processing` and
processed `n` times in order ends in a complete pipeline (no stage
remains) whose `get_final_state` / `get_final_record` is
`Sn(...S2(S1(R0)))`, the stages folded from the left in the order of
construction. -/
theorem pipeline_applies_stages_left_to_right {World ε : Type} :
    (∀ (ProductState : Type) (R0 : ProductState) (S1 : FunctionStage World ProductState)
        (S : List (FunctionStage World ProductState)) (w : World),
      ∃ (final : n313_manufacturing.ProductionLine ProductState World ε) (w' : World),
        n313_manufacturing.ProductionLine.process_times (S1 :: S).length
            (n313_manufacturing.create_production_line R0 ((S1 :: S).map FunctionStage.run)) w
          = (Except.ok final, w')
        ∧ final.departments = []
        ∧ final.get_final_state
          = Except.ok ((S1 :: S).foldl (fun r Si => Si.transform r) R0))
    ∧ (∀ (Record Args : Type) (R0 : Record) (S1 : FunctionAction World Record Args × Args)
        (S : List (FunctionAction World Record Args × Args)) (w : World),
      ∃ (final : n315.DataProcessingPipeline Record Args World ε) (w' : World),
        n315.DataProcessingPipeline.process_each ((S1 :: S).map Prod.snd)
            (n315.start_processing R0 S1.1.run (S.map (fun Si => Si.1.run))) w
          = (Except.ok final, w')
        ∧ final.actions = []
        ∧ final.get_final_record
          = Except.ok ((S1 :: S).foldl (fun r Si => Si.1.transform r Si.2) R0)) := by
  constructor
  · intro P R0 S1 S w
    obtain ⟨w', h⟩ := @n313_manufacturing.line_process_times_function P World ε (S1 :: S) []
      R0 w
    rw [List.append_nil] at h
    exact ⟨_, w', h, rfl, rfl⟩
  · intro R A R0 S1 S w
    obtain ⟨w', h⟩ := @n315.pipeline_process_each_function R A World ε (S1 :: S) [] R0 w
    rw [List.append_nil] at h
    exact ⟨_, w', h, rfl, rfl⟩

/-- C2. The terminal accessor yields a record exactly on a complete
pipeline, and then the record held; on every pipeline with a stage
remaining the call is rejected (`Fault.ill_formed`, the embedding of the
deleted member of `n313_1` and of the failing `static_assert` of `n315`),
so no record is returned. -/
theorem terminal_accessor_only_on_complete {ProductState Record Args World ε : Type}
    (line : n313_manufacturing.ProductionLine ProductState World ε)
    (pipeline : n315.DataProcessingPipeline Record Args World ε) :
    ((∀ r, line.get_final_state = Except.ok r ↔ line.departments = [] ∧ r = line.current_state)
      ∧ (line.get_final_state = Except.error Fault.ill_formed ↔ line.departments ≠ []))
    ∧ ((∀ r, pipeline.get_final_record = Except.ok r
          ↔ pipeline.actions = [] ∧ r = pipeline.current_record)
      ∧ (pipeline.get_final_record = Except.error Fault.ill_formed ↔ pipeline.actions ≠ [])) := by
  obtain ⟨s, ds⟩ := line
  obtain ⟨c, as⟩ := pipeline
  refine ⟨⟨fun r => ?_, ?_⟩, ⟨fun r => ?_, ?_⟩⟩
  · cases ds with
    | nil =>
      simp only [n313_manufacturing.ProductionLine.get_final_state, Except.ok.injEq, true_and]
      exact eq_comm
    | cons d ds => simp [n313_manufacturing.ProductionLine.get_final_state]
  · cases ds <;> simp [n313_manufacturing.ProductionLine.get_final_state]
  · cases as with
    | nil =>
      simp only [n315.DataProcessingPipeline.get_final_record, Except.ok.injEq, true_and]
      exact eq_comm
    | cons d ds => simp [n315.DataProcessingPipeline.get_final_record]
  · cases as <;> simp [n315.DataProcessingPipeline.get_final_record]

/-- C3. On a pipeline whose remaining stages are `A1 :: rest`, `process`
returns what `A1` returns on the held record, as a pipeline whose remaining
stages are exactly `rest` (same order, one fewer). Consequently, for a
pipeline built from `n` stages `S`, each a function of the record: after
the first `k` calls (`k = (S.take j).length`, any number up to `n`) the
stages remaining are the last `n - k` of `S` in order, so the pipeline is
complete, and its terminal accessor yields a record, exactly when `k = n`. -/
theorem process_removes_exactly_the_head_stage {World ε : Type} :
    ((∀ (ProductState : Type) (r : ProductState)
        (A1 : n313_manufacturing.Department ProductState World ε)
        (rest : List (n313_manufacturing.Department ProductState World ε)) (w : World),
        ((n313_manufacturing.ProductionLine.mk r (A1 :: rest)).process w).result
          = (A1 r w).1.map (fun r' => n313_manufacturing.ProductionLine.mk r' rest))
      ∧ (∀ (ProductState : Type) (R0 : ProductState)
        (S : List (FunctionStage World ProductState)) (j : Nat) (w : World),
        ∃ (line : n313_manufacturing.ProductionLine ProductState World ε) (w' : World),
          n313_manufacturing.ProductionLine.process_times (S.take j).length
              (n313_manufacturing.create_production_line R0 (S.map FunctionStage.run)) w
            = (Except.ok line, w')
          ∧ line.departments = (S.drop j).map FunctionStage.run
          ∧ ((∃ r, line.get_final_state = Except.ok r) ↔ (S.take j).length = S.length)))
    ∧ ((∀ (Record Args : Type) (r : Record) (A1 : n315.Action Record Args World ε)
        (rest : List (n315.Action Record Args World ε)) (args : Args) (w : World),
        ((n315.DataProcessingPipeline.mk r (A1 :: rest)).process args w).result
          = (A1 r args w).1.map (fun r' => n315.DataProcessingPipeline.mk r' rest))
      ∧ (∀ (Record Args : Type) (R0 : Record) (S1 : FunctionAction World Record Args × Args)
        (S : List (FunctionAction World Record Args × Args)) (j : Nat) (w : World),
        ∃ (pipeline : n315.DataProcessingPipeline Record Args World ε) (w' : World),
          n315.DataProcessingPipeline.process_each (((S1 :: S).take j).map Prod.snd)
              (n315.start_processing R0 S1.1.run (S.map (fun Si => Si.1.run))) w
            = (Except.ok pipeline, w')
          ∧ pipeline.actions = ((S1 :: S).drop j).map (fun Si => Si.1.run)
          ∧ ((∃ r, pipeline.get_final_record = Except.ok r)
            ↔ ((S1 :: S).take j).length = (S1 :: S).length))) := by
  refine ⟨⟨?_, ?_⟩, ⟨?_, ?_⟩⟩
  · intro P r A1 rest w
    exact process_removes_head_line r A1 rest w
  · intro P R0 S j w
    obtain ⟨w', h⟩ := @n313_manufacturing.line_process_times_function P World ε (S.take j)
      ((S.drop j).map FunctionStage.run) R0 w
    rw [← List.map_append, List.take_append_drop] at h
    refine ⟨_, w', h, rfl, ?_⟩
    rw [take_length_eq_iff_drop_nil]
    cases hS : S.drop j with
    | nil => simp [n313_manufacturing.ProductionLine.get_final_state]
    | cons d ds => simp [n313_manufacturing.ProductionLine.get_final_state]
  · intro R A r A1 rest args w
    exact process_removes_head_pipeline r A1 rest args w
  · intro R A R0 S1 S j w
    obtain ⟨w', h⟩ := @n315.pipeline_process_each_function R A World ε ((S1 :: S).take j)
      (((S1 :: S).drop j).map (fun Si => Si.1.run)) R0 w
    rw [← List.map_append, List.take_append_drop] at h
    refine ⟨_, w', h, rfl, ?_⟩
    rw [take_length_eq_iff_drop_nil]
    cases hS : (S1 :: S).drop j with
    | nil => simp [n315.DataProcessingPipeline.get_final_record]
    | cons d ds => simp [n315.DataProcessingPipeline.get_final_record]

/-- C4. `process` does not change the pipeline it is called on: after the
call the object holds the record (and the stages) it held before, whatever
the head stage does, also when it throws or when the call is rejected; so
the same call made again in the same world gives the same outcome. And
when the head stage returns the same result on the held record in every
world (a function of the record and the arguments, or a stage that only
logs), a second `process` call on the same pipeline, made right after the
first, returns a result equal to the first one. -/
theorem process_leaves_the_pipeline_unchanged {ProductState Record Args World ε : Type}
    (line : n313_manufacturing.ProductionLine ProductState World ε)
    (pipeline : n315.DataProcessingPipeline Record Args World ε) (a : Args) (w : World) :
    ((line.process w).self = line
      ∧ (line.process w).self.process w = line.process w
      ∧ ((∀ d rest, line.departments = d :: rest →
            ∀ w1 w2, (d line.current_state w1).1 = (d line.current_state w2).1) →
          ((line.process w).self.process (line.process w).world).result
            = (line.process w).result))
    ∧ ((pipeline.process a w).self = pipeline
      ∧ (pipeline.process a w).self.process a w = pipeline.process a w
      ∧ ((∀ d rest, pipeline.actions = d :: rest →
            ∀ w1 w2, (d pipeline.current_record a w1).1 = (d pipeline.current_record a w2).1) →
          ((pipeline.process a w).self.process a (pipeline.process a w).world).result
            = (pipeline.process a w).result)) := by
  refine ⟨⟨n313_manufacturing.line_process_self line w, ?_, fun h => ?_⟩,
    ⟨n315.pipeline_process_self pipeline a w, ?_, fun h => ?_⟩⟩
  · rw [n313_manufacturing.line_process_self]
  · rw [n313_manufacturing.line_process_self]
    obtain ⟨r, ds⟩ := line
    cases ds with
    | nil => rfl
    | cons d ds =>
      have key := (process_removes_head_line r d ds)
      rw [key, key, h d ds rfl]
  · rw [n315.pipeline_process_self]
  · rw [n315.pipeline_process_self]
    obtain ⟨r, ds⟩ := pipeline
    cases ds with
    | nil => rfl
    | cons d ds =>
      have key := (process_removes_head_pipeline r d ds a)
      rw [key, key, h d ds rfl]

/-- C4, at a concrete input: a line whose head department logs to the
console and a pipeline whose head action is `DepartmentUpdater`. The first
`process` call changes the console, the line and the pipeline are as
before, and the second call returns what the first returned. -/
theorem process_leaves_the_pipeline_unchanged_witness :
    ((((n313_manufacturing.ProductionLine.mk (n313_manufacturing.Product.RawMaterial "Raw Steel")
          [n313_manufacturing.LoggingDepartment.process n313_manufacturing.ConsoleLogger.log,
            pureStage n313_manufacturing.QualityControlDepartment.process] :
          n313_manufacturing.ProductionLine n313_manufacturing.Product String Unit).process
          "").world = "[LOG]: Processed: Raw Steel\n")
      ∧ ((n313_manufacturing.ProductionLine.mk (n313_manufacturing.Product.RawMaterial "Raw Steel")
          [n313_manufacturing.LoggingDepartment.process n313_manufacturing.ConsoleLogger.log,
            pureStage n313_manufacturing.QualityControlDepartment.process] :
          n313_manufacturing.ProductionLine n313_manufacturing.Product String Unit).process
          "").self.current_state = n313_manufacturing.Product.RawMaterial "Raw Steel"
      ∧ (((n313_manufacturing.ProductionLine.mk (n313_manufacturing.Product.RawMaterial "Raw Steel")
          [n313_manufacturing.LoggingDepartment.process n313_manufacturing.ConsoleLogger.log,
            pureStage n313_manufacturing.QualityControlDepartment.process] :
          n313_manufacturing.ProductionLine n313_manufacturing.Product String Unit).process
          "").self.process "[LOG]: Processed: Raw Steel\n").result
        = ((n313_manufacturing.ProductionLine.mk
          (n313_manufacturing.Product.RawMaterial "Raw Steel")
          [n313_manufacturing.LoggingDepartment.process n313_manufacturing.ConsoleLogger.log,
            pureStage n313_manufacturing.QualityControlDepartment.process] :
          n313_manufacturing.ProductionLine n313_manufacturing.Product String Unit).process
          "").result)
    ∧ (((n315.DataProcessingPipeline.mk
          ⟨n315.Field.c_str "Alice Baker", n315.Field.c_str "Sales",
            n315.Field.double (Double.lit 50000 1), n315.Field.c_str "1950-01-15"⟩
          [n315.DepartmentUpdater.action] :
          n315.DataProcessingPipeline n315.Record (List n315.Field) String Unit).process
          [n315.Field.string "Marketing"] "").self.current_record
        = ⟨n315.Field.c_str "Alice Baker", n315.Field.c_str "Sales",
            n315.Field.double (Double.lit 50000 1), n315.Field.c_str "1950-01-15"⟩
      ∧ (((n315.DataProcessingPipeline.mk
          ⟨n315.Field.c_str "Alice Baker", n315.Field.c_str "Sales",
            n315.Field.double (Double.lit 50000 1), n315.Field.c_str "1950-01-15"⟩
          [n315.DepartmentUpdater.action] :
          n315.DataProcessingPipeline n315.Record (List n315.Field) String Unit).process
          [n315.Field.string "Marketing"] "").self.process [n315.Field.string "Marketing"]
            "").result
        = ((n315.DataProcessingPipeline.mk
          ⟨n315.Field.c_str "Alice Baker", n315.Field.c_str "Sales",
            n315.Field.double (Double.lit 50000 1), n315.Field.c_str "1950-01-15"⟩
          [n315.DepartmentUpdater.action] :
          n315.DataProcessingPipeline n315.Record (List n315.Field) String Unit).process
          [n315.Field.string "Marketing"] "").result) := by
  have h := process_leaves_the_pipeline_unchanged
    (n313_manufacturing.ProductionLine.mk (n313_manufacturing.Product.RawMaterial "Raw Steel")
      [n313_manufacturing.LoggingDepartment.process n313_manufacturing.ConsoleLogger.log,
        pureStage n313_manufacturing.QualityControlDepartment.process] :
      n313_manufacturing.ProductionLine n313_manufacturing.Product String Unit)
    (n315.DataProcessingPipeline.mk
      ⟨n315.Field.c_str "Alice Baker", n315.Field.c_str "Sales",
        n315.Field.double (Double.lit 50000 1), n315.Field.c_str "1950-01-15"⟩
      [n315.DepartmentUpdater.action] :
      n315.DataProcessingPipeline n315.Record (List n315.Field) String Unit)
    [n315.Field.string "Marketing"] ""
  have hworld : ((n313_manufacturing.ProductionLine.mk
      (n313_manufacturing.Product.RawMaterial "Raw Steel")
      [n313_manufacturing.LoggingDepartment.process n313_manufacturing.ConsoleLogger.log,
        pureStage n313_manufacturing.QualityControlDepartment.process] :
      n313_manufacturing.ProductionLine n313_manufacturing.Product String Unit).process
      "").world = "[LOG]: Processed: Raw Steel\n" := by decide
  refine ⟨⟨hworld, congrArg (fun l => l.current_state) h.1.1, ?_⟩,
    ⟨congrArg (fun p => p.current_record) h.2.1, ?_⟩⟩
  · rw [← hworld]
    refine h.1.2.2 ?_
    intro d rest hd w1 w2
    cases hd
    rfl
  · refine h.2.2.2 ?_
    intro d rest hd w1 w2
    cases hd
    rfl

/-! ## The example actions of `n315.cpp` -/

/-- In binary64 arithmetic `4000.0 * (1.0 + 0.10)` is the number `4400.0`. -/
lemma raise_4000_by_ten_percent :
    Double.lit 40000 1 * (Double.lit 10 1 + Double.lit 10 2) = Double.lit 44000 1 := by
  set_option maxRecDepth 100000 in decide

/-- C5. The pipeline `[DepartmentUpdater, StandardRaise]` started from the
record of David Edwards (department `"Clerical"`, salary `4000.0`, hired
`"1953-09-10"`): `process(std::string("HR"))` returns a pipeline holding the
record with department `"HR"` and salary `4000.0`, and `process(0.10)` on it
returns a complete pipeline whose final record has department `"HR"` and
salary exactly the `double` `4400.0`, name and hire date unchanged. -/
theorem david_edwards_example {World ε : Type} (w : World) :
    ∃ after_department final_pipeline : n315.DataProcessingPipeline n315.Record
        (List n315.Field) World ε,
      ((n315.start_processing
          ⟨n315.Field.c_str "David Edwards", n315.Field.c_str "Clerical",
            n315.Field.double (Double.lit 40000 1), n315.Field.c_str "1953-09-10"⟩
          n315.DepartmentUpdater.action [n315.StandardRaise.action]).process
          [n315.Field.string "HR"] w).result = Except.ok after_department
      ∧ after_department.current_record
        = ⟨n315.Field.c_str "David Edwards", n315.Field.string "HR",
            n315.Field.double (Double.lit 40000 1), n315.Field.c_str "1953-09-10"⟩
      ∧ (after_department.process [n315.Field.double (Double.lit 10 2)] w).result
        = Except.ok final_pipeline
      ∧ final_pipeline.get_final_record
        = Except.ok ⟨n315.Field.c_str "David Edwards", n315.Field.string "HR",
            n315.Field.double (Double.lit 44000 1), n315.Field.c_str "1953-09-10"⟩ := by
  refine ⟨⟨⟨n315.Field.c_str "David Edwards", n315.Field.string "HR",
      n315.Field.double (Double.lit 40000 1), n315.Field.c_str "1953-09-10"⟩,
      [n315.StandardRaise.action]⟩,
    ⟨⟨n315.Field.c_str "David Edwards", n315.Field.string "HR",
      n315.Field.double (Double.lit 44000 1), n315.Field.c_str "1953-09-10"⟩, []⟩,
    rfl, rfl, ?_, rfl⟩
  rw [process_removes_head_pipeline]
  simp only [n315.StandardRaise.action, n315.StandardRaise.instantiate, n315.StandardRaise.apply,
    n315.Arithmetic.toDouble, raise_4000_by_ten_percent]
  rfl

/-- C6. The record held by the pipeline `process` returns is the value the
head stage returned, of the variant the stage returned it in: nothing
converts it back to the variant of the input. For the provided stages:
after `DepartmentUpdater` the department is a `std::string` whatever it was
before, after `DepartmentChanger<N>` it is an `int`, after `StandardRaise`
the salary is a `double` (also when it was an `int`); and a production line
whose last department is `AssemblyDepartment` or `QualityControlDepartment`
ends in a `SemiFinishedProduct`, one whose last department is
`PolishingDepartment` or `PackagingDepartment` in a `FinishedProduct`. -/
theorem held_record_has_the_variant_the_stage_returns {World ε : Type} :
    ((∀ (ProductState : Type) (r : ProductState)
        (A1 : n313_manufacturing.Department ProductState World ε)
        (rest : List (n313_manufacturing.Department ProductState World ε)) (w : World),
        ((n313_manufacturing.ProductionLine.mk r (A1 :: rest)).process w).result.map
            (fun next => next.current_state) = (A1 r w).1)
      ∧ (∀ (Record Args : Type) (r : Record) (A1 : n315.Action Record Args World ε)
        (rest : List (n315.Action Record Args World ε)) (args : Args) (w : World),
        ((n315.DataProcessingPipeline.mk r (A1 :: rest)).process args w).result.map
            (fun next => next.current_record) = (A1 r args w).1))
    ∧ ((∀ (record : n315.Record) (rest : List (n315.Action n315.Record (List n315.Field) World ε))
        (new_department : String) (w : World),
        ∃ next, ((n315.DataProcessingPipeline.mk record
              (n315.DepartmentUpdater.action :: rest)).process
              [n315.Field.string new_department] w).result = Except.ok next
          ∧ next.current_record.department = n315.Field.string new_department)
      ∧ (∀ (record : n315.Record) (rest : List (n315.Action n315.Record (List n315.Field) World ε))
        (N : Int) (w : World),
        ∃ next, ((n315.DataProcessingPipeline.mk record
              (n315.DepartmentChanger.action N :: rest)).process [] w).result = Except.ok next
          ∧ next.current_record.department = n315.Field.int N)
      ∧ (∀ (name department hire_date : n315.Field) (salary : Double)
        (rest : List (n315.Action n315.Record (List n315.Field) World ε))
        (raise_percentage : Double) (w : World),
        ∃ next d, ((n315.DataProcessingPipeline.mk
              ⟨name, department, n315.Field.double salary, hire_date⟩
              (n315.StandardRaise.action :: rest)).process
              [n315.Field.double raise_percentage] w).result = Except.ok next
          ∧ next.current_record.salary = n315.Field.double d)
      ∧ (∀ (name department hire_date : n315.Field) (salary : Int)
        (rest : List (n315.Action n315.Record (List n315.Field) World ε))
        (raise_percentage : Double) (w : World),
        ∃ next d, ((n315.DataProcessingPipeline.mk
              ⟨name, department, n315.Field.int salary, hire_date⟩
              (n315.StandardRaise.action :: rest)).process
              [n315.Field.double raise_percentage] w).result = Except.ok next
          ∧ next.current_record.salary = n315.Field.double d))
    ∧ (∀ (S : List (FunctionStage World n313_manufacturing.Product))
        (last : n313_manufacturing.Product → n313_manufacturing.Product)
        (R0 : n313_manufacturing.Product) (w : World),
        ∃ (final : n313_manufacturing.ProductionLine n313_manufacturing.Product World ε)
          (w' : World),
          n313_manufacturing.ProductionLine.process_times (S.length + 1)
              (n313_manufacturing.create_production_line R0
                (S.map FunctionStage.run ++ [pureStage last])) w
            = (Except.ok final, w')
          ∧ final.departments = []
          ∧ ((last = n313_manufacturing.AssemblyDepartment.process
                ∨ last = n313_manufacturing.QualityControlDepartment.process) →
              ∃ v, final.get_final_state
                = Except.ok (n313_manufacturing.Product.SemiFinishedProduct v))
          ∧ (((∃ PolishMaterial_name,
                  last = n313_manufacturing.PolishingDepartment.process PolishMaterial_name)
                ∨ (∃ DepartmentID,
                  last = n313_manufacturing.PackagingDepartment.process DepartmentID)) →
              ∃ v, final.get_final_state
                = Except.ok (n313_manufacturing.Product.FinishedProduct v))) := by
  refine ⟨⟨?_, ?_⟩, ⟨?_, ?_, ?_, ?_⟩, ?_⟩
  · intro P r A1 rest w
    rw [process_removes_head_line]
    cases (A1 r w).1 <;> rfl
  · intro R A r A1 rest args w
    rw [process_removes_head_pipeline]
    cases (A1 r args w).1 <;> rfl
  · intro record rest d w
    exact ⟨_, rfl, rfl⟩
  · intro record rest N w
    exact ⟨_, rfl, rfl⟩
  · intro name department hire_date salary rest p w
    exact ⟨_, _, rfl, rfl⟩
  · intro name department hire_date salary rest p w
    exact ⟨_, _, rfl, rfl⟩
  · intro S last R0 w
    obtain ⟨w', h⟩ := @n313_manufacturing.line_process_times_function _ World ε
      (S ++ [⟨last, fun _ w => w⟩]) [] R0 w
    rw [List.append_nil, List.length_append, List.map_append] at h
    refine ⟨_, w', h, rfl, ?_, ?_⟩
    · rintro (rfl | rfl)
      · simp only [n313_manufacturing.ProductionLine.get_final_state, List.foldl_append,
          List.foldl_cons, List.foldl_nil, n313_manufacturing.AssemblyDepartment.process]
        exact ⟨_, rfl⟩
      · simp only [n313_manufacturing.ProductionLine.get_final_state, List.foldl_append,
          List.foldl_cons, List.foldl_nil, n313_manufacturing.QualityControlDepartment.process]
        split
        · exact ⟨_, rfl⟩
        · exact ⟨_, rfl⟩
    · rintro (⟨nm, rfl⟩ | ⟨id, rfl⟩)
      · simp only [n313_manufacturing.ProductionLine.get_final_state, List.foldl_append,
          List.foldl_cons, List.foldl_nil, n313_manufacturing.PolishingDepartment.process]
        exact ⟨_, rfl⟩
      · simp only [n313_manufacturing.ProductionLine.get_final_state, List.foldl_append,
          List.foldl_cons, List.foldl_nil, n313_manufacturing.PackagingDepartment.process]
        exact ⟨_, rfl⟩

/-- In binary64 arithmetic `6000.0 * (1.0 + 0.05)` is the number `6300.0`. -/
lemma raise_6000_by_five_percent :
    Double.lit 60000 1 * (Double.lit 10 1 + Double.lit 5 2) = Double.lit 63000 1 := by
  set_option maxRecDepth 100000 in decide

/-- C7. For every logger and every product `p`, in every world,
`LoggingDepartment<Logger>::process(p)` returns normally and returns `p`
itself, same variant and same value; what the logger does is done to the
world only, which receives the message `"Processed: " + p.value`. -/
theorem logging_department_returns_its_input {World ε : Type}
    (Logger_log : String → World → World) (p : n313_manufacturing.Product) (w : World) :
    (n313_manufacturing.LoggingDepartment.process Logger_log p w :
        Outcome World ε n313_manufacturing.Product).1 = Except.ok p
    ∧ (n313_manufacturing.LoggingDepartment.process Logger_log p w :
        Outcome World ε n313_manufacturing.Product).2 = Logger_log ("Processed: " ++ p.value) w :=
  ⟨rfl, rfl⟩

/-- C8. For every record `r`, of any instantiation of `EmployeeRecord`, and
every string `d`, `DepartmentUpdater::apply(r, d)` returns a record whose
department is `d` and whose name, salary and hire date are those of `r`;
as an action of a pipeline it returns that record, with the department a
`std::string`, and leaves the world alone. -/
theorem department_updater_sets_only_the_department {N D S H World ε : Type}
    (r : n315.EmployeeRecord N D S H) (record : n315.Record) (d : String) (w : World) :
    ((n315.DepartmentUpdater.apply r d).department = d
      ∧ (n315.DepartmentUpdater.apply r d).name = r.name
      ∧ (n315.DepartmentUpdater.apply r d).salary = r.salary
      ∧ (n315.DepartmentUpdater.apply r d).hire_date = r.hire_date)
    ∧ (n315.DepartmentUpdater.action record [n315.Field.string d] w :
          Outcome World ε n315.Record)
        = (Except.ok ⟨record.name, n315.Field.string d, record.salary, record.hire_date⟩, w) :=
  ⟨⟨rfl, rfl, rfl, rfl⟩, rfl⟩

/-- C9. For every record `r` whose salary is of an arithmetic type and every
raise percentage `p`, `StandardRaise::apply(r, p)` returns a record whose
salary is the `double` product `r.salary * (1.0 + p)` and whose name,
department and hire date are those of `r`; a salary of `6000.0` raised by
`0.05` gives the `double` `6300.0`. -/
theorem standard_raise_multiplies_the_salary {N D S H : Type} [n315.Arithmetic S]
    (r : n315.EmployeeRecord N D S H) (p : Double) :
    ((n315.StandardRaise.apply r p).salary
        = n315.Arithmetic.toDouble r.salary * (Double.lit 10 1 + p)
      ∧ (n315.StandardRaise.apply r p).name = r.name
      ∧ (n315.StandardRaise.apply r p).department = r.department
      ∧ (n315.StandardRaise.apply r p).hire_date = r.hire_date)
    ∧ (n315.StandardRaise.apply
          ({ name := r.name, department := r.department, salary := Double.lit 60000 1,
             hire_date := r.hire_date } : n315.EmployeeRecord N D Double H)
          (Double.lit 5 2)).salary = Double.lit 63000 1 :=
  ⟨⟨rfl, rfl, rfl, rfl⟩, raise_6000_by_five_percent⟩

/-- C10. For every record `r`, of any instantiation of `EmployeeRecord`, and
every integer code `N`, `DepartmentChanger<N>::apply(r)` returns a record
whose department is `N` and whose name, salary and hire date are those of
`r`; as an action of a pipeline it returns that record, with the
department an `int`, and leaves the world alone. -/
theorem department_changer_sets_only_the_department {N D S H World ε : Type}
    (r : n315.EmployeeRecord N D S H) (record : n315.Record) (code : Int) (w : World) :
    ((n315.DepartmentChanger.apply code r).department = code
      ∧ (n315.DepartmentChanger.apply code r).name = r.name
      ∧ (n315.DepartmentChanger.apply code r).salary = r.salary
      ∧ (n315.DepartmentChanger.apply code r).hire_date = r.hire_date)
    ∧ (n315.DepartmentChanger.action code record [] w : Outcome World ε n315.Record)
        = (Except.ok ⟨record.name, n315.Field.int code, record.salary, record.hire_date⟩, w) :=
  ⟨⟨rfl, rfl, rfl, rfl⟩, rfl⟩

/-! ## Comparison lemmas for `double` -/

/-- The zero that an `int` `0` converts to. -/
lemma double_of_int_zero : Double.ofInt 0 = Double.fin false 0 (-1074) := by decide

/-- A value that compares `0 <= x` does not compare `x < 0`. -/
lemma double_not_lt_zero_of_ge (x : Double) (h : Double.le (Double.ofInt 0) x = true) :
    Double.lt x (Double.ofInt 0) = false := by
  rw [double_of_int_zero] at *
  cases x with
  | nan => rfl
  | inf s => simpa [Double.le, Double.lt] using h
  | fin s m e =>
    simp only [Double.le, Double.lt, decide_eq_true_eq, decide_eq_false_iff_not, not_lt] at *
    rw [min_comm]
    exact h

/-- A zero does not compare `x < 0`. -/
lemma double_zero_not_lt_zero (x : Double) (h : x.isZero = true) :
    Double.lt x (Double.ofInt 0) = false := by
  rw [double_of_int_zero]
  cases x with
  | nan => rfl
  | inf s => simp [Double.isZero] at h
  | fin s m e =>
    simp only [Double.isZero, decide_eq_true_eq] at h
    subst h
    simp [Double.lt, Double.scaled]

/-- Rounding the number zero gives a zero. -/
lemma round_dyadic_zero (neg : Bool) (e : Int) :
    Double.roundDyadic neg 0 e = Double.fin neg 0 (-1074) := by
  unfold Double.roundDyadic
  split <;> simp [Double.roundRat]

/-- The product of a zero and a finite number is a zero. -/
lemma double_zero_mul_finite (z x : Double) (hz : z.isZero = true) (hx : x.isFinite = true) :
    (z * x).isZero = true := by
  cases z with
  | nan => simp [Double.isZero] at hz
  | inf s => simp [Double.isZero] at hz
  | fin s m e =>
    simp only [Double.isZero, decide_eq_true_eq] at hz
    subst hz
    cases x with
    | nan => simp [Double.isFinite] at hx
    | inf t => simp [Double.isFinite] at hx
    | fin t n f =>
      show (Double.mul (Double.fin s 0 e) (Double.fin t n f)).isZero = true
      simp [Double.mul, round_dyadic_zero, Double.isZero]

/-- A sales amount that compares `sales >= 0` does not compare `sales < 0`. -/
lemma sales_not_lt_zero_of_ge (sales : n302.SalesData) (h : sales.ge_zero = true) :
    sales.lt_zero = false := by
  cases sales with
  | of_double s => exact double_not_lt_zero_of_ge s h
  | of_int n =>
    simp only [n302.SalesData.ge_zero, n302.SalesData.lt_zero, decide_eq_true_eq,
      decide_eq_false_iff_not, not_lt] at *
    exact h

/-! ## The commission calculator -/

/-- A function without effect that returns, called in a world. -/
lemma pure_call_ok {World α β : Type} (f : α → Except n302.Exception β) (a : α) (b : β)
    (w : World) (h : f a = Except.ok b) : n302.pureCall f a w = (Except.ok b, w) := by
  simp [n302.pureCall, h]

/-- A function without effect that throws, called in a world. -/
lemma pure_call_error {World α β : Type} (f : α → Except n302.Exception β) (a : α)
    (e : n302.Exception) (w : World) (h : f a = Except.error e) :
    n302.pureCall f a w = (Except.error (Fault.thrown e), w) := by
  simp [n302.pureCall, h]

/-- What `calculateCommission` returns when the guard on the sales amount
does not fire and the three components return. -/
lemma commission_of_returning_components {World : Type}
    (BaseCommissionCalculator : Double → World → Outcome World n302.Exception Double)
    (sales : n302.SalesData)
    (tiers : Double → World → Outcome World n302.Exception Double)
    (bonusPolicy : Int → World → Outcome World n302.Exception Double)
    (employeeTenureYears : Int) (w w1 w2 w3 : World)
    (baseCommission commissionRate bonusPercentage : Double)
    (hsales : sales.lt_zero = false)
    (hbase : BaseCommissionCalculator sales.to_double w = (Except.ok baseCommission, w1))
    (htiers : tiers sales.to_double w1 = (Except.ok commissionRate, w2))
    (hpolicy : bonusPolicy employeeTenureYears w2 = (Except.ok bonusPercentage, w3)) :
    n302.calculateCommission BaseCommissionCalculator sales tiers bonusPolicy
        employeeTenureYears w
      = (Except.ok (baseCommission * commissionRate * (Double.lit 10 1 + bonusPercentage)),
          w3) := by
  simp [n302.calculateCommission, hsales, hbase, htiers, hpolicy]

set_option maxRecDepth 100000 in
set_option exponentiation.threshold 2000 in
/-- The sales amount `-1000.0` compares `sales < 0`. -/
lemma minus_1000_lt_zero :
    (n302.SalesData.of_double (Double.neg (Double.lit 10000 1))).lt_zero = true := by
  decide

/-- C11. For every base-commission calculator, tier table, bonus policy and
tenure, in every world: `calculateCommission` called with a sales amount
that compares `sales < 0` fails with `std::invalid_argument` ("Sales amount
cannot be negative") and leaves the world as it was. The outcome is the
same whatever the three components would have done, thrown or written: none
of them is consulted. -/
theorem negative_sales_rejected_before_any_component {World : Type}
    (BaseCommissionCalculator : Double → World → Outcome World n302.Exception Double)
    (sales : n302.SalesData)
    (tiers : Double → World → Outcome World n302.Exception Double)
    (bonusPolicy : Int → World → Outcome World n302.Exception Double)
    (employeeTenureYears : Int) (w : World) (h : sales.lt_zero = true) :
    n302.calculateCommission BaseCommissionCalculator sales tiers bonusPolicy
        employeeTenureYears w
      = (Except.error (Fault.thrown
          (n302.Exception.invalid_argument "Sales amount cannot be negative")), w) := by
  simp [n302.calculateCommission, h]

/-- C11, at a concrete input: the sales amount `-1000.0` of the error case of
`run_tests`, with three components that each count their calls in the
world and throw. The call counter stays at `0` and the exception is the
`std::invalid_argument` of `calculateCommission`. -/
theorem negative_sales_rejected_before_any_component_witness :
    (n302.SalesData.of_double (Double.neg (Double.lit 10000 1))).lt_zero = true
    ∧ n302.calculateCommission
        (fun _ calls => (Except.error (Fault.thrown (n302.Exception.other "base")), calls + 1))
        (n302.SalesData.of_double (Double.neg (Double.lit 10000 1)))
        (fun _ calls => (Except.error (Fault.thrown (n302.Exception.other "tiers")), calls + 1))
        (fun _ calls => (Except.error (Fault.thrown (n302.Exception.other "bonus")), calls + 1))
        7 (0 : Nat)
      = (Except.error (Fault.thrown
          (n302.Exception.invalid_argument "Sales amount cannot be negative")), 0) :=
  ⟨minus_1000_lt_zero, negative_sales_rejected_before_any_component _ _ _ _ 7 0
    minus_1000_lt_zero⟩

set_option maxRecDepth 100000 in
set_option exponentiation.threshold 2000 in
/-- Test case 4 of `run_tests` run with the tenure `-1`: the sales amount
`6000.0` compares `sales >= 0`, the base commission is `6000.0 * 0.04`, the
rate `0.04`, the bonus of `AggressiveBonusPolicy` `0.00`, and the product
is the `double` `9.6`. -/
lemma aggressive_policy_steps :
    (n302.SalesData.of_double (Double.lit 60000 1)).ge_zero = true
    ∧ (n302.SalesData.of_double (Double.lit 60000 1)).lt_zero = false
    ∧ n302.PerformanceLinkedBaseCommission (Double.lit 60000 1)
      = Except.ok (Double.lit 60000 1 * Double.lit 4 2)
    ∧ n302.test_tiers.getCommissionRate (Double.lit 60000 1) = Except.ok (Double.lit 4 2)
    ∧ n302.AggressiveBonusPolicy.getBonusPercentage (-1) = Except.ok (Double.lit 0 2)
    ∧ Double.lit 60000 1 * Double.lit 4 2 * Double.lit 4 2 * (Double.lit 10 1 + Double.lit 0 2)
      = Double.lit 96 1 := by
  decide

/-- C12, as stated, fails: test case 4 of `run_tests` (sales `6000.0`, the
table of `SimpleCommissionTiers`, `AggressiveBonusPolicy`) called with the
tenure `-1`. The sales amount is not negative, the tenure is, and the call
returns the value `9.6`: `AggressiveBonusPolicy` accepts a negative tenure
and `calculateCommission` itself does not look at the tenure. -/
theorem negative_tenure_accepted_by_aggressive_policy :
    (n302.SalesData.of_double (Double.lit 60000 1)).ge_zero = true
    ∧ (-1 : Int) < 0
    ∧ n302.calculateCommission (n302.pureCall n302.PerformanceLinkedBaseCommission)
        (n302.SalesData.of_double (Double.lit 60000 1))
        (n302.pureCall n302.test_tiers.getCommissionRate)
        (n302.pureCall n302.AggressiveBonusPolicy.getBonusPercentage) (-1) ()
      = (Except.ok (Double.lit 96 1), ()) := by
  obtain ⟨h1, h2, h3, h4, h5, h6⟩ := aggressive_policy_steps
  refine ⟨h1, by decide, ?_⟩
  rw [← h6]
  exact commission_of_returning_components _ _ _ _ (-1) () () () () _ _ _ h2
    (pure_call_ok _ _ _ () h3) (pure_call_ok _ _ _ () h4) (pure_call_ok _ _ _ () h5)

/-- C12, amended. The negative tenure is rejected by the bonus policy, not by
`calculateCommission`: for every sales amount that compares `sales >= 0`, on
which the base calculator and the tier table return, and every bonus policy
whose `getBonusPercentage` fails with `std::invalid_argument` on the tenure
given (as `TenureBonusPolicy` does on every tenure below `0`),
`calculateCommission` fails with that `std::invalid_argument`. -/
theorem negative_tenure_rejected_by_the_policy {World : Type}
    (BaseCommissionCalculator : Double → World → Outcome World n302.Exception Double)
    (sales : n302.SalesData)
    (tiers : Double → World → Outcome World n302.Exception Double)
    (bonusPolicy : Int → World → Outcome World n302.Exception Double)
    (employeeTenureYears : Int) (w w1 w2 : World) (baseCommission commissionRate : Double)
    (what : String)
    (hsales : sales.ge_zero = true)
    (hbase : BaseCommissionCalculator sales.to_double w = (Except.ok baseCommission, w1))
    (htiers : tiers sales.to_double w1 = (Except.ok commissionRate, w2))
    (hpolicy : (bonusPolicy employeeTenureYears w2).1
      = Except.error (Fault.thrown (n302.Exception.invalid_argument what))) :
    (n302.calculateCommission BaseCommissionCalculator sales tiers bonusPolicy
        employeeTenureYears w).1
      = Except.error (Fault.thrown (n302.Exception.invalid_argument what)) := by
  have hneg := sales_not_lt_zero_of_ge sales hsales
  rcases hp : bonusPolicy employeeTenureYears w2 with ⟨res, w3⟩
  rw [hp] at hpolicy
  simp only at hpolicy
  subst hpolicy
  simp [n302.calculateCommission, hneg, hbase, htiers, hp]

set_option maxRecDepth 100000 in
set_option exponentiation.threshold 2000 in
/-- Test case 4 of `run_tests` with `TenureBonusPolicy` and the tenure `-1`:
the base calculator and the tier table return, the policy throws. -/
lemma tenure_policy_steps :
    n302.test_tiers.getCommissionRate (Double.lit 60000 1) = Except.ok (Double.lit 4 2)
    ∧ n302.TenureBonusPolicy.getBonusPercentage (-1)
      = Except.error (n302.Exception.invalid_argument "Tenure years cannot be negative") := by
  decide

/-- C12, amended, at a concrete input: sales `6000.0`, the table of the
tests, `TenureBonusPolicy` and the tenure `-1`. -/
theorem negative_tenure_rejected_by_the_policy_witness :
    (n302.calculateCommission (n302.pureCall n302.PerformanceLinkedBaseCommission)
        (n302.SalesData.of_double (Double.lit 60000 1))
        (n302.pureCall n302.test_tiers.getCommissionRate)
        (n302.pureCall n302.TenureBonusPolicy.getBonusPercentage) (-1) ()).1
      = Except.error (Fault.thrown
          (n302.Exception.invalid_argument "Tenure years cannot be negative")) :=
  negative_tenure_rejected_by_the_policy (n302.pureCall n302.PerformanceLinkedBaseCommission)
    (n302.SalesData.of_double (Double.lit 60000 1))
    (n302.pureCall n302.test_tiers.getCommissionRate)
    (n302.pureCall n302.TenureBonusPolicy.getBonusPercentage) (-1) () () ()
    (Double.lit 60000 1 * Double.lit 4 2) (Double.lit 4 2) "Tenure years cannot be negative"
    aggressive_policy_steps.1
    (pure_call_ok _ _ _ () aggressive_policy_steps.2.2.1)
    (pure_call_ok _ _ _ () tenure_policy_steps.1)
    (congrArg Prod.fst (pure_call_error _ _ _ () tenure_policy_steps.2))

set_option maxRecDepth 100000 in
set_option exponentiation.threshold 2000 in
/-- The steps of a call with the sales amount `0.0`, the table of the tests
and `TenureBonusPolicy` with tenure `7`: the guard does not fire, the rate
is `0.02`, the bonus `0.02`; with a base commission of `100.0` the product
is the `double` `2.04`, which is not a zero. -/
lemma zero_sales_steps :
    (n302.SalesData.of_double (Double.lit 0 1)).lt_zero = false
    ∧ n302.test_tiers.getCommissionRate (Double.lit 0 1) = Except.ok (Double.lit 2 2)
    ∧ n302.TenureBonusPolicy.getBonusPercentage 7 = Except.ok (Double.lit 2 2)
    ∧ Double.lit 1000 1 * Double.lit 2 2 * (Double.lit 10 1 + Double.lit 2 2) = Double.lit 204 2
    ∧ (Double.lit 204 2).isZero = false
    ∧ (Double.lit 0 1 * Double.lit 5 2).isZero = true
    ∧ (Double.lit 2 2).isFinite = true
    ∧ (Double.lit 10 1 + Double.lit 2 2).isFinite = true := by
  decide

/-- C13, as stated, fails: a base calculator that returns the flat amount
`100.0` for every sales amount, the table of the tests, `TenureBonusPolicy`
and the tenure `7`. Called with the sales amount `0.0`,
`calculateCommission` returns `100.0 * 0.02 * (1.0 + 0.02)`, the `double`
`2.04`, not `0`. -/
theorem zero_sales_with_flat_base_commission :
    n302.calculateCommission (n302.pureCall (fun _ => Except.ok (Double.lit 1000 1)))
        (n302.SalesData.of_double (Double.lit 0 1))
        (n302.pureCall n302.test_tiers.getCommissionRate)
        (n302.pureCall n302.TenureBonusPolicy.getBonusPercentage) 7 ()
      = (Except.ok (Double.lit 204 2), ())
    ∧ (Double.lit 204 2).isZero = false := by
  obtain ⟨h1, h2, h3, h4, h5, -⟩ := zero_sales_steps
  refine ⟨?_, h5⟩
  rw [← h4]
  exact commission_of_returning_components _ _ _ _ 7 () () () () _ _ _ h1
    (pure_call_ok _ _ _ () rfl) (pure_call_ok _ _ _ () h2) (pure_call_ok _ _ _ () h3)

/-- C13, amended. The commission for the sales amount `0` is the product of
what the three components return, so it is `0` when the base commission
is: for the sales amount `0` (the `int` `0`, the `double` `0.0` or `-0.0`),
every base calculator that returns a zero for it, every tier table that
returns a finite rate and every bonus policy that returns a bonus `b` with
`1.0 + b` finite, `calculateCommission` returns a zero. -/
theorem zero_sales_give_zero_when_base_commission_is_zero {World : Type}
    (BaseCommissionCalculator : Double → World → Outcome World n302.Exception Double)
    (sales : n302.SalesData)
    (tiers : Double → World → Outcome World n302.Exception Double)
    (bonusPolicy : Int → World → Outcome World n302.Exception Double)
    (employeeTenureYears : Int) (w w1 w2 w3 : World)
    (baseCommission commissionRate bonusPercentage : Double)
    (hsales : sales = n302.SalesData.of_int 0
      ∨ ∃ neg, sales = n302.SalesData.of_double (Double.fin neg 0 (-1074)))
    (hbase : BaseCommissionCalculator sales.to_double w = (Except.ok baseCommission, w1))
    (hzero : baseCommission.isZero = true)
    (htiers : tiers sales.to_double w1 = (Except.ok commissionRate, w2))
    (hrate : commissionRate.isFinite = true)
    (hpolicy : bonusPolicy employeeTenureYears w2 = (Except.ok bonusPercentage, w3))
    (hbonus : (Double.lit 10 1 + bonusPercentage).isFinite = true) :
    ∃ commission, n302.calculateCommission BaseCommissionCalculator sales tiers bonusPolicy
        employeeTenureYears w = (Except.ok commission, w3)
      ∧ commission.isZero = true := by
  have hneg : sales.lt_zero = false := by
    rcases hsales with rfl | ⟨neg, rfl⟩
    · rfl
    · exact double_zero_not_lt_zero (Double.fin neg 0 (-1074)) (by simp [Double.isZero])
  refine ⟨_, commission_of_returning_components _ _ _ _ _ w w1 w2 w3 _ _ _ hneg hbase htiers
    hpolicy, ?_⟩
  exact double_zero_mul_finite _ _ (double_zero_mul_finite _ _ hzero hrate) hbonus

/-- C13, amended, at a concrete input: the sales amount `0.0` with the base
calculator of test case 1 (`sales * 0.05`), the table of the tests and
`TenureBonusPolicy` with tenure `7`. -/
theorem zero_sales_give_zero_when_base_commission_is_zero_witness :
    ∃ commission, n302.calculateCommission (n302.pureCall n302.SimpleBaseCommission)
        (n302.SalesData.of_double (Double.fin false 0 (-1074)))
        (n302.pureCall n302.test_tiers.getCommissionRate)
        (n302.pureCall n302.TenureBonusPolicy.getBonusPercentage) 7 ()
        = (Except.ok commission, ())
      ∧ commission.isZero = true :=
  zero_sales_give_zero_when_base_commission_is_zero
    (n302.pureCall n302.SimpleBaseCommission)
    (n302.SalesData.of_double (Double.fin false 0 (-1074)))
    (n302.pureCall n302.test_tiers.getCommissionRate)
    (n302.pureCall n302.TenureBonusPolicy.getBonusPercentage) 7 () () () ()
    (Double.lit 0 1 * Double.lit 5 2) (Double.lit 2 2) (Double.lit 2 2)
    (Or.inr ⟨false, rfl⟩)
    (pure_call_ok _ _ _ () rfl) zero_sales_steps.2.2.2.2.2.1
    (pure_call_ok _ _ _ () zero_sales_steps.2.1) zero_sales_steps.2.2.2.2.2.2.1
    (pure_call_ok _ _ _ () zero_sales_steps.2.2.1) zero_sales_steps.2.2.2.2.2.2.2

set_option maxRecDepth 100000 in
set_option exponentiation.threshold 2000 in
/-- The steps of test case 1 of `run_tests`: the sales amount `3000.0` is
not negative, its rate in the table is `0.03`, the bonus for the tenure `7`
is `0.02`, `1.0 + 0.02` is the `double` `1.02`, and the product
`3000.0 * 0.05 * 0.03 * 1.02` is the `double` `4.59`. -/
lemma test_case_1_steps :
    (n302.SalesData.of_double (Double.lit 30000 1)).lt_zero = false
    ∧ n302.test_tiers.getCommissionRate (Double.lit 30000 1) = Except.ok (Double.lit 3 2)
    ∧ n302.TenureBonusPolicy.getBonusPercentage 7 = Except.ok (Double.lit 2 2)
    ∧ Double.lit 10 1 + Double.lit 2 2 = Double.lit 102 2
    ∧ Double.lit 30000 1 * Double.lit 5 2 * Double.lit 3 2 * Double.lit 102 2
      = Double.lit 459 2 := by
  decide

/-- C14. Test case 1 of `run_tests`: `calculateCommission` with the sales
amount `3000.0`, the table `{1000.0, 0.02}, {5000.0, 0.03}, {10000.0, 0.04}`,
`TenureBonusPolicy`, the tenure `7` and the base calculator `sales * 0.05`
returns the `double` product `3000.0 * 0.05 * 0.03 * 1.02`, which is the
`double` `4.59`. -/
theorem test_case_1_commission {World : Type} (w : World) :
    n302.calculateCommission (n302.pureCall n302.SimpleBaseCommission)
        (n302.SalesData.of_double (Double.lit 30000 1))
        (n302.pureCall n302.test_tiers.getCommissionRate)
        (n302.pureCall n302.TenureBonusPolicy.getBonusPercentage) 7 w
      = (Except.ok (Double.lit 30000 1 * Double.lit 5 2 * Double.lit 3 2 * Double.lit 102 2), w)
    ∧ Double.lit 30000 1 * Double.lit 5 2 * Double.lit 3 2 * Double.lit 102 2
      = Double.lit 459 2 := by
  obtain ⟨h1, h2, h3, h4, h5⟩ := test_case_1_steps
  refine ⟨?_, h5⟩
  rw [← h4]
  exact commission_of_returning_components _ _ _ _ 7 w w w w _ _ _ h1
    (pure_call_ok _ _ _ w rfl) (pure_call_ok _ _ _ w h2) (pure_call_ok _ _ _ w h3)

/-- C15. For every sales amount `s` that compares `s >= 0` and every tenure
`t`, when the base calculator returns `base(s)`, the tier lookup returns
`rate(s)` and the bonus policy returns `bonus(t)`, `calculateCommission`
returns the `double` product `base(s) * rate(s) * (1.0 + bonus(t))`, in the
world the three calls, made in this order, leave. -/
theorem commission_is_base_times_rate_times_bonus_factor {World : Type}
    (BaseCommissionCalculator : Double → World → Outcome World n302.Exception Double)
    (sales : n302.SalesData)
    (tiers : Double → World → Outcome World n302.Exception Double)
    (bonusPolicy : Int → World → Outcome World n302.Exception Double)
    (employeeTenureYears : Int) (w w1 w2 w3 : World)
    (baseCommission commissionRate bonusPercentage : Double)
    (hsales : sales.ge_zero = true)
    (hbase : BaseCommissionCalculator sales.to_double w = (Except.ok baseCommission, w1))
    (htiers : tiers sales.to_double w1 = (Except.ok commissionRate, w2))
    (hpolicy : bonusPolicy employeeTenureYears w2 = (Except.ok bonusPercentage, w3)) :
    n302.calculateCommission BaseCommissionCalculator sales tiers bonusPolicy
        employeeTenureYears w
      = (Except.ok (baseCommission * commissionRate * (Double.lit 10 1 + bonusPercentage)),
          w3) :=
  commission_of_returning_components _ _ _ _ _ w w1 w2 w3 _ _ _
    (sales_not_lt_zero_of_ge sales hsales) hbase htiers hpolicy

set_option maxRecDepth 100000 in
set_option exponentiation.threshold 2000 in
/-- The steps of a call with the `int` sales amount `1500` and the tenure
`12`: the rate in the table of the tests is `0.03`, the bonus `0.05`. -/
lemma int_sales_steps :
    (n302.SalesData.of_int 1500).ge_zero = true
    ∧ n302.test_tiers.getCommissionRate (Double.ofInt 1500) = Except.ok (Double.lit 3 2)
    ∧ n302.TenureBonusPolicy.getBonusPercentage 12 = Except.ok (Double.lit 5 2) := by
  decide

/-- C15, at a concrete input: the `int` sales amount `1500`, the base
calculator `sales * 0.05`, the table of the tests, `TenureBonusPolicy` and
the tenure `12`. -/
theorem commission_is_base_times_rate_times_bonus_factor_witness :
    n302.calculateCommission (n302.pureCall n302.SimpleBaseCommission)
        (n302.SalesData.of_int 1500)
        (n302.pureCall n302.test_tiers.getCommissionRate)
        (n302.pureCall n302.TenureBonusPolicy.getBonusPercentage) 12 ()
      = (Except.ok (Double.ofInt 1500 * Double.lit 5 2 * Double.lit 3 2
          * (Double.lit 10 1 + Double.lit 5 2)), ()) :=
  commission_is_base_times_rate_times_bonus_factor (n302.pureCall n302.SimpleBaseCommission)
    (n302.SalesData.of_int 1500) (n302.pureCall n302.test_tiers.getCommissionRate)
    (n302.pureCall n302.TenureBonusPolicy.getBonusPercentage) 12 () () () ()
    (Double.ofInt 1500 * Double.lit 5 2) (Double.lit 3 2) (Double.lit 5 2)
    int_sales_steps.1 (pure_call_ok _ _ _ () rfl) (pure_call_ok _ _ _ () int_sales_steps.2.1)
    (pure_call_ok _ _ _ () int_sales_steps.2.2)

/-- C16. `SimpleCommissionTiers::getCommissionRate` fails, with
`std::invalid_argument`, exactly when `sales < 0`, and returns a value
otherwise, so on every `sales >= 0`; `TenureBonusPolicy::getBonusPercentage`
fails, with `std::invalid_argument`, exactly when `tenureYears < 0`, and
returns a value otherwise, so on every `tenureYears >= 0`. -/
theorem tiers_and_tenure_policy_reject_exactly_negative_input
    (tiers : n302.SimpleCommissionTiers) (sales : Double) (tenureYears : Int) :
    ((tiers.getCommissionRate sales
          = Except.error (n302.Exception.invalid_argument "Sales amount cannot be negative")
        ↔ Double.lt sales (Double.ofInt 0) = true)
      ∧ ((∃ rate, tiers.getCommissionRate sales = Except.ok rate)
        ↔ Double.lt sales (Double.ofInt 0) = false)
      ∧ (Double.le (Double.ofInt 0) sales = true →
          ∃ rate, tiers.getCommissionRate sales = Except.ok rate))
    ∧ ((n302.TenureBonusPolicy.getBonusPercentage tenureYears
          = Except.error (n302.Exception.invalid_argument "Tenure years cannot be negative")
        ↔ tenureYears < 0)
      ∧ ((∃ bonus, n302.TenureBonusPolicy.getBonusPercentage tenureYears = Except.ok bonus)
        ↔ ¬ tenureYears < 0)
      ∧ (0 ≤ tenureYears →
          ∃ bonus, n302.TenureBonusPolicy.getBonusPercentage tenureYears = Except.ok bonus)) := by
  have hrate : ∀ s, Double.lt s (Double.ofInt 0) = false →
      ∃ rate, tiers.getCommissionRate s = Except.ok rate := by
    intro s hs
    unfold n302.SimpleCommissionTiers.getCommissionRate
    rw [hs]
    simp only [Bool.false_eq_true, if_false]
    split <;> exact ⟨_, rfl⟩
  have hbonus : ∀ t : Int, ¬ t < 0 →
      ∃ bonus, n302.TenureBonusPolicy.getBonusPercentage t = Except.ok bonus := by
    intro t ht
    unfold n302.TenureBonusPolicy.getBonusPercentage
    rw [if_neg ht]
    split
    · exact ⟨_, rfl⟩
    · split <;> exact ⟨_, rfl⟩
  refine ⟨⟨?_, ?_, ?_⟩, ⟨?_, ?_, ?_⟩⟩
  · constructor
    · intro h
      by_contra hn
      obtain ⟨rate, hr⟩ := hrate sales (by simpa using hn)
      rw [hr] at h
      cases h
    · intro h
      simp [n302.SimpleCommissionTiers.getCommissionRate, h]
  · constructor
    · rintro ⟨rate, hr⟩
      by_contra hn
      have h : Double.lt sales (Double.ofInt 0) = true := by simpa using hn
      simp [n302.SimpleCommissionTiers.getCommissionRate, h] at hr
    · exact hrate sales
  · intro h
    exact hrate sales (double_not_lt_zero_of_ge sales h)
  · constructor
    · intro h
      by_contra hn
      obtain ⟨bonus, hb⟩ := hbonus tenureYears hn
      rw [hb] at h
      cases h
    · intro h
      simp [n302.TenureBonusPolicy.getBonusPercentage, h]
  · constructor
    · rintro ⟨bonus, hb⟩ hn
      simp [n302.TenureBonusPolicy.getBonusPercentage, hn] at hb
    · exact hbonus tenureYears
  · intro h
    exact hbonus tenureYears (not_lt.mpr h)

/-! ## The ledger -/

/-- The loop of `find_entries`, started with `results`, appends to it the
entries the predicate holds for, in their order. -/
lemma find_loop_eq_filter {EntryType : Type} (predicate : EntryType → Bool)
    (entries results : List EntryType) :
    entries.foldl (fun results entry => if predicate entry then results ++ [entry] else results)
        results
      = results ++ entries.filter predicate := by
  induction entries generalizing results with
  | nil => simp
  | cons entry entries ih =>
    rw [List.foldl_cons, ih]
    by_cases h : predicate entry = true
    · simp [h, List.filter_cons]
    · simp [h, List.filter_cons]

/-- The container `find_entries` returns is the filter of the entries. -/
lemma find_entries_eq_filter {EntryType : Type}
    (ledger : business_operations.Ledger EntryType) (predicate : EntryType → Bool) :
    (ledger.find_entries predicate).1 = ledger.entries.filter predicate := by
  unfold business_operations.Ledger.find_entries
  rw [find_loop_eq_filter]
  rfl

/-- The entries after a sequence of `add_entry(id, data)` calls: those before,
followed by one entry for each call, in order, with the id and data given. -/
lemma add_entries_ids_and_data {IdType DataType TimePoint World : Type}
    (TimestampPolicy_now : World → TimePoint × World) (calls : List (IdType × DataType))
    (ledger : business_operations.Ledger
      (business_operations.LedgerEntry IdType DataType TimePoint)) (w : World) :
    ∃ added : List (business_operations.LedgerEntry IdType DataType TimePoint),
      (business_operations.Ledger.add_entries TimestampPolicy_now calls ledger w).1.entries
        = ledger.entries ++ added
      ∧ added.map (fun entry => (entry.id, entry.data)) = calls := by
  induction calls generalizing ledger w with
  | nil => exact ⟨[], by simp [business_operations.Ledger.add_entries], rfl⟩
  | cons call calls ih =>
    obtain ⟨added, h1, h2⟩ := ih
      (ledger.add_entry
        (fun a => business_operations.LedgerEntry.construct TimestampPolicy_now a.1 a.2)
        call w).1
      (ledger.add_entry
        (fun a => business_operations.LedgerEntry.construct TimestampPolicy_now a.1 a.2)
        call w).2
    refine ⟨(business_operations.LedgerEntry.construct TimestampPolicy_now call.1 call.2 w).1
      :: added, ?_, ?_⟩
    · rw [business_operations.Ledger.add_entries, h1]
      simp [business_operations.Ledger.add_entry]
    · simp [h2, business_operations.LedgerEntry.construct]

set_option maxRecDepth 100000 in
set_option exponentiation.threshold 2000 in
/-- The two `find_entries` tests of `n313.cpp`, with a clock that ticks once
for each reading: of the ids `1001, 1002, 1003` two are above `1001`, and of
the amounts `1500.00, 2250.50, 875.90, 3100.75` three are above `1000.00`. -/
lemma find_entries_tests :
    (((business_operations.Ledger.add_entries business_operations.tick_clock
          [((1001 : Int), "US Steel - Shipment #12"), (1002, "Chrysler - Parts Order #34"),
            (1003, "General Motors - Assembly Line Report")]
          business_operations.Ledger.empty 0).1.find_entries
        (fun entry => decide (entry.id > 1001))).1.map (fun entry => entry.id) = [1002, 1003])
    ∧ (((business_operations.Ledger.add_entries business_operations.tick_clock
          [("Transaction-A", Double.lit 150000 2), ("Transaction-B", Double.lit 225050 2),
            ("Transaction-C", Double.lit 87590 2), ("Transaction-D", Double.lit 310075 2)]
          business_operations.Ledger.empty 0).1.find_entries
        (fun entry => Double.lt (Double.lit 100000 2) entry.data)).1.map (fun entry => entry.id)
      = ["Transaction-A", "Transaction-B", "Transaction-D"]) := by
  decide

/-- C17. For every ledger and every predicate that is a function of the
entry, `find_entries(pred)` returns the order-preserving filter of the entry
sequence: exactly the entries satisfying `pred` (an entry is returned iff it
is in the ledger and satisfies `pred`), in append order and each as often as
it was appended (a subsequence of the entries), so that the length of the
result is the number of entries satisfying `pred`. In the two tests of the
program the results have `2` and `3` entries. -/
theorem find_entries_is_the_filter_in_append_order {EntryType : Type}
    (ledger : business_operations.Ledger EntryType) (pred : EntryType → Bool) :
    ((ledger.find_entries pred).1 = ledger.entries.filter pred
      ∧ (∀ entry, entry ∈ (ledger.find_entries pred).1
          ↔ entry ∈ ledger.entries ∧ pred entry = true)
      ∧ List.Sublist (ledger.find_entries pred).1 ledger.entries
      ∧ (ledger.find_entries pred).1.length = ledger.entries.countP pred)
    ∧ (((business_operations.Ledger.add_entries business_operations.tick_clock
          [((1001 : Int), "US Steel - Shipment #12"), (1002, "Chrysler - Parts Order #34"),
            (1003, "General Motors - Assembly Line Report")]
          business_operations.Ledger.empty 0).1.find_entries
        (fun entry => decide (entry.id > 1001))).1.length = 2
      ∧ ((business_operations.Ledger.add_entries business_operations.tick_clock
          [("Transaction-A", Double.lit 150000 2), ("Transaction-B", Double.lit 225050 2),
            ("Transaction-C", Double.lit 87590 2), ("Transaction-D", Double.lit 310075 2)]
          business_operations.Ledger.empty 0).1.find_entries
        (fun entry => Double.lt (Double.lit 100000 2) entry.data)).1.length = 3) := by
  refine ⟨⟨find_entries_eq_filter ledger pred, ?_, ?_, ?_⟩, ?_, ?_⟩
  · intro entry
    rw [find_entries_eq_filter, List.mem_filter]
  · rw [find_entries_eq_filter]
    exact List.filter_sublist ledger.entries
  · rw [find_entries_eq_filter, List.countP_eq_length_filter]
  · have h := congrArg List.length find_entries_tests.1
    simpa using h
  · have h := congrArg List.length find_entries_tests.2
    simpa using h

/-- C18. For every sequence of `add_entry(id, data)` calls on an initially
empty ledger, with any clock, and every predicate that is true on every
entry: `find_entries` returns the full entry sequence of the ledger, which
has one entry for each call, in the order of the calls, with the id and
the data of the call. -/
theorem find_entries_with_true_predicate_returns_all
    {IdType DataType TimePoint World : Type}
    (TimestampPolicy_now : World → TimePoint × World) (calls : List (IdType × DataType))
    (w : World) (pred : business_operations.LedgerEntry IdType DataType TimePoint → Bool)
    (hpred : ∀ entry, pred entry = true) :
    ((business_operations.Ledger.add_entries TimestampPolicy_now calls
          business_operations.Ledger.empty w).1.find_entries pred).1
      = (business_operations.Ledger.add_entries TimestampPolicy_now calls
          business_operations.Ledger.empty w).1.entries
    ∧ (business_operations.Ledger.add_entries TimestampPolicy_now calls
          business_operations.Ledger.empty w).1.entries.map (fun entry => (entry.id, entry.data))
      = calls := by
  constructor
  · rw [find_entries_eq_filter, List.filter_eq_self]
    intro entry _
    exact hpred entry
  · obtain ⟨added, h1, h2⟩ := add_entries_ids_and_data TimestampPolicy_now calls
      business_operations.Ledger.empty w
    rw [h1]
    simpa [business_operations.Ledger.empty] using h2

/-- C18, at a concrete input: the three `add_entry` calls of
`test_ledger_find_entries_basic` with a clock that ticks once for each
reading, and the predicate that is always true. All three entries are
returned, in the order of the calls, with the timestamps `0`, `1`, `2`. -/
theorem find_entries_with_true_predicate_returns_all_witness :
    (((business_operations.Ledger.add_entries business_operations.tick_clock
          [((1001 : Int), "US Steel - Shipment #12"), (1002, "Chrysler - Parts Order #34"),
            (1003, "General Motors - Assembly Line Report")]
          business_operations.Ledger.empty 0).1.find_entries (fun _ => true)).1
      = (business_operations.Ledger.add_entries business_operations.tick_clock
          [((1001 : Int), "US Steel - Shipment #12"), (1002, "Chrysler - Parts Order #34"),
            (1003, "General Motors - Assembly Line Report")]
          business_operations.Ledger.empty 0).1.entries
    ∧ (business_operations.Ledger.add_entries business_operations.tick_clock
          [((1001 : Int), "US Steel - Shipment #12"), (1002, "Chrysler - Parts Order #34"),
            (1003, "General Motors - Assembly Line Report")]
          business_operations.Ledger.empty 0).1.entries.map (fun entry => (entry.id, entry.data))
      = [((1001 : Int), "US Steel - Shipment #12"), (1002, "Chrysler - Parts Order #34"),
          (1003, "General Motors - Assembly Line Report")])
    ∧ ((business_operations.Ledger.add_entries business_operations.tick_clock
          [((1001 : Int), "US Steel - Shipment #12"), (1002, "Chrysler - Parts Order #34"),
            (1003, "General Motors - Assembly Line Report")]
          business_operations.Ledger.empty 0).1.find_entries (fun _ => true)).1
      = [⟨1001, "US Steel - Shipment #12", 0⟩, ⟨1002, "Chrysler - Parts Order #34", 1⟩,
          ⟨1003, "General Motors - Assembly Line Report", 2⟩] :=
  ⟨find_entries_with_true_predicate_returns_all business_operations.tick_clock
      [((1001 : Int), "US Steel - Shipment #12"), (1002, "Chrysler - Parts Order #34"),
        (1003, "General Motors - Assembly Line Report")] 0 (fun _ => true) (fun _ => rfl),
    by decide⟩

/-- C19. `find_entries` is non-destructive: for every ledger and every
predicate that is a function of the entry, the ledger after the call is the
ledger before it, so its entry sequence is the same, and a second call
returns what the first returned. -/
theorem find_entries_leaves_the_ledger_unchanged {EntryType : Type}
    (ledger : business_operations.Ledger EntryType) (pred : EntryType → Bool) :
    (ledger.find_entries pred).2 = ledger
    ∧ (ledger.find_entries pred).2.entries = ledger.entries
    ∧ (ledger.find_entries pred).2.get_entries = ledger.get_entries
    ∧ ((ledger.find_entries pred).2.find_entries pred).1 = (ledger.find_entries pred).1 :=
  ⟨rfl, rfl, rfl, rfl⟩

/-- C20. `add_entry` only appends: for every ledger with entry sequence `E`,
every id and data, every clock and world, `add_entry(id, data)` leaves the
ledger with `E` followed by one new entry, whose id and data are the ones
given and whose timestamp is the reading of the clock. The entries of `E`
keep their values and positions, the length grows by exactly one, and the
ledger is not empty afterwards. With any constructor of the entry type the
new sequence is `E` followed by the entry constructed. -/
theorem add_entry_appends_exactly_one_entry {IdType DataType TimePoint EntryType Args World : Type}
    (TimestampPolicy_now : World → TimePoint × World)
    (ledger : business_operations.Ledger
      (business_operations.LedgerEntry IdType DataType TimePoint))
    (id : IdType) (data : DataType) (w : World)
    (other : business_operations.Ledger EntryType)
    (construct : Args → World → EntryType × World) (args : Args) :
    ((ledger.add_entry
          (fun a => business_operations.LedgerEntry.construct TimestampPolicy_now a.1 a.2)
          (id, data) w).1.entries
        = ledger.entries ++ [⟨id, data, (TimestampPolicy_now w).1⟩]
      ∧ (ledger.add_entry
          (fun a => business_operations.LedgerEntry.construct TimestampPolicy_now a.1 a.2)
          (id, data) w).1.entries.length = ledger.entries.length + 1
      ∧ (∀ i, i < ledger.entries.length →
          (ledger.add_entry
            (fun a => business_operations.LedgerEntry.construct TimestampPolicy_now a.1 a.2)
            (id, data) w).1.entries[i]? = ledger.entries[i]?)
      ∧ (ledger.add_entry
          (fun a => business_operations.LedgerEntry.construct TimestampPolicy_now a.1 a.2)
          (id, data) w).1.entries[ledger.entries.length]?
        = some ⟨id, data, (TimestampPolicy_now w).1⟩
      ∧ (ledger.add_entry
          (fun a => business_operations.LedgerEntry.construct TimestampPolicy_now a.1 a.2)
          (id, data) w).1.get_entries ≠ [])
    ∧ (other.add_entry construct args w).1.entries
      = other.entries ++ [(construct args w).1] := by
  refine ⟨⟨rfl, ?_, ?_, ?_, ?_⟩, rfl⟩
  · simp [business_operations.Ledger.add_entry]
  · intro i hi
    simp only [business_operations.Ledger.add_entry]
    exact List.getElem?_append_left hi
  · simp [business_operations.Ledger.add_entry, business_operations.LedgerEntry.construct]
  · simp [business_operations.Ledger.add_entry, business_operations.Ledger.get_entries]

/-! ## The ledger and its clock -/

/-- C21. With a clock that is non-decreasing between two successive
readings: when `t1` is read immediately before `add_entry(id, data)` and
`t2` immediately after it, the entry appended is the last entry of the
ledger, it carries the id and the data given, and its timestamp satisfies
`t1 <= timestamp <= t2`. -/
theorem appended_timestamp_between_the_two_readings
    {IdType DataType TimePoint World : Type} [LE TimePoint]
    (TimestampPolicy_now : World → TimePoint × World)
    (ledger : business_operations.Ledger
      (business_operations.LedgerEntry IdType DataType TimePoint))
    (id : IdType) (data : DataType) (w : World)
    (hclock : ∀ w, (TimestampPolicy_now w).1 ≤ (TimestampPolicy_now (TimestampPolicy_now w).2).1) :
    ∃ entry,
      (ledger.add_entry
          (fun a => business_operations.LedgerEntry.construct TimestampPolicy_now a.1 a.2)
          (id, data) (TimestampPolicy_now w).2).1.entries = ledger.entries ++ [entry]
      ∧ entry.id = id ∧ entry.data = data
      ∧ (TimestampPolicy_now w).1 ≤ entry.timestamp
      ∧ entry.timestamp
        ≤ (TimestampPolicy_now
            (ledger.add_entry
              (fun a => business_operations.LedgerEntry.construct TimestampPolicy_now a.1 a.2)
              (id, data) (TimestampPolicy_now w).2).2).1 :=
  ⟨⟨id, data, (TimestampPolicy_now (TimestampPolicy_now w).2).1⟩, rfl, rfl, rfl, hclock w,
    hclock (TimestampPolicy_now w).2⟩

/-- C21, at a concrete input: `test_ledger_concurrency_safety` with a clock
that ticks once for each reading, started at `7`: `t1` is `7`, the entry
added to the empty ledger has the timestamp `8`, and `t2` is `9`. -/
theorem appended_timestamp_between_the_two_readings_witness :
    (∀ w, (business_operations.tick_clock w).1
        ≤ (business_operations.tick_clock (business_operations.tick_clock w).2).1)
    ∧ ∃ entry : business_operations.LedgerEntry Int String Nat,
      ((business_operations.Ledger.empty : business_operations.Ledger
          (business_operations.LedgerEntry Int String Nat)).add_entry
          (fun a => business_operations.LedgerEntry.construct business_operations.tick_clock
            a.1 a.2)
          (1, "First Entry") (business_operations.tick_clock 7).2).1.entries
        = (business_operations.Ledger.empty : business_operations.Ledger
            (business_operations.LedgerEntry Int String Nat)).entries ++ [entry]
      ∧ entry.id = 1 ∧ entry.data = "First Entry"
      ∧ (business_operations.tick_clock 7).1 ≤ entry.timestamp
      ∧ entry.timestamp
        ≤ (business_operations.tick_clock
            ((business_operations.Ledger.empty : business_operations.Ledger
              (business_operations.LedgerEntry Int String Nat)).add_entry
              (fun a => business_operations.LedgerEntry.construct business_operations.tick_clock
                a.1 a.2)
              (1, "First Entry") (business_operations.tick_clock 7).2).2).1 :=
  ⟨fun w => Nat.le_succ w,
    appended_timestamp_between_the_two_readings business_operations.tick_clock
      business_operations.Ledger.empty 1 "First Entry" 7 (fun w => Nat.le_succ w)⟩

/-- C22. Constructing a `LedgerEntry` returns an entry, for every id and data
and with every clock, whose id and data are the values passed to the
constructor and whose timestamp is the reading of the clock; so for the
largest and the smallest `int` as id, as in
`test_ledger_entry_numeric_limits`. No id is rejected. -/
theorem ledger_entry_stores_its_arguments {IdType DataType TimePoint World : Type}
    (TimestampPolicy_now : World → TimePoint × World) (i : IdType) (d : DataType) (w : World)
    (clock : Nat) :
    ((business_operations.LedgerEntry.construct TimestampPolicy_now i d w).1.id = i
      ∧ (business_operations.LedgerEntry.construct TimestampPolicy_now i d w).1.data = d
      ∧ (business_operations.LedgerEntry.construct TimestampPolicy_now i d w).1.timestamp
        = (TimestampPolicy_now w).1
      ∧ (business_operations.LedgerEntry.construct TimestampPolicy_now i d w).2
        = (TimestampPolicy_now w).2)
    ∧ ((business_operations.LedgerEntry.construct business_operations.tick_clock
          n304.INT_MAX (Double.lit 1000 1) clock).1.id = 2147483647
      ∧ (business_operations.LedgerEntry.construct business_operations.tick_clock
          n304.INT_MIN (Double.neg (Double.lit 1000 1)) clock).1.id = -2147483648
      ∧ (business_operations.LedgerEntry.construct business_operations.tick_clock
          n304.INT_MIN (Double.neg (Double.lit 1000 1)) clock).1.data
        = Double.neg (Double.lit 1000 1)) :=
  ⟨⟨rfl, rfl, rfl, rfl⟩, rfl, rfl, rfl⟩

/-! ## The cumulative reducer -/

/-- The sum of two `int` that is a value of `int`. -/
lemma int_add_of_fits (a b : Int) (h : n304.INT_MIN ≤ a + b ∧ a + b ≤ n304.INT_MAX) :
    n304.int_add a b = Except.ok (a + b) := by
  simp [n304.int_add, h]

/-- C23, as stated, fails: the left fold of `Adder` over `int` is not the sum
of the quantities for every list. With the two orders of quantities
`INT_MAX` and `1` the addition `INT_MAX + 1` overflows `int`: the call has
no value, in particular not the sum `INT_MAX + 1`. With the three orders of
quantities `INT_MAX`, `1` and `-1` the sum of the quantities is `INT_MAX`, a
value of `int`, and the call still has no value, the running sum after the
second order being none. -/
theorem running_sum_beyond_int_is_not_the_sum :
    (n304.calculateCumulative n304.Adder 0
        [⟨Double.lit 100 1, n304.INT_MAX⟩, ⟨Double.lit 50 1, 1⟩]
      = Except.error n304.Failure.undefined_behaviour
    ∧ n304.calculateCumulative n304.Adder 0
        [⟨Double.lit 100 1, n304.INT_MAX⟩, ⟨Double.lit 50 1, 1⟩]
      ≠ Except.ok (n304.INT_MAX + 1))
    ∧ (n304.calculateCumulative n304.Adder 0
        [⟨Double.lit 100 1, n304.INT_MAX⟩, ⟨Double.lit 50 1, 1⟩, ⟨Double.lit 20 1, -1⟩]
      = Except.error n304.Failure.undefined_behaviour
    ∧ n304.INT_MAX + 1 + -1 = n304.INT_MAX
    ∧ n304.calculateCumulative n304.Adder 0
        [⟨Double.lit 100 1, n304.INT_MAX⟩, ⟨Double.lit 50 1, 1⟩, ⟨Double.lit 20 1, -1⟩]
      ≠ Except.ok (n304.INT_MAX + 1 + -1)) := by
  decide

/-- C23, amended. With one to four orders `calculateCumulative` returns the
left fold of the accumulator over the orders, starting from `ResultType{0}`,
for every accumulator. With `int`, `Adder` and `ProductOrder` that fold is
the sum of the quantities when every running sum (the first quantity, the
sum of the first two, and so on up to the sum of all) is a value of `int`;
the four `static_assert`s of the program give `5`, `8`, `15` and `17`. -/
theorem one_to_four_orders_are_folded_from_the_left :
    (∀ (ResultType OrderType : Type) (acc : n304.Accumulator ResultType OrderType)
        (zero : ResultType) (order1 order2 order3 order4 : OrderType),
      n304.calculateCumulative acc zero [order1] = n304.left_fold acc zero [order1]
      ∧ n304.calculateCumulative acc zero [order1, order2]
        = n304.left_fold acc zero [order1, order2]
      ∧ n304.calculateCumulative acc zero [order1, order2, order3]
        = n304.left_fold acc zero [order1, order2, order3]
      ∧ n304.calculateCumulative acc zero [order1, order2, order3, order4]
        = n304.left_fold acc zero [order1, order2, order3, order4])
    ∧ (∀ (order1 order2 order3 order4 : n304.ProductOrder),
      (n304.INT_MIN ≤ order1.quantity ∧ order1.quantity ≤ n304.INT_MAX →
        n304.calculateCumulative n304.Adder 0 [order1] = Except.ok order1.quantity
        ∧ (n304.INT_MIN ≤ order1.quantity + order2.quantity
            ∧ order1.quantity + order2.quantity ≤ n304.INT_MAX →
          n304.calculateCumulative n304.Adder 0 [order1, order2]
            = Except.ok (order1.quantity + order2.quantity)
          ∧ (n304.INT_MIN ≤ order1.quantity + order2.quantity + order3.quantity
              ∧ order1.quantity + order2.quantity + order3.quantity ≤ n304.INT_MAX →
            n304.calculateCumulative n304.Adder 0 [order1, order2, order3]
              = Except.ok (order1.quantity + order2.quantity + order3.quantity)
            ∧ (n304.INT_MIN
                  ≤ order1.quantity + order2.quantity + order3.quantity + order4.quantity
                ∧ order1.quantity + order2.quantity + order3.quantity + order4.quantity
                  ≤ n304.INT_MAX →
              n304.calculateCumulative n304.Adder 0 [order1, order2, order3, order4]
                = Except.ok
                  (order1.quantity + order2.quantity + order3.quantity + order4.quantity))))))
    ∧ (n304.calculateCumulative n304.Adder 0 [⟨Double.lit 100 1, 5⟩] = Except.ok 5
      ∧ n304.calculateCumulative n304.Adder 0 [⟨Double.lit 100 1, 5⟩, ⟨Double.lit 50 1, 3⟩]
        = Except.ok 8
      ∧ n304.calculateCumulative n304.Adder 0
          [⟨Double.lit 100 1, 5⟩, ⟨Double.lit 50 1, 3⟩, ⟨Double.lit 20 1, 7⟩] = Except.ok 15
      ∧ n304.calculateCumulative n304.Adder 0
          [⟨Double.lit 100 1, 5⟩, ⟨Double.lit 50 1, 3⟩, ⟨Double.lit 20 1, 7⟩,
            ⟨Double.lit 80 1, 2⟩] = Except.ok 17) := by
  refine ⟨?_, ?_, ?_⟩
  · intro R O acc zero o1 o2 o3 o4
    refine ⟨?_, ?_, ?_, ?_⟩
    · simp [n304.calculateCumulative, n304.calculateCumulative_1, n304.left_fold]
    · simp [n304.calculateCumulative, n304.calculateCumulative_2, n304.left_fold]
    · simp [n304.calculateCumulative, n304.calculateCumulative_3, n304.left_fold]
    · simp [n304.calculateCumulative, n304.calculateCumulative_4, n304.left_fold]
  · intro o1 o2 o3 o4 h1
    have e1 : n304.int_add 0 o1.quantity = Except.ok o1.quantity := by
      have := int_add_of_fits 0 o1.quantity (by simpa using h1)
      simpa using this
    refine ⟨by simp [n304.calculateCumulative, n304.calculateCumulative_1, n304.Adder, e1],
      fun h2 => ?_⟩
    have e2 := int_add_of_fits o1.quantity o2.quantity h2
    refine ⟨by
      simp only [n304.calculateCumulative, n304.calculateCumulative_2, n304.Adder, e1, bind,
        Except.bind, e2], fun h3 => ?_⟩
    have e3 := int_add_of_fits (o1.quantity + o2.quantity) o3.quantity h3
    refine ⟨by
      simp only [n304.calculateCumulative, n304.calculateCumulative_3, n304.Adder, e1, bind,
        Except.bind, e2, e3], fun h4 => ?_⟩
    have e4 := int_add_of_fits (o1.quantity + o2.quantity + o3.quantity) o4.quantity h4
    simp only [n304.calculateCumulative, n304.calculateCumulative_4, n304.Adder, e1, bind,
      Except.bind, e2, e3, e4]
  · decide

/-- C24, on the code. With five or more orders the variadic template passes
the result of `calculateCumulative(rest...)` to the accumulator as if it
were an order. With `Adder` that call reads `quantity` of an `int`: the
call does not build, for any five or more orders, while the left fold of
the five orders `5, 3, 7, 2, 4` is `21`. With an accumulator that accepts a
value of the result type the call builds and does not return the left
fold: for `2 * current + operand` it returns `70`, the left fold is `140`. -/
theorem variadic_overload_is_not_the_left_fold :
    (∀ (order1 order2 order3 order4 order5 : n304.ProductOrder)
        (rest : List n304.ProductOrder),
      n304.calculateCumulative n304.Adder 0
          (order1 :: order2 :: order3 :: order4 :: order5 :: rest)
        = Except.error n304.Failure.ill_formed)
    ∧ n304.left_fold n304.Adder 0
        [⟨Double.lit 100 1, 5⟩, ⟨Double.lit 50 1, 3⟩, ⟨Double.lit 20 1, 7⟩,
          ⟨Double.lit 80 1, 2⟩, ⟨Double.lit 10 1, 4⟩] = Except.ok 21
    ∧ n304.calculateCumulative n304.DoublingAdder 0
        [⟨Double.lit 100 1, 5⟩, ⟨Double.lit 50 1, 3⟩, ⟨Double.lit 20 1, 7⟩,
          ⟨Double.lit 80 1, 2⟩, ⟨Double.lit 10 1, 4⟩] = Except.ok 70
    ∧ n304.left_fold n304.DoublingAdder 0
        [⟨Double.lit 100 1, 5⟩, ⟨Double.lit 50 1, 3⟩, ⟨Double.lit 20 1, 7⟩,
          ⟨Double.lit 80 1, 2⟩, ⟨Double.lit 10 1, 4⟩] = Except.ok 140 := by
  refine ⟨?_, by decide, by decide, by decide⟩
  intro o1 o2 o3 o4 o5 rest
  simp [n304.calculateCumulative, n304.Adder]

/-! ## The nth type and the tuples -/

/-- Within the list, `nth_type<N, Ts...>::value_type` is the type at
position `N`. -/
lemma nth_type_in_range {Ty ε : Type} (Ts : List Ty) (N : Nat) (h : N < Ts.length) :
    (n313_3.nth_type N Ts : Except (Fault ε) Ty) = Except.ok (Ts.get ⟨N, h⟩) := by
  induction Ts generalizing N with
  | nil => exact absurd h (Nat.not_lt_zero N)
  | cons T Ts ih =>
    cases N with
    | zero => rfl
    | succ N =>
      have hN : N < Ts.length := Nat.lt_of_succ_lt_succ h
      simp only [n313_3.nth_type, ih N hN]
      rw [if_pos (Nat.succ_lt_succ hN)]
      rfl

/-- Past the end of the list, `nth_type<N, Ts...>::value_type` does not exist. -/
lemma nth_type_out_of_range {Ty ε : Type} (Ts : List Ty) (k : Nat) :
    (n313_3.nth_type (Ts.length + k) Ts : Except (Fault ε) Ty)
      = Except.error Fault.ill_formed := by
  induction Ts with
  | nil => cases h : ([] : List Ty).length + k <;> rfl
  | cons T Ts ih =>
    have h : (T :: Ts).length + k = (Ts.length + k) + 1 := by
      simp only [List.length_cons]
      omega
    rw [h]
    simp only [n313_3.nth_type, ih]

/-- The template arguments of a tuple constructed from typed values. -/
lemma types_of_constructed_tuple {Ty Val : Type} (elements : List (Ty × Val)) :
    (n313_4.tuple.construct elements).Types = elements.map Prod.fst := by
  induction elements with
  | nil => rfl
  | cons e elements ih =>
    obtain ⟨T, t⟩ := e
    simp [n313_4.tuple.construct, n313_4.tuple.Types, ih]

/-- Within the tuple, `getter<N>::get` refers to the element at position `N`. -/
lemma getter_in_range {Ty Val ε : Type} [DecidableEq Ty] (elements : List (Ty × Val)) (N : Nat)
    (h : N < elements.length) :
    (n313_4.getter.get N (n313_4.tuple.construct elements) : Except (Fault ε) (Ty × Val))
      = Except.ok (elements.get ⟨N, h⟩) := by
  induction elements generalizing N with
  | nil => exact absurd h (Nat.not_lt_zero N)
  | cons e elements ih =>
    obtain ⟨T, t⟩ := e
    cases N with
    | zero => rfl
    | succ N =>
      have hN : N < elements.length := Nat.lt_of_succ_lt_succ h
      have hT : N + 1 < ((T, t) :: elements).length := h
      have hty : (n313_3.nth_type (N + 1) (T :: (n313_4.tuple.construct elements).Types) :
          Except (Fault ε) Ty) = Except.ok (elements.get ⟨N, hN⟩).1 := by
        rw [types_of_constructed_tuple]
        have hlen : N + 1 < (T :: elements.map Prod.fst).length := by simpa using hT
        rw [nth_type_in_range (T :: elements.map Prod.fst) (N + 1) hlen]
        simp
      simp only [n313_4.tuple.construct, n313_4.getter.get, n313_4.tuple.Types, hty, ih N hN]
      simp

/-- Past the end of the tuple, `getter<N>::get` does not build. -/
lemma getter_out_of_range {Ty Val ε : Type} [DecidableEq Ty] (elements : List (Ty × Val))
    (k : Nat) :
    (n313_4.getter.get (elements.length + k) (n313_4.tuple.construct elements) :
        Except (Fault ε) (Ty × Val)) = Except.error Fault.ill_formed := by
  cases elements with
  | nil =>
    cases k with
    | zero => rfl
    | succ k => rfl
  | cons e elements =>
    obtain ⟨T, t⟩ := e
    have h : ((T, t) :: elements).length + k = (elements.length + k) + 1 := by
      simp only [List.length_cons]
      omega
    have hty : (n313_3.nth_type (elements.length + k + 1)
        (T :: (n313_4.tuple.construct elements).Types) : Except (Fault ε) Ty)
        = Except.error Fault.ill_formed := by
      rw [types_of_constructed_tuple]
      have := @nth_type_out_of_range Ty ε (T :: elements.map Prod.fst) k
      simp only [List.length_cons, List.length_map] at this
      rw [← this]
      congr 1
      omega
    rw [h]
    simp only [n313_4.tuple.construct, n313_4.getter.get, n313_4.tuple.Types, hty]

/-- The value `size()` returns does not depend on what has been written: it
is the number of nested `node`s. -/
lemma size_of_constructed_tuple {Ty Val : Type} (print : Val → String)
    (elements : List (Ty × Val)) (console console' : String) :
    ((n313_2.tuple.construct print elements console).1.size console').1 = elements.length := by
  induction elements generalizing console console' with
  | nil => rfl
  | cons e elements ih =>
    obtain ⟨T, t⟩ := e
    simp only [n313_2.tuple.construct, n313_2.tuple.size, ih, List.length_cons]
    push_cast
    ring

/-- The value `size()` returns is the same in every world. -/
lemma size_value_independent_of_console {Ty Val : Type} (t : n313_2.tuple Ty Val)
    (console console' : String) : (t.size console).1 = (t.size console').1 := by
  induction t generalizing console console' with
  | empty => rfl
  | node T value rest ih =>
    simp only [n313_2.tuple.size]
    exact congrArg (fun n => 1 + n) (ih _ _)

/-- C25. For every tuple constructed from typed values `v0, ..., v(n-1)` and
every position `i < n`, `getter<i>::get` builds and refers to `vi`, the
`i`-th value passed to the constructor, with the `i`-th type; for
`tuple<int, double, char>(42, 3.14, 'A')` the positions `0`, `1`, `2` give
`42`, `3.14` and `'A'`, and position `0` of `tuple<std::string>("Hello")`
gives `"Hello"`. -/
theorem getter_returns_the_value_at_its_position {Ty Val ε : Type} [DecidableEq Ty]
    (elements : List (Ty × Val)) (i : Fin elements.length) :
    (n313_4.getter.get i.val (n313_4.tuple.construct elements) : Except (Fault ε) (Ty × Val))
      = Except.ok (elements.get i)
    ∧ ((n313_4.getter.get 0 (n313_4.tuple.construct
          [(n313_4.TypeName.int, n313_4.Value.int 42),
            (n313_4.TypeName.double, n313_4.Value.double (Double.lit 314 2)),
            (n313_4.TypeName.char, n313_4.Value.char 'A')]) :
          Except (Fault ε) (n313_4.TypeName × n313_4.Value))
        = Except.ok (n313_4.TypeName.int, n313_4.Value.int 42)
      ∧ (n313_4.getter.get 1 (n313_4.tuple.construct
          [(n313_4.TypeName.int, n313_4.Value.int 42),
            (n313_4.TypeName.double, n313_4.Value.double (Double.lit 314 2)),
            (n313_4.TypeName.char, n313_4.Value.char 'A')]) :
          Except (Fault ε) (n313_4.TypeName × n313_4.Value))
        = Except.ok (n313_4.TypeName.double, n313_4.Value.double (Double.lit 314 2))
      ∧ (n313_4.getter.get 2 (n313_4.tuple.construct
          [(n313_4.TypeName.int, n313_4.Value.int 42),
            (n313_4.TypeName.double, n313_4.Value.double (Double.lit 314 2)),
            (n313_4.TypeName.char, n313_4.Value.char 'A')]) :
          Except (Fault ε) (n313_4.TypeName × n313_4.Value))
        = Except.ok (n313_4.TypeName.char, n313_4.Value.char 'A')
      ∧ (n313_4.getter.get 0 (n313_4.tuple.construct
          [(n313_4.TypeName.string, n313_4.Value.string "Hello")]) :
          Except (Fault ε) (n313_4.TypeName × n313_4.Value))
        = Except.ok (n313_4.TypeName.string, n313_4.Value.string "Hello")) :=
  ⟨getter_in_range elements i.val i.isLt,
    getter_in_range _ 0 (by decide), getter_in_range _ 1 (by decide),
    getter_in_range _ 2 (by decide), getter_in_range _ 0 (by decide)⟩

/-- C26. Out-of-range positions are rejected: for every type list `Ts` and
every position `N >= length(Ts)`, also on the empty list,
`nth_type<N, Ts...>::value_type` does not exist, and for every tuple of `n`
elements and every `N >= n`, also on the empty tuple, `getter<N>::get` does
not build; neither yields a type or an element. So for `nth_type<1, char>`,
`nth_type<0>`, `getter<3>` on the tuple of three elements and `getter<0>` on
the empty tuple, the cases commented out in the two programs. -/
theorem positions_out_of_range_are_rejected {Ty Val ε : Type} [DecidableEq Ty]
    (Ts : List Ty) (elements : List (Ty × Val)) (k : Nat) :
    (n313_3.nth_type (Ts.length + k) Ts : Except (Fault ε) Ty) = Except.error Fault.ill_formed
    ∧ (n313_4.getter.get (elements.length + k) (n313_4.tuple.construct elements) :
        Except (Fault ε) (Ty × Val)) = Except.error Fault.ill_formed
    ∧ ((n313_3.nth_type 1 [n313_4.TypeName.char] : Except (Fault ε) n313_4.TypeName)
        = Except.error Fault.ill_formed
      ∧ (n313_3.nth_type 0 ([] : List n313_4.TypeName) : Except (Fault ε) n313_4.TypeName)
        = Except.error Fault.ill_formed
      ∧ (n313_4.getter.get 3 (n313_4.tuple.construct
          [(n313_4.TypeName.int, n313_4.Value.int 42),
            (n313_4.TypeName.double, n313_4.Value.double (Double.lit 314 2)),
            (n313_4.TypeName.char, n313_4.Value.char 'A')]) :
          Except (Fault ε) (n313_4.TypeName × n313_4.Value)) = Except.error Fault.ill_formed
      ∧ (n313_4.getter.get 0 (n313_4.tuple.construct
          ([] : List (n313_4.TypeName × n313_4.Value))) :
          Except (Fault ε) (n313_4.TypeName × n313_4.Value))
        = Except.error Fault.ill_formed) :=
  ⟨nth_type_out_of_range Ts k, getter_out_of_range elements k,
    nth_type_out_of_range [n313_4.TypeName.char] 0, rfl,
    getter_out_of_range
      [(n313_4.TypeName.int, n313_4.Value.int 42),
        (n313_4.TypeName.double, n313_4.Value.double (Double.lit 314 2)),
        (n313_4.TypeName.char, n313_4.Value.char 'A')] 0,
    rfl⟩

/-- C27. For every type list `Ts` and every `N < length(Ts)`,
`nth_type<N, Ts...>::value_type` exists and is the type at position `N` of
the list, counting from `0`; for `<int, float, double>` the positions `0`,
`1`, `2` give `int`, `float`, `double`, and position `0` of `<char>` gives
`char`, the four `static_assert`s of `n313_3.cpp`. -/
theorem nth_type_is_the_type_at_position {Ty ε : Type} (Ts : List Ty) (N : Fin Ts.length) :
    (n313_3.nth_type N.val Ts : Except (Fault ε) Ty) = Except.ok (Ts.get N)
    ∧ ((n313_3.nth_type 0 [n313_4.TypeName.int, n313_4.TypeName.float, n313_4.TypeName.double] :
          Except (Fault ε) n313_4.TypeName) = Except.ok n313_4.TypeName.int
      ∧ (n313_3.nth_type 1 [n313_4.TypeName.int, n313_4.TypeName.float, n313_4.TypeName.double] :
          Except (Fault ε) n313_4.TypeName) = Except.ok n313_4.TypeName.float
      ∧ (n313_3.nth_type 2 [n313_4.TypeName.int, n313_4.TypeName.float, n313_4.TypeName.double] :
          Except (Fault ε) n313_4.TypeName) = Except.ok n313_4.TypeName.double
      ∧ (n313_3.nth_type 0 [n313_4.TypeName.char] : Except (Fault ε) n313_4.TypeName)
        = Except.ok n313_4.TypeName.char) :=
  ⟨nth_type_in_range Ts N.val N.isLt, rfl, rfl, rfl, rfl⟩

/-- C28. For every tuple constructed from `n` values, `n >= 0`, `size()` and
`get_size` return `n`, whatever has been written to standard output: the
empty tuple has size `0`, a tuple with a head value and a rest has size
`1 + size(rest)`, and `tuple<int, double, char>(42, 3.14, 'A')` has size
`3`. -/
theorem tuple_size_is_the_number_of_values {Ty Val : Type} (print : Val → String)
    (elements : List (Ty × Val)) (T : Ty) (value : Val) (rest : n313_2.tuple Ty Val)
    (console console' : String) :
    ((n313_2.tuple.construct print elements console).1.size console').1 = elements.length
    ∧ (n313_2.get_size (n313_2.tuple.construct print elements console).1 console').1
      = elements.length
    ∧ ((n313_2.tuple.empty : n313_2.tuple Ty Val).size console).1 = 0
    ∧ ((n313_2.tuple.node T value rest).size console).1 = 1 + (rest.size console).1
    ∧ (n313_2.get_size
        (n313_2.tuple.construct (fun _ => "")
          [(n313_4.TypeName.int, n313_4.Value.int 42),
            (n313_4.TypeName.double, n313_4.Value.double (Double.lit 314 2)),
            (n313_4.TypeName.char, n313_4.Value.char 'A')] "").1 "").1 = 3 := by
  refine ⟨size_of_constructed_tuple print elements console console',
    size_of_constructed_tuple print elements console _, rfl, ?_,
    size_of_constructed_tuple _ _ _ _⟩
  simp only [n313_2.tuple.size]
  exact congrArg (fun n => 1 + n) (size_value_independent_of_console rest _ console)

/-! ## Failing stages and quality control -/

/-- C29. If the head stage throws when applied to the held record, `process`
fails with that same exception, in the world that one call of the stage
left (the stage is neither called again nor is its exception caught); no
next pipeline is returned, and the pipeline it was called on still holds
its record and all its stages. -/
theorem process_propagates_the_error_of_the_head_stage
    {ProductState Record Args World ε : Type}
    (state : ProductState) (department : n313_manufacturing.Department ProductState World ε)
    (departments : List (n313_manufacturing.Department ProductState World ε))
    (record : Record) (action : n315.Action Record Args World ε)
    (actions : List (n315.Action Record Args World ε)) (args : Args)
    (w w1 w2 : World) (e1 e2 : ε)
    (hdepartment : department state w = (Except.error (Fault.thrown e1), w1))
    (haction : action record args w = (Except.error (Fault.thrown e2), w2)) :
    ((n313_manufacturing.ProductionLine.mk state (department :: departments)).process w
        = ⟨Except.error (Fault.thrown e1), ⟨state, department :: departments⟩, w1⟩
      ∧ ¬ ∃ next, ((n313_manufacturing.ProductionLine.mk state
          (department :: departments)).process w).result = Except.ok next)
    ∧ ((n315.DataProcessingPipeline.mk record (action :: actions)).process args w
        = ⟨Except.error (Fault.thrown e2), ⟨record, action :: actions⟩, w2⟩
      ∧ ¬ ∃ next, ((n315.DataProcessingPipeline.mk record
          (action :: actions)).process args w).result = Except.ok next) := by
  have h1 := n313_manufacturing.line_process_cons_error state (Fault.thrown e1) department
    departments w w1 hdepartment
  have h2 := n315.pipeline_process_cons_error record args (Fault.thrown e2) action actions w w2
    haction
  refine ⟨⟨h1, ?_⟩, ⟨h2, ?_⟩⟩
  · rintro ⟨next, hn⟩
    rw [h1] at hn
    cases hn
  · rintro ⟨next, hn⟩
    rw [h2] at hn
    cases hn

/-- C29, at a concrete input: a department and an action that note their call
on the console and throw "negative value supplied", each at the head of a
pipeline with a further stage. The console shows one call, the exception is
the one thrown, and the pipelines hold what they held. -/
theorem process_propagates_the_error_of_the_head_stage_witness :
    ((n313_manufacturing.ProductionLine.mk (n313_manufacturing.Product.RawMaterial "Raw Steel")
          [fun _ console => (Except.error (Fault.thrown "negative value supplied"),
              console ++ "called;"),
            pureStage n313_manufacturing.AssemblyDepartment.process]).process ""
        = ⟨Except.error (Fault.thrown "negative value supplied"),
            ⟨n313_manufacturing.Product.RawMaterial "Raw Steel",
              [fun _ console => (Except.error (Fault.thrown "negative value supplied"),
                  console ++ "called;"),
                pureStage n313_manufacturing.AssemblyDepartment.process]⟩,
            "" ++ "called;"⟩
      ∧ ¬ ∃ next, ((n313_manufacturing.ProductionLine.mk
          (n313_manufacturing.Product.RawMaterial "Raw Steel")
          [fun _ console => (Except.error (Fault.thrown "negative value supplied"),
              console ++ "called;"),
            pureStage n313_manufacturing.AssemblyDepartment.process]).process "").result
        = Except.ok next)
    ∧ ((n315.DataProcessingPipeline.mk
          (⟨n315.Field.c_str "Alice Baker", n315.Field.c_str "Sales",
            n315.Field.double (Double.lit 50000 1), n315.Field.c_str "1950-01-15"⟩ : n315.Record)
          [fun _ _ console => (Except.error (Fault.thrown "negative value supplied"),
              console ++ "called;"),
            n315.DepartmentUpdater.action]).process [n315.Field.double (Double.lit 5 2)] ""
        = ⟨Except.error (Fault.thrown "negative value supplied"),
            ⟨⟨n315.Field.c_str "Alice Baker", n315.Field.c_str "Sales",
              n315.Field.double (Double.lit 50000 1), n315.Field.c_str "1950-01-15"⟩,
              [fun _ _ console => (Except.error (Fault.thrown "negative value supplied"),
                  console ++ "called;"),
                n315.DepartmentUpdater.action]⟩,
            "" ++ "called;"⟩
      ∧ ¬ ∃ next, ((n315.DataProcessingPipeline.mk
          (⟨n315.Field.c_str "Alice Baker", n315.Field.c_str "Sales",
            n315.Field.double (Double.lit 50000 1), n315.Field.c_str "1950-01-15"⟩ : n315.Record)
          [fun _ _ console => (Except.error (Fault.thrown "negative value supplied"),
              console ++ "called;"),
            n315.DepartmentUpdater.action]).process [n315.Field.double (Double.lit 5 2)]
            "").result = Except.ok next) :=
  process_propagates_the_error_of_the_head_stage
    (n313_manufacturing.Product.RawMaterial "Raw Steel")
    (fun _ console => (Except.error (Fault.thrown "negative value supplied"),
      console ++ "called;"))
    [pureStage n313_manufacturing.AssemblyDepartment.process]
    (⟨n315.Field.c_str "Alice Baker", n315.Field.c_str "Sales",
      n315.Field.double (Double.lit 50000 1), n315.Field.c_str "1950-01-15"⟩ : n315.Record)
    (fun _ _ console => (Except.error (Fault.thrown "negative value supplied"),
      console ++ "called;"))
    [n315.DepartmentUpdater.action] [n315.Field.double (Double.lit 5 2)]
    "" ("" ++ "called;") ("" ++ "called;") "negative value supplied" "negative value supplied"
    rfl rfl

/-- The pattern occurs at the first character of `s` exactly when `s` is the
pattern followed by some text. -/
lemma starts_with_iff (s pat : List Char) :
    n313_manufacturing.startsWith s pat = true ↔ ∃ t, s = pat ++ t := by
  induction pat generalizing s with
  | nil =>
    cases s <;> simp [n313_manufacturing.startsWith]
  | cons d pat ih =>
    cases s with
    | nil => simp [n313_manufacturing.startsWith]
    | cons c s =>
      simp only [n313_manufacturing.startsWith, Bool.and_eq_true, beq_iff_eq, ih,
        List.cons_append, List.cons.injEq]
      constructor
      · rintro ⟨rfl, t, rfl⟩
        exact ⟨t, rfl, rfl⟩
      · rintro ⟨t, rfl, rfl⟩
        exact ⟨rfl, t, rfl⟩

/-- The call `s.find(pat)` differs from `npos` exactly when `pat` occurs in
`s`: `s` is some text, the pattern, and some text. -/
lemma find_ne_none_iff (s pat : List Char) :
    n313_manufacturing.find s pat ≠ none ↔ ∃ a b, s = a ++ pat ++ b := by
  induction s with
  | nil =>
    simp only [n313_manufacturing.find]
    constructor
    · intro h
      by_cases hs : n313_manufacturing.startsWith [] pat = true
      · obtain ⟨t, ht⟩ := (starts_with_iff [] pat).mp hs
        exact ⟨[], t, by simpa using ht⟩
      · simp [hs] at h
    · rintro ⟨a, b, h⟩
      have hp : pat = [] := by
        have := congrArg List.length h
        simp only [List.length_nil, List.length_append] at this
        exact List.length_eq_zero.mp (by omega)
      subst hp
      simp [n313_manufacturing.startsWith]
  | cons c s ih =>
    simp only [n313_manufacturing.find]
    constructor
    · intro h
      by_cases hs : n313_manufacturing.startsWith (c :: s) pat = true
      · obtain ⟨t, ht⟩ := (starts_with_iff (c :: s) pat).mp hs
        exact ⟨[], t, by simpa using ht⟩
      · simp only [hs, Bool.false_eq_true, if_false, ne_eq, Option.map_eq_none'] at h
        obtain ⟨a, b, hab⟩ := ih.mp h
        exact ⟨c :: a, b, by simp [hab]⟩
    · rintro ⟨a, b, h⟩
      by_cases hs : n313_manufacturing.startsWith (c :: s) pat = true
      · simp [hs]
      · simp only [hs, Bool.false_eq_true, if_false, ne_eq, Option.map_eq_none']
        apply ih.mpr
        cases a with
        | nil =>
          exact absurd ((starts_with_iff (c :: s) pat).mpr ⟨b, by simpa using h⟩) hs
        | cons a0 a =>
          simp only [List.cons_append, List.cons.injEq] at h
          exact ⟨a, b, h.2⟩

/-- A string contains a pattern exactly when the search of its characters
for the characters of the pattern finds a position. -/
lemma contains_iff_find (value pat : String) :
    (∃ before after : String, value = before ++ pat ++ after)
      ↔ n313_manufacturing.find value.data pat.data ≠ none := by
  rw [find_ne_none_iff]
  constructor
  · rintro ⟨before, after, h⟩
    exact ⟨before.data, after.data, by rw [h]; simp⟩
  · rintro ⟨a, b, h⟩
    refine ⟨⟨a⟩, ⟨b⟩, ?_⟩
    apply String.ext
    rw [h]
    simp

/-- C30. For every product `p`, of any of the three product types,
`QualityControlDepartment::process(p)` returns a `SemiFinishedProduct`; its
value is `p.value + " - Rejected"` if `p.value` contains the substring
`"Defect"` (it is some text, `"Defect"`, some text) and
`p.value + " - Passed QC"` otherwise. So `"Raw Steel - Defect - Assembled"`
is rejected and `"Raw Steel - Assembled"` passes, as in the two tests. -/
theorem quality_control_rejects_exactly_values_with_defect (p : n313_manufacturing.Product) :
    ((∃ before after : String, p.value = before ++ "Defect" ++ after) →
        n313_manufacturing.QualityControlDepartment.process p
          = n313_manufacturing.Product.SemiFinishedProduct (p.value ++ " - Rejected"))
    ∧ ((¬ ∃ before after : String, p.value = before ++ "Defect" ++ after) →
        n313_manufacturing.QualityControlDepartment.process p
          = n313_manufacturing.Product.SemiFinishedProduct (p.value ++ " - Passed QC"))
    ∧ (n313_manufacturing.QualityControlDepartment.process
          (n313_manufacturing.Product.SemiFinishedProduct "Raw Steel - Defect - Assembled")
        = n313_manufacturing.Product.SemiFinishedProduct
            "Raw Steel - Defect - Assembled - Rejected"
      ∧ n313_manufacturing.QualityControlDepartment.process
          (n313_manufacturing.Product.SemiFinishedProduct "Raw Steel - Assembled")
        = n313_manufacturing.Product.SemiFinishedProduct "Raw Steel - Assembled - Passed QC") := by
  refine ⟨fun h => ?_, fun h => ?_, by decide, by decide⟩
  · have hf := (contains_iff_find p.value "Defect").mp h
    simp [n313_manufacturing.QualityControlDepartment.process, hf]
  · have hf : ¬ n313_manufacturing.find p.value.data "Defect".data ≠ none :=
      fun hn => h ((contains_iff_find p.value "Defect").mpr hn)
    simp only [n313_manufacturing.QualityControlDepartment.process]
    rw [if_neg hf]

/-! ## Lines with a logging stage -/

/-- C31. Inserting a logging stage does not change the result: for every raw
material, every logger and every state of the console, the line
`[Assembly, LoggingDepartment<Logger>, QualityControl]` processed three
times and the line `[Assembly, QualityControl]` processed twice are both
complete and have the same final state, the material assembled and then
checked; only the console differs. For `"Raw Steel"` with `ConsoleLogger`
the final value is `"Raw Steel - Assembled - Passed QC"`. -/
theorem logging_stage_does_not_change_the_final_state {World ε : Type}
    (Logger_log : String → World → World) (value : String) (w : World) :
    (∃ (with_logging without_logging : n313_manufacturing.ProductionLine
          n313_manufacturing.Product World ε) (w' : World),
      n313_manufacturing.ProductionLine.process_times 3
          (n313_manufacturing.create_production_line
            (n313_manufacturing.Product.RawMaterial value)
            [pureStage n313_manufacturing.AssemblyDepartment.process,
              n313_manufacturing.LoggingDepartment.process Logger_log,
              pureStage n313_manufacturing.QualityControlDepartment.process]) w
        = (Except.ok with_logging, w')
      ∧ n313_manufacturing.ProductionLine.process_times 2
          (n313_manufacturing.create_production_line
            (n313_manufacturing.Product.RawMaterial value)
            [pureStage n313_manufacturing.AssemblyDepartment.process,
              pureStage n313_manufacturing.QualityControlDepartment.process]) w
        = (Except.ok without_logging, w)
      ∧ with_logging.get_final_state = without_logging.get_final_state
      ∧ without_logging.get_final_state
        = Except.ok (n313_manufacturing.QualityControlDepartment.process
            (n313_manufacturing.AssemblyDepartment.process
              (n313_manufacturing.Product.RawMaterial value))))
    ∧ (n313_manufacturing.ProductionLine.process_times 3
          (n313_manufacturing.create_production_line
            (n313_manufacturing.Product.RawMaterial "Raw Steel")
            [pureStage n313_manufacturing.AssemblyDepartment.process,
              n313_manufacturing.LoggingDepartment.process n313_manufacturing.ConsoleLogger.log,
              pureStage n313_manufacturing.QualityControlDepartment.process] :
            n313_manufacturing.ProductionLine n313_manufacturing.Product String ε) ""
        = (Except.ok ⟨n313_manufacturing.Product.SemiFinishedProduct
              "Raw Steel - Assembled - Passed QC", []⟩,
            "[LOG]: Processed: Raw Steel - Assembled\n")) := by
  refine ⟨⟨⟨_, []⟩, ⟨_, []⟩, _, rfl, rfl, rfl, rfl⟩, ?_⟩
  have h : n313_manufacturing.QualityControlDepartment.process
      (n313_manufacturing.AssemblyDepartment.process
        (n313_manufacturing.Product.RawMaterial "Raw Steel"))
      = n313_manufacturing.Product.SemiFinishedProduct "Raw Steel - Assembled - Passed QC" := by
    decide
  have hlog : n313_manufacturing.ConsoleLogger.log
      ("Processed: " ++ (n313_manufacturing.AssemblyDepartment.process
        (n313_manufacturing.Product.RawMaterial "Raw Steel")).value) ""
      = "[LOG]: Processed: Raw Steel - Assembled\n" := by decide
  rw [← h, ← hlog]
  rfl

/-! ## The default tenure -/

set_option maxRecDepth 100000 in
set_option exponentiation.threshold 2000 in
/-- The steps of test case 2 of `run_tests`: the `int` sales amount `1500` is
not negative, its rate in the table of the test is `0.07`, and the bonus for
the tenure `7` is `0.02`. -/
lemma test_case_2_steps :
    (n302.SalesData.of_int 1500).lt_zero = false
    ∧ n302.test_tiers_2.getCommissionRate (n302.SalesData.of_int 1500).to_double
      = Except.ok (Double.lit 7 2)
    ∧ n302.TenureBonusPolicy.getBonusPercentage 7 = Except.ok (Double.lit 2 2) := by
  decide

/-- C34. The tenure argument defaults to `7`: for every base calculator,
sales amount, tier lookup, bonus policy and world, `calculateCommission`
called without a tenure has the outcome (result or failure, and world) of the
call with the tenure `7`. In test case 2 of `run_tests`, which passes no
tenure, the result is `1500 * 0.08 * 0.07 * (1.0 + 0.02)`, the bonus being
that of seven years; and a policy that records the tenure it is called
with records `7`. -/
theorem tenure_defaults_to_seven {World : Type}
    (BaseCommissionCalculator : Double → World → Outcome World n302.Exception Double)
    (sales : n302.SalesData)
    (tiers : Double → World → Outcome World n302.Exception Double)
    (bonusPolicy : Int → World → Outcome World n302.Exception Double) (w : World) :
    n302.calculateCommission_default BaseCommissionCalculator sales tiers bonusPolicy w
      = n302.calculateCommission BaseCommissionCalculator sales tiers bonusPolicy 7 w
    ∧ n302.calculateCommission_default (n302.pureCall n302.CategoryAdjustedBaseCommission)
        (n302.SalesData.of_int 1500) (n302.pureCall n302.test_tiers_2.getCommissionRate)
        (n302.pureCall n302.TenureBonusPolicy.getBonusPercentage) w
      = (Except.ok (Double.ofInt 1500 * Double.lit 8 2 * Double.lit 7 2
          * (Double.lit 10 1 + Double.lit 2 2)), w)
    ∧ ∀ (bonus : Double) (tenures : List Int),
      (n302.calculateCommission_default (n302.pureCall n302.CategoryAdjustedBaseCommission)
        (n302.SalesData.of_int 1500) (n302.pureCall n302.test_tiers_2.getCommissionRate)
        (fun tenureYears called => (Except.ok bonus, tenureYears :: called)) tenures).2
      = 7 :: tenures := by
  obtain ⟨h1, h2, h3⟩ := test_case_2_steps
  refine ⟨rfl, ?_, ?_⟩
  · exact commission_of_returning_components
      (n302.pureCall n302.CategoryAdjustedBaseCommission) (n302.SalesData.of_int 1500)
      (n302.pureCall n302.test_tiers_2.getCommissionRate)
      (n302.pureCall n302.TenureBonusPolicy.getBonusPercentage) 7 w w w w
      (Double.ofInt 1500 * Double.lit 8 2) (Double.lit 7 2) (Double.lit 2 2) h1
      (pure_call_ok n302.CategoryAdjustedBaseCommission _ _ w rfl)
      (pure_call_ok _ _ _ w h2) (pure_call_ok _ _ _ w h3)
  · intro bonus tenures
    exact congrArg Prod.snd
      (commission_of_returning_components
        (n302.pureCall n302.CategoryAdjustedBaseCommission) (n302.SalesData.of_int 1500)
        (n302.pureCall n302.test_tiers_2.getCommissionRate)
        (fun tenureYears called => (Except.ok bonus, tenureYears :: called))
        7 tenures tenures tenures (7 :: tenures)
        (Double.ofInt 1500 * Double.lit 8 2) (Double.lit 7 2) bonus h1
        (pure_call_ok n302.CategoryAdjustedBaseCommission _ _ tenures rfl)
        (pure_call_ok _ _ _ tenures h2) rfl)

/-! ## The search after an append -/

/-- C38. The search distributes over appending: for every ledger, every
predicate and every entry `add_entry` constructs from its arguments,
`find_entries` on the ledger after `add_entry` returns what it returns on
the ledger before, followed by the new entry when the predicate holds for
it and by nothing otherwise. -/
theorem find_entries_distributes_over_add_entry {EntryType Args World : Type}
    (construct : Args → World → EntryType × World)
    (ledger : business_operations.Ledger EntryType) (args : Args) (w : World)
    (predicate : EntryType → Bool) :
    (predicate (construct args w).1 = true →
      ((ledger.add_entry construct args w).1.find_entries predicate).1
        = (ledger.find_entries predicate).1 ++ [(construct args w).1])
    ∧ (predicate (construct args w).1 = false →
      ((ledger.add_entry construct args w).1.find_entries predicate).1
        = (ledger.find_entries predicate).1)
    ∧ ∀ entry : EntryType,
      ((ledger.add_entry (fun (e : EntryType) (w : World) => (e, w)) entry w).1.find_entries
          predicate).1
        = (ledger.find_entries predicate).1 ++ (if predicate entry then [entry] else []) := by
  refine ⟨?_, ?_, ?_⟩
  · intro h
    rw [find_entries_eq_filter, find_entries_eq_filter]
    simp [business_operations.Ledger.add_entry, List.filter_append, h]
  · intro h
    rw [find_entries_eq_filter, find_entries_eq_filter]
    simp [business_operations.Ledger.add_entry, List.filter_append, h]
  · intro entry
    rw [find_entries_eq_filter, find_entries_eq_filter]
    by_cases h : predicate entry = true <;>
      simp [business_operations.Ledger.add_entry, List.filter_append, h]

/-! ## The bounds assertion of `nth_type` -/

/-- On a position in range, `nth_type<N, Ts...>` meets one assertion for each
level `k < N` of the recursion, with the condition
`N - k < sizeof...(rest) + 1` on the list without its first `k` types. -/
lemma nth_type_assertions_levels {Ty : Type} (N : Nat) (Ts : List Ty) (h : N < Ts.length) :
    (n313_3.nth_type_assertions N Ts).length = N
    ∧ ∀ k, k < N → (n313_3.nth_type_assertions N Ts)[k]?
        = some (decide (N - k < (Ts.drop k).tail.length + 1)) := by
  induction N generalizing Ts with
  | zero =>
    cases Ts with
    | nil => simp at h
    | cons T Ts => exact ⟨rfl, fun k hk => absurd hk (Nat.not_lt_zero k)⟩
  | succ N ih =>
    cases Ts with
    | nil => simp at h
    | cons T Ts =>
      have h' : N < Ts.length := by simpa using h
      obtain ⟨hlen, hlev⟩ := ih Ts h'
      refine ⟨by simp [n313_3.nth_type_assertions, hlen], ?_⟩
      intro k hk
      cases k with
      | zero => simp [n313_3.nth_type_assertions]
      | succ k =>
        have hk' : k < N := by omega
        simp only [n313_3.nth_type_assertions, List.getElem?_cons_succ, List.drop_succ_cons,
          Nat.add_sub_add_right]
        exact hlev k hk'

/-- C39. The bounds assertion inside `nth_type` is never violated on a valid
lookup: for every type list and every position `N` below its length, the
instantiation meets exactly `N` assertions, one at each level `k < N` of the
recursion, where the index is `N - k` and the list has lost its first `k`
types; the condition asserted there is `N - k < sizeof...(rest) + 1`, `rest`
being the types after the head of that list, and it holds. -/
theorem bounds_assertion_holds_on_valid_lookup {Ty : Type} (Ts : List Ty)
    (N : Fin Ts.length) :
    (n313_3.nth_type_assertions N.val Ts).length = N.val
    ∧ (∀ k, k < N.val →
        (n313_3.nth_type_assertions N.val Ts)[k]?
          = some (decide (N.val - k < (Ts.drop k).tail.length + 1))
        ∧ N.val - k < (Ts.drop k).tail.length + 1)
    ∧ ∀ condition ∈ n313_3.nth_type_assertions N.val Ts, condition = true := by
  obtain ⟨hlen, hlev⟩ := nth_type_assertions_levels N.val Ts N.isLt
  have htrue : ∀ k, k < N.val → N.val - k < (Ts.drop k).tail.length + 1 := by
    intro k hk
    have hN := N.isLt
    simp only [List.length_tail, List.length_drop]
    omega
  refine ⟨hlen, fun k hk => ⟨hlev k hk, htrue k hk⟩, ?_⟩
  intro condition hmem
  obtain ⟨k, hk, hget⟩ := List.getElem_of_mem hmem
  have hk' : k < N.val := by rw [← hlen]; exact hk
  have h := hlev k hk'
  rw [List.getElem?_eq_getElem hk, hget] at h
  rw [Option.some.inj h]
  exact decide_eq_true (htrue k hk')

/-! ## Two actions in either order -/

/-- C40. `DepartmentUpdater` and `StandardRaise` commute: for every record,
department `d`, percentage `p` and world, the pipeline
`[DepartmentUpdater, StandardRaise]` processed with `(d)`, `(p)` and the
pipeline `[StandardRaise, DepartmentUpdater]` processed with `(p)`, `(d)`
have the same outcome; for a salary that is a `double` or an `int` both are
complete with the record of department `d`, salary `salary * (1.0 + p)`,
and the name and hire date of the start. The two `apply` templates commute
at every record type with an arithmetic salary. -/
theorem department_updater_and_standard_raise_commute {World ε : Type}
    (r : n315.Record) (d : String) (p : Double) (w : World) :
    (n315.DataProcessingPipeline.process_each
        [[n315.Field.string d], [n315.Field.double p]]
        (n315.start_processing r n315.DepartmentUpdater.action [n315.StandardRaise.action]) w
      = (n315.DataProcessingPipeline.process_each
        [[n315.Field.double p], [n315.Field.string d]]
        (n315.start_processing r n315.StandardRaise.action [n315.DepartmentUpdater.action]) w :
          Outcome World ε (n315.DataProcessingPipeline n315.Record (List n315.Field) World ε)))
    ∧ (∀ salary : Double, r.salary = n315.Field.double salary →
      (n315.DataProcessingPipeline.process_each
        [[n315.Field.double p], [n315.Field.string d]]
        (n315.start_processing r n315.StandardRaise.action [n315.DepartmentUpdater.action]) w :
          Outcome World ε (n315.DataProcessingPipeline n315.Record (List n315.Field) World ε))
      = (Except.ok ⟨⟨r.name, n315.Field.string d,
            n315.Field.double (salary * (Double.lit 10 1 + p)), r.hire_date⟩, []⟩, w))
    ∧ (∀ salary : Int, r.salary = n315.Field.int salary →
      (n315.DataProcessingPipeline.process_each
        [[n315.Field.double p], [n315.Field.string d]]
        (n315.start_processing r n315.StandardRaise.action [n315.DepartmentUpdater.action]) w :
          Outcome World ε (n315.DataProcessingPipeline n315.Record (List n315.Field) World ε))
      = (Except.ok ⟨⟨r.name, n315.Field.string d,
            n315.Field.double (Double.ofInt salary * (Double.lit 10 1 + p)), r.hire_date⟩, []⟩,
          w))
    ∧ ∀ (N D S H : Type) [n315.Arithmetic S] (record : n315.EmployeeRecord N D S H),
      n315.StandardRaise.apply (n315.DepartmentUpdater.apply record d) p
        = n315.DepartmentUpdater.apply (n315.StandardRaise.apply record p) d
      ∧ n315.StandardRaise.apply (n315.DepartmentUpdater.apply record d) p
        = ⟨record.name, d, n315.Arithmetic.toDouble record.salary * (Double.lit 10 1 + p),
            record.hire_date⟩ := by
  obtain ⟨name, department, salary, hire_date⟩ := r
  refine ⟨?_, ?_, ?_, fun N D S H _ record => ⟨rfl, rfl⟩⟩
  · cases salary <;> rfl
  · intro s hs
    simp only at hs
    subst hs
    rfl
  · intro s hs
    simp only at hs
    subst hs
    rfl

/-! ## The bonus as a function of the tenure -/

set_option maxRecDepth 100000 in
set_option exponentiation.threshold 2000 in
/-- The three bonus percentages `0.00`, `0.02`, `0.05` in the order `<=` of
`double`. -/
lemma bonus_order_steps :
    Double.le (Double.lit 0 2) (Double.lit 0 2) = true
    ∧ Double.le (Double.lit 0 2) (Double.lit 2 2) = true
    ∧ Double.le (Double.lit 0 2) (Double.lit 5 2) = true
    ∧ Double.le (Double.lit 2 2) (Double.lit 2 2) = true
    ∧ Double.le (Double.lit 2 2) (Double.lit 5 2) = true
    ∧ Double.le (Double.lit 5 2) (Double.lit 5 2) = true := by
  decide

/-- What `TenureBonusPolicy::getBonusPercentage` returns on the three ranges
of a tenure that is not negative. -/
lemma tenure_bonus_ranges (t : Int) :
    (10 ≤ t → n302.TenureBonusPolicy.getBonusPercentage t = Except.ok (Double.lit 5 2))
    ∧ (5 ≤ t → t ≤ 9 →
      n302.TenureBonusPolicy.getBonusPercentage t = Except.ok (Double.lit 2 2))
    ∧ (0 ≤ t → t ≤ 4 →
      n302.TenureBonusPolicy.getBonusPercentage t = Except.ok (Double.lit 0 2)) := by
  refine ⟨?_, ?_, ?_⟩
  · intro h
    have h0 : ¬ t < 0 := by omega
    simp [n302.TenureBonusPolicy.getBonusPercentage, h0, h]
  · intro h h'
    have h0 : ¬ t < 0 := by omega
    have h10 : ¬ 10 ≤ t := by omega
    simp [n302.TenureBonusPolicy.getBonusPercentage, h0, h10, h]
  · intro h h'
    have h0 : ¬ t < 0 := by omega
    have h10 : ¬ 10 ≤ t := by omega
    have h5 : ¬ 5 ≤ t := by omega
    simp [n302.TenureBonusPolicy.getBonusPercentage, h0, h10, h5]

/-- C33. For every tenure `t >= 0`, `TenureBonusPolicy::getBonusPercentage`
returns `0.05` when `t >= 10`, `0.02` when `5 <= t <= 9` and `0.00` when
`0 <= t <= 4`; hence it is non-decreasing: for `0 <= t <= t'` both calls
return and the bonus of `t` compares `<=` to the bonus of `t'`. -/
theorem tenure_bonus_is_a_non_decreasing_step_function (t : Int) :
    (10 ≤ t → n302.TenureBonusPolicy.getBonusPercentage t = Except.ok (Double.lit 5 2))
    ∧ (5 ≤ t → t ≤ 9 →
      n302.TenureBonusPolicy.getBonusPercentage t = Except.ok (Double.lit 2 2))
    ∧ (0 ≤ t → t ≤ 4 →
      n302.TenureBonusPolicy.getBonusPercentage t = Except.ok (Double.lit 0 2))
    ∧ ∀ t' : Int, 0 ≤ t → t ≤ t' →
      ∃ bonus bonus' : Double,
        n302.TenureBonusPolicy.getBonusPercentage t = Except.ok bonus
        ∧ n302.TenureBonusPolicy.getBonusPercentage t' = Except.ok bonus'
        ∧ Double.le bonus bonus' = true := by
  obtain ⟨a, b, c⟩ := tenure_bonus_ranges t
  refine ⟨a, b, c, ?_⟩
  intro t' h0 hle
  obtain ⟨a', b', c'⟩ := tenure_bonus_ranges t'
  obtain ⟨o00, o02, o05, o22, o25, o55⟩ := bonus_order_steps
  by_cases h10 : 10 ≤ t
  · exact ⟨_, _, a h10, a' (by omega), o55⟩
  · by_cases h5 : 5 ≤ t
    · by_cases h10' : 10 ≤ t'
      · exact ⟨_, _, b h5 (by omega), a' h10', o25⟩
      · exact ⟨_, _, b h5 (by omega), b' (by omega) (by omega), o22⟩
    · by_cases h10' : 10 ≤ t'
      · exact ⟨_, _, c h0 (by omega), a' h10', o05⟩
      · by_cases h5' : 5 ≤ t'
        · exact ⟨_, _, c h0 (by omega), b' h5' (by omega), o02⟩
        · exact ⟨_, _, c h0 (by omega), c' (by omega) (by omega), o00⟩

/-! ## The order of `double` values -/

/-- The integer a finite number is at a scale `g` is, at a finer scale, that
integer times a power of two. -/
lemma scaled_shift (s : Bool) (m : Nat) (e g g' : Int) (h1 : g' ≤ g) (h2 : g ≤ e) :
    Double.scaled s m e g' = Double.scaled s m e g * ((2 ^ (g - g').toNat : Nat) : Int) := by
  have h : (e - g').toNat = (e - g).toNat + (g - g').toNat := by omega
  unfold Double.scaled
  rw [h, pow_add]
  push_cast
  ring

/-- The comparison of two finite numbers does not depend on the scale. -/
lemma scaled_le_iff (s t : Bool) (m n : Nat) (e f g g' : Int) (h1 : g' ≤ g) (h2 : g ≤ e)
    (h3 : g ≤ f) :
    Double.scaled s m e g ≤ Double.scaled t n f g
      ↔ Double.scaled s m e g' ≤ Double.scaled t n f g' := by
  rw [scaled_shift s m e g g' h1 h2, scaled_shift t n f g g' h1 h3]
  have hpos : (0 : Int) < ((2 ^ (g - g').toNat : Nat) : Int) := by positivity
  exact (mul_le_mul_right hpos).symm

/-- The comparison `<=` of `double` is transitive. -/
lemma double_le_trans (a b c : Double) (hab : Double.le a b = true)
    (hbc : Double.le b c = true) : Double.le a c = true := by
  cases a with
  | nan => simp [Double.le] at hab
  | inf s =>
    cases b with
    | nan => simp [Double.le] at hab
    | inf t =>
      cases c with
      | nan => simp [Double.le] at hbc
      | inf u => cases s <;> cases t <;> cases u <;> simp_all [Double.le]
      | fin u k h => cases s <;> cases t <;> simp_all [Double.le]
    | fin t n f =>
      cases c with
      | nan => simp [Double.le] at hbc
      | inf u => cases s <;> cases u <;> simp_all [Double.le]
      | fin u k h => simp_all [Double.le]
  | fin s m e =>
    cases b with
    | nan => simp [Double.le] at hab
    | inf t =>
      cases c with
      | nan => simp [Double.le] at hbc
      | inf u => cases t <;> cases u <;> simp_all [Double.le]
      | fin u k h => cases t <;> simp_all [Double.le]
    | fin t n f =>
      cases c with
      | nan => simp [Double.le] at hbc
      | inf u => simp_all [Double.le]
      | fin u k h =>
        simp only [Double.le, decide_eq_true_eq] at hab hbc ⊢
        have hG1 : min e (min f h) ≤ min e f := by simp [min_le_iff, le_min_iff]
        have hG2 : min e (min f h) ≤ min f h := min_le_right _ _
        have hG3 : min e (min f h) ≤ min e h := by simp [min_le_iff, le_min_iff]
        rw [scaled_le_iff s t m n e f _ _ hG1 (min_le_left _ _) (min_le_right _ _)] at hab
        rw [scaled_le_iff t u n k f h _ _ hG2 (min_le_left _ _) (min_le_right _ _)] at hbc
        rw [scaled_le_iff s u m k e h _ _ hG3 (min_le_left _ _) (min_le_right _ _)]
        exact le_trans hab hbc

/-- A value that compares `<=` to some value is not a NaN: it compares `<=`
to itself. -/
lemma double_le_refl_left (a b : Double) (hab : Double.le a b = true) :
    Double.le a a = true := by
  cases a with
  | nan => simp [Double.le] at hab
  | inf s => cases s <;> simp [Double.le]
  | fin s m e => simp [Double.le]

/-- A value some value compares `<=` to is not a NaN: it compares `<=` to
itself. -/
lemma double_le_refl_right (a b : Double) (hab : Double.le a b = true) :
    Double.le b b = true := by
  cases b with
  | nan => cases a <;> simp [Double.le] at hab
  | inf s => cases s <;> simp [Double.le]
  | fin s m e => simp [Double.le]

/-- A value that compares `>` to another does not compare `<=` to it. -/
lemma double_not_le_of_lt (a b : Double) (h : Double.lt b a = true) :
    Double.le a b = false := by
  cases a with
  | nan => cases b <;> simp [Double.lt] at h
  | inf s =>
    cases b with
    | nan => simp [Double.lt] at h
    | inf t => cases s <;> cases t <;> simp_all [Double.le, Double.lt]
    | fin t n f => cases s <;> simp_all [Double.le, Double.lt]
  | fin s m e =>
    cases b with
    | nan => simp [Double.lt] at h
    | inf t => cases t <;> simp_all [Double.le, Double.lt]
    | fin t n f =>
      simp only [Double.le, Double.lt, decide_eq_true_eq, decide_eq_false_iff_not, not_le] at h ⊢
      rw [min_comm]
      exact h

/-! ## The tier lookup -/

/-- The tier lookup on a table of three tiers, for a sales amount that does
not compare `< 0`: the loop with its three tests unrolled; the third test
does not matter, the last rate being returned in both of its branches. -/
lemma commission_rate_of_three_tiers (a b c : Double × Double) (h : [a, b, c].length = 3)
    (sales : Double) (hs : Double.lt sales (Double.ofInt 0) = false) :
    (n302.SimpleCommissionTiers.mk [a, b, c] h).getCommissionRate sales
      = Except.ok (if Double.le sales a.1 then a.2 else if Double.le sales b.1 then b.2
          else c.2) := by
  simp only [n302.SimpleCommissionTiers.getCommissionRate, hs, n302.SimpleCommissionTiers.back,
    List.find?]
  cases Double.le sales a.1 <;> cases Double.le sales b.1 <;> cases Double.le sales c.1 <;> rfl

/-- A table of tiers is a list of three tiers. -/
lemma three_tiers (self : n302.SimpleCommissionTiers) :
    ∃ (a b c : Double × Double) (h : [a, b, c].length = 3),
      self = n302.SimpleCommissionTiers.mk [a, b, c] h := by
  obtain ⟨tiers, hsize⟩ := self
  rcases tiers with _ | ⟨a, _ | ⟨b, _ | ⟨c, _ | ⟨d, rest⟩⟩⟩⟩
  · simp at hsize
  · simp at hsize
  · simp at hsize
  · exact ⟨a, b, c, rfl, rfl⟩
  · simp at hsize

/-- The lookup returns the rate of a tier the sales amount compares `<=` to
the threshold of, when it does so to no threshold before it. -/
lemma commission_rate_of_first_tier (self : n302.SimpleCommissionTiers) (sales : Double)
    (hs : Double.lt sales (Double.ofInt 0) = false)
    (before after : List (Double × Double)) (tier : Double × Double)
    (htiers : self.tiers = before ++ tier :: after)
    (hbefore : ∀ t ∈ before, Double.le sales t.1 = false)
    (htier : Double.le sales tier.1 = true) :
    self.getCommissionRate sales = Except.ok tier.2 := by
  have hfind : self.tiers.find? (fun t => Double.le sales t.1) = some tier := by
    rw [htiers]
    clear htiers
    induction before with
    | nil => simp [List.find?, htier]
    | cons t before ih =>
      have ht := hbefore t (List.mem_cons_self _ _)
      simp only [List.cons_append, List.find?, ht]
      exact ih (fun t' ht' => hbefore t' (List.mem_cons_of_mem _ ht'))
  simp [n302.SimpleCommissionTiers.getCommissionRate, hs, hfind]

/-- The lookup returns the last rate when the sales amount compares `<=` to
no threshold. -/
lemma commission_rate_of_last_tier (self : n302.SimpleCommissionTiers) (sales : Double)
    (hs : Double.lt sales (Double.ofInt 0) = false)
    (hall : ∀ t ∈ self.tiers, Double.le sales t.1 = false) :
    self.getCommissionRate sales = Except.ok self.back.2 := by
  have hfind : self.tiers.find? (fun t => Double.le sales t.1) = none := by
    rw [List.find?_eq_none]
    intro t ht
    simp [hall t ht]
  simp [n302.SimpleCommissionTiers.getCommissionRate, hs, hfind]

/-- C32. For every table and every sales amount `s >= 0`,
`getCommissionRate(s)` returns the rate of the first tier in array order
whose threshold is `>= s`: of a tier that `s` compares `<=` to the threshold
of while it does so to the threshold of no tier before it; and it returns
the rate of the last tier when `s` exceeds every threshold. -/
theorem commission_rate_is_the_rate_of_the_first_tier_reached
    (self : n302.SimpleCommissionTiers) (s : Double)
    (hs : Double.le (Double.ofInt 0) s = true) :
    (∀ (before after : List (Double × Double)) (tier : Double × Double),
      self.tiers = before ++ tier :: after →
      (∀ t ∈ before, Double.le s t.1 = false) →
      Double.le s tier.1 = true →
      self.getCommissionRate s = Except.ok tier.2)
    ∧ ((∀ t ∈ self.tiers, Double.lt t.1 s = true) →
      self.getCommissionRate s = Except.ok self.back.2) := by
  have hs' : Double.lt s (Double.ofInt 0) = false := double_not_lt_zero_of_ge s hs
  refine ⟨fun before after tier htiers hbefore htier =>
    commission_rate_of_first_tier self s hs' before after tier htiers hbefore htier, ?_⟩
  intro hall
  exact commission_rate_of_last_tier self s hs'
    (fun t ht => double_not_le_of_lt s t.1 (hall t ht))

set_option maxRecDepth 100000 in
set_option exponentiation.threshold 2000 in
/-- The sales amounts `1000.0`, `3000.0` and `20000.0` against the thresholds
of the table of the tests. -/
lemma tier_lookup_steps :
    (Double.le (Double.ofInt 0) (Double.lit 10000 1) = true
      ∧ Double.le (Double.lit 10000 1) (Double.lit 10000 1) = true)
    ∧ (Double.le (Double.ofInt 0) (Double.lit 30000 1) = true
      ∧ (∀ t ∈ [(Double.lit 10000 1, Double.lit 2 2)],
          Double.le (Double.lit 30000 1) t.1 = false)
      ∧ Double.le (Double.lit 30000 1) (Double.lit 50000 1) = true)
    ∧ (Double.le (Double.ofInt 0) (Double.lit 200000 1) = true
      ∧ ∀ t ∈ n302.test_tiers.tiers, Double.lt t.1 (Double.lit 200000 1) = true) := by
  decide

/-- C32 at the table `{1000.0, 0.02}, {5000.0, 0.03}, {10000.0, 0.04}` of the
tests: `1000.0` has the rate `0.02`, `3000.0` the rate `0.03` and `20000.0`
the rate `0.04`. -/
theorem commission_rate_is_the_rate_of_the_first_tier_reached_witness :
    n302.test_tiers.getCommissionRate (Double.lit 10000 1) = Except.ok (Double.lit 2 2)
    ∧ n302.test_tiers.getCommissionRate (Double.lit 30000 1) = Except.ok (Double.lit 3 2)
    ∧ n302.test_tiers.getCommissionRate (Double.lit 200000 1) = Except.ok (Double.lit 4 2) :=
  ⟨(commission_rate_is_the_rate_of_the_first_tier_reached n302.test_tiers (Double.lit 10000 1)
      tier_lookup_steps.1.1).1 []
      [(Double.lit 50000 1, Double.lit 3 2), (Double.lit 100000 1, Double.lit 4 2)]
      (Double.lit 10000 1, Double.lit 2 2) rfl
      (fun t ht => absurd ht (List.not_mem_nil t)) tier_lookup_steps.1.2,
    (commission_rate_is_the_rate_of_the_first_tier_reached n302.test_tiers (Double.lit 30000 1)
      tier_lookup_steps.2.1.1).1 [(Double.lit 10000 1, Double.lit 2 2)]
      [(Double.lit 100000 1, Double.lit 4 2)]
      (Double.lit 50000 1, Double.lit 3 2) rfl
      tier_lookup_steps.2.1.2.1 tier_lookup_steps.2.1.2.2,
    (commission_rate_is_the_rate_of_the_first_tier_reached n302.test_tiers (Double.lit 200000 1)
      tier_lookup_steps.2.2.1).2 tier_lookup_steps.2.2.2⟩

/-! ## The rate as a function of the sales amount -/

/-- C37. Whenever the rates of a table are non-decreasing in array order
(each rate compares `<=` to the next), whatever the thresholds,
`getCommissionRate` is non-decreasing in the sales amount: for all sales
amounts with `0 <= s1 <= s2` both lookups return and the rate of `s1`
compares `<=` to the rate of `s2`. -/
theorem commission_rate_is_non_decreasing_in_sales (self : n302.SimpleCommissionTiers)
    (s1 s2 : Double)
    (hrates : List.Chain' (fun a b : Double × Double => Double.le a.2 b.2 = true) self.tiers)
    (h0 : Double.le (Double.ofInt 0) s1 = true) (h12 : Double.le s1 s2 = true) :
    ∃ rate1 rate2 : Double,
      self.getCommissionRate s1 = Except.ok rate1
      ∧ self.getCommissionRate s2 = Except.ok rate2
      ∧ Double.le rate1 rate2 = true := by
  obtain ⟨a, b, c, h, rfl⟩ := three_tiers self
  have hs1 : Double.lt s1 (Double.ofInt 0) = false := double_not_lt_zero_of_ge s1 h0
  have hs2 : Double.lt s2 (Double.ofInt 0) = false :=
    double_not_lt_zero_of_ge s2 (double_le_trans _ _ _ h0 h12)
  refine ⟨_, _, commission_rate_of_three_tiers a b c h s1 hs1,
    commission_rate_of_three_tiers a b c h s2 hs2, ?_⟩
  simp only [List.chain'_cons, List.chain'_singleton, and_true] at hrates
  obtain ⟨hab, hbc⟩ := hrates
  have hac := double_le_trans _ _ _ hab hbc
  have haa := double_le_refl_left _ _ hab
  have hbb := double_le_refl_left _ _ hbc
  have hcc := double_le_refl_right _ _ hbc
  have ha : Double.le s2 a.1 = true → Double.le s1 a.1 = true :=
    fun h2 => double_le_trans _ _ _ h12 h2
  have hb : Double.le s2 b.1 = true → Double.le s1 b.1 = true :=
    fun h2 => double_le_trans _ _ _ h12 h2
  cases h2a : Double.le s2 a.1
  · cases h2b : Double.le s2 b.1
    · cases h1a : Double.le s1 a.1
      · cases h1b : Double.le s1 b.1 <;> simp [hcc, hbc]
      · simp [hac]
    · have h1b := hb h2b
      cases h1a : Double.le s1 a.1
      · simp [h1b, hbb]
      · simp [hab]
  · have h1a := ha h2a
    simp [h1a, haa]

set_option maxRecDepth 100000 in
set_option exponentiation.threshold 2000 in
/-- The rates of the table of the tests are in order, and so are the sales
amounts `0`, `1000.0` and `3000.0`. -/
lemma monotone_lookup_steps :
    (Double.le (Double.lit 2 2) (Double.lit 3 2) = true
      ∧ Double.le (Double.lit 3 2) (Double.lit 4 2) = true)
    ∧ Double.le (Double.ofInt 0) (Double.lit 10000 1) = true
    ∧ Double.le (Double.lit 10000 1) (Double.lit 30000 1) = true := by
  decide

/-- The rates `0.02`, `0.03`, `0.04` of the table of the tests are
non-decreasing in array order. -/
lemma test_tiers_rates_in_order :
    List.Chain' (fun a b : Double × Double => Double.le a.2 b.2 = true)
      n302.test_tiers.tiers :=
  List.chain'_cons.2 ⟨monotone_lookup_steps.1.1,
    List.chain'_cons.2 ⟨monotone_lookup_steps.1.2, List.chain'_singleton _⟩⟩

/-- C37 at the table of the tests and the sales amounts `1000.0` and
`3000.0`. -/
theorem commission_rate_is_non_decreasing_in_sales_witness :
    ∃ rate1 rate2 : Double,
      n302.test_tiers.getCommissionRate (Double.lit 10000 1) = Except.ok rate1
      ∧ n302.test_tiers.getCommissionRate (Double.lit 30000 1) = Except.ok rate2
      ∧ Double.le rate1 rate2 = true :=
  commission_rate_is_non_decreasing_in_sales n302.test_tiers (Double.lit 10000 1)
    (Double.lit 30000 1) test_tiers_rates_in_order monotone_lookup_steps.2.1
    monotone_lookup_steps.2.2

/-! ## Departments append to the value -/

/-- Each provided department returns, and the value of the product it
returns is the value of the product it is given followed by some text. -/
lemma provided_department_appends {World ε : Type}
    (d : n313_manufacturing.ProvidedDepartment World) (p : n313_manufacturing.Product)
    (w : World) :
    ∃ (p' : n313_manufacturing.Product) (w' : World) (appended : String),
      (d.process p w : Outcome World ε n313_manufacturing.Product) = (Except.ok p', w')
      ∧ p'.value = p.value ++ appended := by
  cases d with
  | Assembly => exact ⟨_, w, " - Assembled", rfl, rfl⟩
  | QualityControl =>
    by_cases h : n313_manufacturing.find p.value.data "Defect".data ≠ none
    · refine ⟨_, w, " - Rejected", rfl, ?_⟩
      simp only [n313_manufacturing.QualityControlDepartment.process]
      rw [if_pos h]
      rfl
    · refine ⟨_, w, " - Passed QC", rfl, ?_⟩
      simp only [n313_manufacturing.QualityControlDepartment.process]
      rw [if_neg h]
      rfl
  | Polishing PolishMaterial_name =>
    exact ⟨_, w, " - Polished with " ++ PolishMaterial_name, rfl,
      String.append_assoc _ _ _⟩
  | Packaging DepartmentID =>
    exact ⟨_, w, " - Packed in Box #" ++ toString DepartmentID, rfl,
      String.append_assoc _ _ _⟩
  | Logging Logger_log => exact ⟨p, _, "", rfl, (String.append_empty _).symm⟩

/-- A line of provided departments, processed once for each department, is
complete, and the value it holds is the initial value followed by some
text. -/
lemma provided_line_appends {World ε : Type}
    (ds : List (n313_manufacturing.ProvidedDepartment World))
    (initial : n313_manufacturing.Product) (w : World) :
    ∃ (state : n313_manufacturing.Product) (w' : World) (appended : String),
      n313_manufacturing.ProductionLine.process_times ds.length
          (n313_manufacturing.ProductionLine.mk initial
            (ds.map n313_manufacturing.ProvidedDepartment.process)) w
        = ((Except.ok ⟨state, []⟩, w') : Outcome World ε
            (n313_manufacturing.ProductionLine n313_manufacturing.Product World ε))
      ∧ state.value = initial.value ++ appended := by
  induction ds generalizing initial w with
  | nil => exact ⟨initial, w, "", rfl, (String.append_empty _).symm⟩
  | cons d ds ih =>
    obtain ⟨p', w1, appended1, hd, hv1⟩ := @provided_department_appends World ε d initial w
    obtain ⟨state, w', appended2, hrest, hv2⟩ := ih p' w1
    refine ⟨state, w', appended1 ++ appended2, ?_, ?_⟩
    · simp only [List.length_cons, List.map_cons, n313_manufacturing.ProductionLine.process_times]
      rw [n313_manufacturing.line_process_cons_ok initial p' _ _ w w1 hd]
      exact hrest
    · rw [hv2, hv1, String.append_assoc]

/-- C36. Every provided department only appends: for every product `p`, the
value of `process(p)` is `p.value` followed by some text, for `Assembly`,
`QualityControl`, `Polishing<P>` with any material, `Packaging<N>` with any
number and `Logging<L>` with any logger. Hence for every production line
built from these departments and every initial product, the line processed
once for each department is complete and the value of its final state is
the initial value followed by some text. -/
theorem provided_departments_only_append {World ε : Type} :
    (∀ p : n313_manufacturing.Product, ∃ appended : String,
      (n313_manufacturing.AssemblyDepartment.process p).value = p.value ++ appended)
    ∧ (∀ p : n313_manufacturing.Product, ∃ appended : String,
      (n313_manufacturing.QualityControlDepartment.process p).value = p.value ++ appended)
    ∧ (∀ (PolishMaterial_name : String) (p : n313_manufacturing.Product),
      ∃ appended : String,
        (n313_manufacturing.PolishingDepartment.process PolishMaterial_name p).value
          = p.value ++ appended)
    ∧ (∀ (DepartmentID : Int) (p : n313_manufacturing.Product), ∃ appended : String,
      (n313_manufacturing.PackagingDepartment.process DepartmentID p).value
        = p.value ++ appended)
    ∧ (∀ (Logger_log : String → World → World) (p : n313_manufacturing.Product) (w : World),
      ∃ (p' : n313_manufacturing.Product) (w' : World) (appended : String),
        (n313_manufacturing.LoggingDepartment.process Logger_log p w :
            Outcome World ε n313_manufacturing.Product) = (Except.ok p', w')
        ∧ p'.value = p.value ++ appended)
    ∧ ∀ (ds : List (n313_manufacturing.ProvidedDepartment World))
        (initial : n313_manufacturing.Product) (w : World),
      ∃ (final : n313_manufacturing.ProductionLine n313_manufacturing.Product World ε)
        (w' : World) (state : n313_manufacturing.Product) (appended : String),
        n313_manufacturing.ProductionLine.process_times ds.length
            (n313_manufacturing.create_production_line initial
              (ds.map n313_manufacturing.ProvidedDepartment.process)) w
          = (Except.ok final, w')
        ∧ final.get_final_state = Except.ok state
        ∧ state.value = initial.value ++ appended := by
  refine ⟨?_, ?_, ?_, ?_, ?_, ?_⟩
  · intro p
    obtain ⟨p', w', appended, h, hv⟩ := @provided_department_appends Unit Unit
      n313_manufacturing.ProvidedDepartment.Assembly p ()
    simp only [n313_manufacturing.ProvidedDepartment.process, pureStage, Prod.mk.injEq,
      Except.ok.injEq] at h
    exact ⟨appended, by rw [h.1]; exact hv⟩
  · intro p
    obtain ⟨p', w', appended, h, hv⟩ := @provided_department_appends Unit Unit
      n313_manufacturing.ProvidedDepartment.QualityControl p ()
    simp only [n313_manufacturing.ProvidedDepartment.process, pureStage, Prod.mk.injEq,
      Except.ok.injEq] at h
    exact ⟨appended, by rw [h.1]; exact hv⟩
  · intro PolishMaterial_name p
    exact ⟨" - Polished with " ++ PolishMaterial_name, String.append_assoc _ _ _⟩
  · intro DepartmentID p
    exact ⟨" - Packed in Box #" ++ toString DepartmentID, String.append_assoc _ _ _⟩
  · intro Logger_log p w
    exact @provided_department_appends World ε
      (n313_manufacturing.ProvidedDepartment.Logging Logger_log) p w
  · intro ds initial w
    obtain ⟨state, w', appended, h, hv⟩ := @provided_line_appends World ε ds initial w
    exact ⟨⟨state, []⟩, w', state, appended, h, rfl, hv⟩

/-! ## Assembly before quality control -/

/-- Appending a text to a value neither creates nor hides an occurrence of a
pattern, when the text starts with a character that is not in the pattern
and the pattern does not occur in the text. -/
lemma occurrence_after_append (v pat appended : List Char) (c : Char) (rest : List Char)
    (happended : appended = c :: rest) (hc : c ∉ pat)
    (hnot : ¬ ∃ a b, appended = a ++ pat ++ b) :
    (∃ a b, v ++ appended = a ++ pat ++ b) ↔ ∃ a b, v = a ++ pat ++ b := by
  constructor
  · rintro ⟨a, b, h⟩
    rw [List.append_assoc, List.append_eq_append_iff] at h
    rcases h with ⟨a', ha, happ⟩ | ⟨c', hv, hpat⟩
    · exact absurd ⟨a', b, by rw [happ, List.append_assoc]⟩ hnot
    · rw [List.append_eq_append_iff] at hpat
      rcases hpat with ⟨d, hc', _⟩ | ⟨d, hp, hd⟩
      · exact ⟨a, d, by rw [hv, hc', List.append_assoc]⟩
      · cases d with
        | nil =>
          refine ⟨a, [], ?_⟩
          rw [hv, hp]
          simp
        | cons y d =>
          rw [happended] at hd
          simp only [List.cons_append, List.cons.injEq] at hd
          exact absurd (by rw [hp, hd.1]; simp) hc
  · rintro ⟨a, b, h⟩
    exact ⟨a, b ++ appended, by rw [h]; simp⟩

/-- The text `" - Assembled"` starts with a blank, `"Defect"` has no blank,
and `"Defect"` does not occur in `" - Assembled"`. -/
lemma assembled_steps :
    " - Assembled".data = ' ' :: "- Assembled".data
    ∧ ' ' ∉ "Defect".data
    ∧ n313_manufacturing.find " - Assembled".data "Defect".data = none
    ∧ " - Assembled" ++ " - Rejected" = " - Assembled - Rejected"
    ∧ " - Assembled" ++ " - Passed QC" = " - Assembled - Passed QC"
    ∧ " - Assembled - Passed QC".data ≠ " - Assembled - Rejected".data := by
  decide

/-- A value followed by `" - Assembled"` contains `"Defect"` exactly when the
value does. -/
lemma defect_in_assembled_value (value : String) :
    n313_manufacturing.find (value ++ " - Assembled").data "Defect".data ≠ none
      ↔ ∃ before after : String, value = before ++ "Defect" ++ after := by
  obtain ⟨h1, h2, h3, _⟩ := assembled_steps
  rw [contains_iff_find, find_ne_none_iff, find_ne_none_iff, String.data_append]
  exact occurrence_after_append value.data "Defect".data " - Assembled".data ' '
    "- Assembled".data h1 h2 (fun h => (find_ne_none_iff _ _).mpr h h3)

/-- C35. For every raw material value `v`, the line
`[AssemblyDepartment, QualityControlDepartment]` processed twice is complete
and its final state has the value `v + " - Assembled - Rejected"` if and only
if `v` itself contains `"Defect"`, and `v + " - Assembled - Passed QC"`
otherwise: `v + " - Assembled"`, the value quality control sees, contains
`"Defect"` exactly when `v` does. -/
theorem assembled_suffix_neither_creates_nor_hides_a_defect {World ε : Type}
    (value : String) (w : World) :
    ∃ (final : n313_manufacturing.ProductionLine n313_manufacturing.Product World ε)
      (state : n313_manufacturing.Product),
      n313_manufacturing.ProductionLine.process_times 2
          (n313_manufacturing.create_production_line
            (n313_manufacturing.Product.RawMaterial value)
            [pureStage n313_manufacturing.AssemblyDepartment.process,
              pureStage n313_manufacturing.QualityControlDepartment.process]) w
        = (Except.ok final, w)
      ∧ final.get_final_state = Except.ok state
      ∧ (state.value = value ++ " - Assembled - Rejected"
          ↔ ∃ before after : String, value = before ++ "Defect" ++ after)
      ∧ ((¬ ∃ before after : String, value = before ++ "Defect" ++ after) →
          state.value = value ++ " - Assembled - Passed QC")
      ∧ ((∃ before after : String, value ++ " - Assembled" = before ++ "Defect" ++ after)
          ↔ ∃ before after : String, value = before ++ "Defect" ++ after) := by
  obtain ⟨_, _, _, hrej, hpass, hne⟩ := assembled_steps
  have hdefect := defect_in_assembled_value value
  have hrejected : (∃ before after : String, value = before ++ "Defect" ++ after) →
      (n313_manufacturing.QualityControlDepartment.process
        (n313_manufacturing.AssemblyDepartment.process
          (n313_manufacturing.Product.RawMaterial value))).value
        = value ++ " - Assembled - Rejected" := by
    intro h
    have hf := hdefect.mpr h
    simp only [n313_manufacturing.QualityControlDepartment.process,
      n313_manufacturing.AssemblyDepartment.process, n313_manufacturing.Product.value]
    rw [if_pos hf, ← hrej, String.append_assoc]
  have hpassed : (¬ ∃ before after : String, value = before ++ "Defect" ++ after) →
      (n313_manufacturing.QualityControlDepartment.process
        (n313_manufacturing.AssemblyDepartment.process
          (n313_manufacturing.Product.RawMaterial value))).value
        = value ++ " - Assembled - Passed QC" := by
    intro h
    have hf : ¬ n313_manufacturing.find (value ++ " - Assembled").data "Defect".data ≠ none :=
      fun hn => h (hdefect.mp hn)
    simp only [n313_manufacturing.QualityControlDepartment.process,
      n313_manufacturing.AssemblyDepartment.process, n313_manufacturing.Product.value]
    rw [if_neg hf, ← hpass, String.append_assoc]
  refine ⟨⟨_, []⟩, _, rfl, rfl, ⟨?_, hrejected⟩, hpassed, ?_⟩
  · intro h
    by_contra hno
    have hdata := congrArg String.data ((hpassed hno).symm.trans h)
    rw [String.data_append, String.data_append] at hdata
    exact hne (List.append_cancel_left hdata)
  · rw [contains_iff_find]
    exact hdefect
